import Mathlib

/-!
# Chaste: growth-law modifier and Alarcon (2004) cell-cycle ODE system

A shallow embedding of

* `cell_based/src/simulation/modifiers/TargetAreaNuclearMigrationGrowthModifier.cpp`
* `cell_based/src/odes/Alarcon2004OxygenBasedCellCycleOdeSystem.cpp`
* `cell_based/src/cell_based_pde/AbstractPdeModifier.cpp` (the averaged-source dispatch)

together with a model of the lattice-based simulation engine, which is written from the
specification because its code is not among the sources.

Conventions of the embedding.

* In the first part of the development a C++ `double` is an exact rational number (`ℚ`):
  rounding, overflow, infinities and NaN are not represented, and division is the total
  division of `ℚ`.  The theorems of this part are about the comparisons with thresholds,
  which branch is taken, which keys are read and written, which errors are raised and in
  which state they leave the program, and about values at concrete inputs.
* In the namespace `Rounded` the growth law and the right-hand side of the ODE system are
  embedded a second time, over `Double`, a model of IEEE 754 binary64 arithmetic with its
  rounding to nearest, its overflow to the infinities, its signed zeros and its
  not-a-number.  The theorems about the values that this code computes on every input are
  stated there.
* A thrown `Exception` is the `error` branch of `Except`; stateful code that can throw after
  it has changed state returns the outcome together with the state it leaves behind.
* A `Cell` records what each getter used by the modifier returns for that cell at the time
  of the call; the process-wide `SimulationTime` is an explicit argument.
-/

namespace Chaste

/-! ## Exceptions and cell data -/

/-- What Chaste's `EXCEPTION(...)` throws.  `message text` is an exception thrown by the
code embedded here, carrying its text.  The other two come from collaborators that are not
among the sources and are named after the error taxonomy of the specification:
`dataNotFound item` is thrown by `CellData::GetItem` for a key that was never stored, and
`invalidOperation` by `GetCellUsingLocationIndex` for an index with no cell attached. -/
inductive Exception where
  | message (text : String)
  | dataNotFound (item : String)
  | invalidOperation
  deriving DecidableEq, Repr

/-- The per-cell key-value store (`std::map<std::string, double>` inside `CellData`), as an
association list with at most one binding per key. -/
abbrev CellData := List (String × ℚ)

/-- Modelled from the spec: `CellData::GetItem` is not among the sources.  Reading a key
that was never written is the fatal `DataNotFound` error; otherwise the stored value is
returned. -/
def CellData.GetItem : CellData → String → Except Exception ℚ
  | [], k => .error (.dataNotFound k)
  | (k1, v1) :: rest, k => if k1 = k then .ok v1 else CellData.GetItem rest k

/-- Modelled from the spec: `CellData::SetItem` is not among the sources.  Writes the value
under the key, replacing the previous binding of that key when there is one and leaving
every other binding as it is. -/
def CellData.SetItem : CellData → String → ℚ → CellData
  | [], k, v => [(k, v)]
  | (k1, v1) :: rest, k, v =>
      if k1 = k then (k, v) :: rest else (k1, v1) :: CellData.SetItem rest k v

/-! ## Cells -/

/-- The largest finite `double`, `DBL_MAX` of `<cfloat>`: `(2^53 - 1) * 2^971`. -/
def DBL_MAX : ℚ := (2 ^ 53 - 1) * 2 ^ 971

/-- What the getters of a cell's cell-cycle model return. -/
structure CellCycleModel where
  /-- Result of `GetG1Duration()` -/
  g1Duration : ℚ
  /-- Result of `GetSDuration()` -/
  sDuration : ℚ
  /-- Result of `GetG2Duration()` -/
  g2Duration : ℚ
  /-- Result of `GetMDuration()` -/
  mDuration : ℚ
  /-- Result of `GetTransitCellG1Duration()` -/
  transitCellG1Duration : ℚ
  deriving DecidableEq, Repr

/-- A cell, as seen by a modifier: the value of each getter, and its data store. -/
structure Cell where
  /-- Result of `GetCellId()` -/
  cellId : Nat
  /-- Result of `GetAge()` -/
  age : ℚ
  /-- Result of `GetBirthTime()` -/
  birthTime : ℚ
  /-- Result of `GetStartOfApoptosisTime()` -/
  startOfApoptosisTime : ℚ
  /-- Result of `GetApoptosisTime()`: the duration of apoptosis -/
  apoptosisTime : ℚ
  /-- Result of `HasCellProperty<ApoptoticCellProperty>()` -/
  hasApoptoticCellProperty : Bool
  /-- Result of `ReadyToDivide()` -/
  readyToDivide : Bool
  /-- Result of `GetCellCycleModel()` -/
  cellCycleModel : CellCycleModel
  /-- Result of `GetCellData()` -/
  cellData : CellData
  deriving DecidableEq, Repr

/-! ## TargetAreaNuclearMigrationGrowthModifier -/

/-- The member variables of the modifier. -/
structure TargetAreaNuclearMigrationGrowthModifier where
  mMatureCellTargetArea : ℚ
  mIntermediateCellTargetArea : ℚ
  deriving DecidableEq, Repr

namespace TargetAreaNuclearMigrationGrowthModifier

/-- The constructor. -/
def new : TargetAreaNuclearMigrationGrowthModifier :=
  { mMatureCellTargetArea := 1, mIntermediateCellTargetArea := 0.55 }

/-- The G1 duration the growth law works with: a differentiated cell reports `DBL_MAX`, and
the transit-cell G1 duration is taken in its place. -/
def g1_duration (pCell : Cell) : ℚ :=
  if pCell.cellCycleModel.g1Duration = DBL_MAX then
    pCell.cellCycleModel.transitCellG1Duration
  else
    pCell.cellCycleModel.g1Duration

/-- The body of `UpdateTargetAreaOfCell` between the read of `"slope"` and the write of
`"target area"`: the value of the local `cell_target_area` when it is stored. -/
def cell_target_area (self : TargetAreaNuclearMigrationGrowthModifier) (time : ℚ)
    (pCell : Cell) (cell_slope : ℚ) : ℚ :=
  let area0 := self.mMatureCellTargetArea
  let cell_age := pCell.age
  let g1 := g1_duration pCell
  let s_duration := pCell.cellCycleModel.sDuration
  let g2_duration := pCell.cellCycleModel.g2Duration
  let m_duration := pCell.cellCycleModel.mDuration
  if pCell.hasApoptoticCellProperty then
    -- age of the cell when apoptosis begins
    let area1 :=
      if pCell.startOfApoptosisTime - pCell.birthTime < g1 then
        area0 * (0.5 * (1 + (pCell.startOfApoptosisTime - pCell.birthTime) / g1))
      else area0
    let area2 := area1 - 0.5 * area1 / pCell.apoptosisTime * (time - pCell.startOfApoptosisTime)
    -- don't allow a negative target area
    if area2 < 0 then 0 else area2
  else
    if cell_age < g1 * 1.1 then
      0.5 + cell_age / (cell_slope * 8.0)
    else if cell_age > g1 + s_duration then
      let target_area_post_g1 := 0.5 + pCell.cellCycleModel.g1Duration / (cell_slope * 8.0)
      target_area_post_g1
        + ((cell_age - g1 - s_duration) / (g2_duration + m_duration)) * (1 - target_area_post_g1)
    else if pCell.readyToDivide then
      0.5 * self.mMatureCellTargetArea
    else
      area0

/-- Method `UpdateTargetAreaOfCell(CellPtr pCell)`: reads `"slope"` (which throws when it is not
stored), computes the target area and stores it under `"target area"`. -/
def UpdateTargetAreaOfCell (self : TargetAreaNuclearMigrationGrowthModifier) (time : ℚ)
    (pCell : Cell) : Except Exception Cell :=
  match pCell.cellData.GetItem "slope" with
  | .error e => .error e
  | .ok cell_slope =>
      .ok { pCell with
        cellData := pCell.cellData.SetItem "target area"
          (cell_target_area self time pCell cell_slope) }

end TargetAreaNuclearMigrationGrowthModifier

/-! ### Cell populations -/

/-- The concrete class of a cell population, which is what
`dynamic_cast<VertexBasedCellPopulation<DIM>*>` inspects. -/
inductive PopulationKind where
  | vertexBased
  | pottsBased
  | nodeBased
  | meshBased
  | caBased
  deriving DecidableEq, Repr

/-- The mutable part of a cell population that the modifier touches. -/
structure PopulationState where
  /-- The indices of the mesh elements, in the order in which the element iterator of
  `rGetMesh()` visits them. -/
  elementIndices : List Nat
  /-- The cell attached to each location index, if there is one.  Cells are held by pointer
  and a live cell is attached to exactly one element, so writing to the cell found at an
  index changes the cell at that index and no other. -/
  locationCellMap : Nat → Option Cell

/-- An `AbstractCellPopulation` object: its concrete class, its virtual `Update()` and its
state. -/
structure AbstractCellPopulation where
  kind : PopulationKind
  /-- The virtual method `Update()` of the concrete class, a transformer of the state. -/
  Update : PopulationState → PopulationState
  state : PopulationState

/-- Modelled from the spec: `GetCellUsingLocationIndex` is not among the sources.  It
returns the cell attached to the index; an index with no cell attached is an
`InvalidOperation` error. -/
def PopulationState.GetCellUsingLocationIndex (st : PopulationState) (index : Nat) :
    Except Exception Cell :=
  match st.locationCellMap index with
  | some pCell => .ok pCell
  | none => .error .invalidOperation

/-- The effect on the population of a write through the cell pointer obtained for `index`. -/
def PopulationState.setCell (st : PopulationState) (index : Nat) (pCell : Cell) :
    PopulationState :=
  { st with locationCellMap := Function.update st.locationCellMap index (some pCell) }

namespace TargetAreaNuclearMigrationGrowthModifier

/-- The text of the exception of `UpdateTargetAreas`. -/
def vertexOnlyMessage : String :=
  "TargetAreaNuclearMigrationGrowthModifier is to be used with a VertexBasedCellPopulation only"

/-- The `for` loop of `UpdateTargetAreas` over the remaining element indices.  The outcome
comes with the state the loop leaves behind, which on an exception holds the writes made
before it was thrown. -/
def updateElements (self : TargetAreaNuclearMigrationGrowthModifier) (time : ℚ) :
    List Nat → PopulationState → Except Exception Unit × PopulationState
  | [], st => (.ok (), st)
  | elem_index :: rest, st =>
      match st.GetCellUsingLocationIndex elem_index with
      | .error e => (.error e, st)
      | .ok pCell =>
          match UpdateTargetAreaOfCell self time pCell with
          | .error e => (.error e, st)
          | .ok updated => updateElements self time rest (st.setCell elem_index updated)

/-- Method `UpdateTargetAreas(rCellPopulation)`: updates the population, rejects every population
that is not vertex based, and then updates the cell of every mesh element. -/
def UpdateTargetAreas (self : TargetAreaNuclearMigrationGrowthModifier) (time : ℚ)
    (rCellPopulation : AbstractCellPopulation) :
    Except Exception Unit × AbstractCellPopulation :=
  -- make sure the cell population is updated
  let st := rCellPopulation.Update rCellPopulation.state
  if rCellPopulation.kind ≠ .vertexBased then
    (.error (.message vertexOnlyMessage), { rCellPopulation with state := st })
  else
    let r := updateElements self time st.elementIndices st
    (r.1, { rCellPopulation with state := r.2 })

/-- Method `UpdateAtEndOfTimeStep(rCellPopulation)`. -/
def UpdateAtEndOfTimeStep (self : TargetAreaNuclearMigrationGrowthModifier) (time : ℚ)
    (rCellPopulation : AbstractCellPopulation) :
    Except Exception Unit × AbstractCellPopulation :=
  UpdateTargetAreas self time rCellPopulation

/-- Method `SetupSolve(rCellPopulation, outputDirectory)`. -/
def SetupSolve (self : TargetAreaNuclearMigrationGrowthModifier) (time : ℚ)
    (rCellPopulation : AbstractCellPopulation) (_outputDirectory : String) :
    Except Exception Unit × AbstractCellPopulation :=
  UpdateTargetAreas self time rCellPopulation

end TargetAreaNuclearMigrationGrowthModifier

/-! ## Alarcon2004OxygenBasedCellCycleOdeSystem -/

/-- The member variables of the ODE system. -/
structure Alarcon2004OxygenBasedCellCycleOdeSystem where
  ma1 : ℚ
  ma2 : ℚ
  ma3 : ℚ
  ma4 : ℚ
  mb3 : ℚ
  mb4 : ℚ
  mc1 : ℚ
  mc2 : ℚ
  md1 : ℚ
  md2 : ℚ
  mJ3 : ℚ
  mJ4 : ℚ
  mEta : ℚ
  mMstar : ℚ
  mB : ℚ
  mxThreshold : ℚ
  myThreshold : ℚ
  mOxygenConcentration : ℚ
  mIsLabelled : Bool
  deriving DecidableEq

namespace Alarcon2004OxygenBasedCellCycleOdeSystem

/-- Method `Init()`: sets up the parameters shared by both cell types. -/
def Init (self : Alarcon2004OxygenBasedCellCycleOdeSystem) :
    Alarcon2004OxygenBasedCellCycleOdeSystem :=
  { self with
    ma2 := 1.0, ma3 := 0.25, ma4 := 0.04, mb3 := 10.0, mb4 := 5.5, mc2 := 0.01,
    md1 := 0.01, md2 := 0.1, mJ3 := 0.04, mJ4 := 0.04, mEta := 0.01, mMstar := 10.0,
    mB := 0.01 }

/-- The object at the start of the constructor body: the two members of the initialiser
list are set and every other member is still to be assigned (here `0`). -/
def uninitialised (oxygenConcentration : ℚ) (isLabelled : Bool) :
    Alarcon2004OxygenBasedCellCycleOdeSystem :=
  { ma1 := 0, ma2 := 0, ma3 := 0, ma4 := 0, mb3 := 0, mb4 := 0, mc1 := 0, mc2 := 0,
    md1 := 0, md2 := 0, mJ3 := 0, mJ4 := 0, mEta := 0, mMstar := 0, mB := 0,
    mxThreshold := 0, myThreshold := 0,
    mOxygenConcentration := oxygenConcentration, mIsLabelled := isLabelled }

/-- The constructor, as far as the parameters are concerned (the initial conditions and
state variables of `AbstractOdeSystem` are not part of this record). -/
def new (oxygenConcentration : ℚ) (isLabelled : Bool) :
    Alarcon2004OxygenBasedCellCycleOdeSystem :=
  let self := Init (uninitialised oxygenConcentration isLabelled)
  if self.mIsLabelled then
    -- labelled "cancer" cells
    { self with ma1 := 0.04, mc1 := 0.007, mxThreshold := 0.004, myThreshold := 0.05 }
  else
    -- normal cells
    { self with ma1 := 0.05, mc1 := 0.1, mxThreshold := 0.004, myThreshold := 0.2 }

/-- Method `SetIsLabelled(isLabelled)`. -/
def SetIsLabelled (self : Alarcon2004OxygenBasedCellCycleOdeSystem) (isLabelled : Bool) :
    Alarcon2004OxygenBasedCellCycleOdeSystem :=
  { self with mIsLabelled := isLabelled }

/-- The assignment `rDY[i] = value` on a `std::vector<double>`: defined only for an index in bounds. -/
def writeAt (v : List ℚ) (i : Nat) (value : ℚ) : Option (List ℚ) :=
  if i < v.length then some (v.set i value) else none

/-- Method `EvaluateYDerivatives(time, rY, rDY)`: returns `rDY` after the six writes, or `none`
when a read of `rY` or a write of `rDY` is out of bounds. -/
def EvaluateYDerivatives (self : Alarcon2004OxygenBasedCellCycleOdeSystem) (_time : ℚ)
    (rY rDY : List ℚ) : Option (List ℚ) := do
  let x ← rY[0]?
  let y ← rY[1]?
  let z ← rY[2]?
  let mass ← rY[3]?
  let u ← rY[4]?
  let oxygen_concentration ← rY[5]?
  let dx := ((1 + self.mb3 * u) * (1 - x)) / (self.mJ3 + 1 - x)
    - (self.mb4 * mass * x * y) / (self.mJ4 + x)
  let dy := self.ma4 - (self.ma1 + self.ma2 * x + self.ma3 * z) * y
  let dz :=
    if self.mIsLabelled then
      -- labelled "cancer" cells
      self.mc1 - self.mc2 * oxygen_concentration * z / (self.mB + oxygen_concentration)
    else
      -- normal cells
      self.mc1 * (1 - mass / self.mMstar)
        - self.mc2 * oxygen_concentration * z / (self.mB + oxygen_concentration)
  let dmass := self.mEta * mass * (1 - mass / self.mMstar)
  let du := self.md1 - (self.md2 + self.md1 * y) * u
  -- rescale time to be in hours
  let rDY ← writeAt rDY 0 (60.0 * dx)
  let rDY ← writeAt rDY 1 (60.0 * dy)
  let rDY ← writeAt rDY 2 (60.0 * dz)
  let rDY ← writeAt rDY 3 (60.0 * dmass)
  let rDY ← writeAt rDY 4 (60.0 * du)
  -- do not change the oxygen concentration
  writeAt rDY 5 0.0

/-- Method `CalculateStoppingEvent(time, rY)`, or `none` when a read of `rY` is out of bounds. -/
def CalculateStoppingEvent (self : Alarcon2004OxygenBasedCellCycleOdeSystem) (_time : ℚ)
    (rY : List ℚ) : Option Bool := do
  let y0 ← rY[0]?
  let y1 ← rY[1]?
  pure (decide (y0 < self.mxThreshold) && decide (y1 > self.myThreshold))

end Alarcon2004OxygenBasedCellCycleOdeSystem

/-! ## Example inputs -/

/-- A transit cell with the default phase durations (G1 2, S 5, G2 4, M 1 hours) that has
reached the end of its cycle at age 12 and is ready to divide. -/
def dividingCell : Cell :=
  { cellId := 3, age := 12, birthTime := 0, startOfApoptosisTime := 0, apoptosisTime := 0.25,
    hasApoptoticCellProperty := false, readyToDivide := true,
    cellCycleModel :=
      { g1Duration := 2, sDuration := 5, g2Duration := 4, mDuration := 1,
        transitCellG1Duration := 2 },
    cellData := [("slope", 1)] }

/-- A cell born at time 0 whose apoptosis started at time 1 and lasts a quarter of an hour. -/
def apoptoticCell : Cell :=
  { cellId := 7, age := 1, birthTime := 0, startOfApoptosisTime := 1, apoptosisTime := 0.25,
    hasApoptoticCellProperty := true, readyToDivide := false,
    cellCycleModel :=
      { g1Duration := 2, sDuration := 5, g2Duration := 4, mDuration := 1,
        transitCellG1Duration := 2 },
    cellData := [("slope", 1)] }

/-- A cell of the same kind as `apoptoticCell` whose data store has no `"slope"` entry. -/
def cellWithoutSlope : Cell :=
  { apoptoticCell with cellData := [("volume", 2)] }

/-- A population state with two mesh elements: `dividingCell` is attached to element 0 and
`apoptoticCell` to element 1. -/
def twoCellState : PopulationState :=
  { elementIndices := [0, 1],
    locationCellMap := fun i =>
      if i = 0 then some dividingCell else if i = 1 then some apoptoticCell else none }

/-- A vertex-based population in state `twoCellState` whose `Update()` changes nothing. -/
def vertexPopulation : AbstractCellPopulation :=
  { kind := .vertexBased, Update := id, state := twoCellState }

/-- A Potts-based population in state `twoCellState` whose `Update()` changes nothing. -/
def pottsPopulation : AbstractCellPopulation :=
  { kind := .pottsBased, Update := id, state := twoCellState }

/-- The population `vertexPopulation` after the target areas have been updated at time 12:
target area 1 for the cell of element 0 and 0 for the cell of element 1. -/
def updatedVertexPopulation : AbstractCellPopulation :=
  { vertexPopulation with
    state :=
      (twoCellState.setCell 0
          { dividingCell with cellData := [("slope", 1), ("target area", 1)] }).setCell 1
        { apoptoticCell with cellData := [("slope", 1), ("target area", 0)] } }

/-! ## The setters of the growth-law modifier -/

namespace TargetAreaNuclearMigrationGrowthModifier

/-- Method `SetMatureCellTargetArea(matureCellTargetArea)`; `none` when the assertion
`matureCellTargetArea >= 0.0` fails. -/
def SetMatureCellTargetArea (self : TargetAreaNuclearMigrationGrowthModifier)
    (matureCellTargetArea : ℚ) : Option TargetAreaNuclearMigrationGrowthModifier :=
  if matureCellTargetArea ≥ 0.0 then
    some { self with mMatureCellTargetArea := matureCellTargetArea }
  else none

/-- Method `SetIntermediateCellTargetArea(intermediateCellTargetArea)`; `none` when the
assertion `intermediateCellTargetArea >= 0.0` fails. -/
def SetIntermediateCellTargetArea (self : TargetAreaNuclearMigrationGrowthModifier)
    (intermediateCellTargetArea : ℚ) : Option TargetAreaNuclearMigrationGrowthModifier :=
  if intermediateCellTargetArea ≥ 0.0 then
    some { self with mIntermediateCellTargetArea := intermediateCellTargetArea }
  else none

/-- Method `GetMatureCellTargetArea()`. -/
def GetMatureCellTargetArea (self : TargetAreaNuclearMigrationGrowthModifier) : ℚ :=
  self.mMatureCellTargetArea

/-- Method `GetIntermediateCellTargetArea()`. -/
def GetIntermediateCellTargetArea (self : TargetAreaNuclearMigrationGrowthModifier) : ℚ :=
  self.mIntermediateCellTargetArea

end TargetAreaNuclearMigrationGrowthModifier

/-! ## AbstractPdeModifier -/

/-- A PDE object behind an `AbstractLinearPde<DIM,DIM>*`, as far as the modifier inspects
it: which of the two averaged-source classes it is an instance of. -/
structure AbstractLinearPde where
  /-- The identity of the object. -/
  pdeId : Nat
  /-- Whether `dynamic_cast<AveragedSourceEllipticPde<DIM>*>` of a pointer to the object
  is not `NULL`. -/
  isAveragedSourceEllipticPde : Bool
  /-- Whether `dynamic_cast<AveragedSourceParabolicPde<DIM>*>` of a pointer to the object
  is not `NULL`. -/
  isAveragedSourceParabolicPde : Bool
  deriving DecidableEq, Repr

/-- The finite-element mesh handed to `SetupSourceTerms`, which the modifier only passes
on: its number of nodes and the node indices of its elements. -/
structure TetrahedralMesh where
  numNodes : Nat
  elements : List (List Nat)
  deriving DecidableEq, Repr

/-- The class whose `SetupSourceTerms` is called, after the `static_cast`. -/
inductive AveragedSourceClass where
  | elliptic
  | parabolic
  deriving DecidableEq, Repr

/-- One call of `SetupSourceTerms(*pMesh, pCellPdeElementMap)`: the class of the method,
the PDE it is called on and its two arguments (the map from cells, by identifier, to the
index of the mesh element that contains them). -/
structure SetupSourceTermsCall where
  method : AveragedSourceClass
  receiver : AbstractLinearPde
  mesh : TetrahedralMesh
  cellPdeElementMap : List (Nat × Nat)
  deriving DecidableEq, Repr

/-- The member variables of `AbstractPdeModifier` that are plain data; `mpPde` is `none`
for a `NULL` pointer. -/
structure AbstractPdeModifier where
  mpPde : Option AbstractLinearPde
  mIsNeumannBoundaryCondition : Bool
  mOutputDirectory : String
  mOutputGradient : Bool
  mOutputSolutionAtPdeNodes : Bool
  mDependentVariableName : String
  deriving DecidableEq, Repr

namespace AbstractPdeModifier

/-- The value of `dynamic_cast<AveragedSourceEllipticPde<DIM>*>(mpPde)`: `none` (`NULL`)
for a null pointer and for an object that is not of that class. -/
def castToAveragedSourceEllipticPde (pPde : Option AbstractLinearPde) :
    Option AbstractLinearPde :=
  match pPde with
  | none => none
  | some pde => if pde.isAveragedSourceEllipticPde then some pde else none

/-- The value of `dynamic_cast<AveragedSourceParabolicPde<DIM>*>(mpPde)`. -/
def castToAveragedSourceParabolicPde (pPde : Option AbstractLinearPde) :
    Option AbstractLinearPde :=
  match pPde with
  | none => none
  | some pde => if pde.isAveragedSourceParabolicPde then some pde else none

/-- Method `HasAveragedSourcePde()`. -/
def HasAveragedSourcePde (self : AbstractPdeModifier) : Bool :=
  (castToAveragedSourceEllipticPde self.mpPde).isSome
    || (castToAveragedSourceParabolicPde self.mpPde).isSome

/-- Method `SetUpSourceTermsForAveragedSourcePde(pMesh, pCellPdeElementMap)`: `none` when
the assertion fails, and otherwise the calls of `SetupSourceTerms` it makes, in order. -/
def SetUpSourceTermsForAveragedSourcePde (self : AbstractPdeModifier)
    (pMesh : TetrahedralMesh) (pCellPdeElementMap : List (Nat × Nat)) :
    Option (List SetupSourceTermsCall) :=
  if ¬ HasAveragedSourcePde self then none
  else
    match castToAveragedSourceEllipticPde self.mpPde with
    | some pde => some [⟨.elliptic, pde, pMesh, pCellPdeElementMap⟩]
    | none =>
        match castToAveragedSourceParabolicPde self.mpPde with
        | some pde => some [⟨.parabolic, pde, pMesh, pCellPdeElementMap⟩]
        | none => some []

end AbstractPdeModifier

/-! ## Further example inputs -/

/-- A transit cell at birth: age 0, not apoptotic, not ready to divide. -/
def newbornCell : Cell :=
  { dividingCell with cellId := 4, age := 0, readyToDivide := false }

/-- A transit cell of age 9, in G2 phase (G1 + S = 7), not ready to divide. -/
def g2PhaseCell : Cell :=
  { dividingCell with cellId := 5, age := 9, readyToDivide := false }

/-- The modifier after `SetMatureCellTargetArea(2.0)`. -/
def modifierWithMatureArea2 : TargetAreaNuclearMigrationGrowthModifier :=
  { TargetAreaNuclearMigrationGrowthModifier.new with mMatureCellTargetArea := 2 }

/-- A modifier whose PDE is an averaged-source elliptic PDE. -/
def averagedSourceModifier : AbstractPdeModifier :=
  { mpPde := some
      { pdeId := 1, isAveragedSourceEllipticPde := true, isAveragedSourceParabolicPde := false },
    mIsNeumannBoundaryCondition := false, mOutputDirectory := "", mOutputGradient := false,
    mOutputSolutionAtPdeNodes := false, mDependentVariableName := "oxygen" }

/-! ## The lattice-based simulation engine, from the specification

`OnLatticeSimulation`, `OffLatticeSimulation`, the Potts-based cell population, the update
rules, the cell killers and the archiver are not among the sources: only their test suite
is.  The definitions of this section are modelled from the specification; what it leaves
to a concrete variant or to an external collaborator (the update rules, the killers, the
modifiers, the generator, the partition of sites at division) is a parameter, gathered in
`Configuration`. -/

/-- Modelled from the spec: the population-model class is not among the sources.  §3
"Site": each site has a current owning element id or is unowned, and a set of neighbor
site ids fixed at construction.  Sites are numbered from 0; `owners` lists the owner of
each site and `neighbours` its neighbor sites. -/
structure PopulationModel where
  owners : List (Option Nat)
  neighbours : List (List Nat)
  deriving DecidableEq, Repr

namespace PopulationModel

/-- Modelled from the spec: §4.1 `GetNeighborSites(site)`, not among the sources. -/
def GetNeighborSites (self : PopulationModel) (site : Nat) : List Nat :=
  self.neighbours.getD site []

/-- Modelled from the spec: §4.1 `GetElementOfSite(site)`, not among the sources. -/
def GetElementOfSite (self : PopulationModel) (site : Nat) : Option Nat :=
  self.owners.getD site none

/-- Modelled from the spec: §4.1 `GetElementSites(elementId)`, not among the sources: the
ordered set of the sites currently assigned to the element. -/
def GetElementSites (self : PopulationModel) (elementId : Nat) : List Nat :=
  (List.range self.owners.length).filter
    (fun site => self.GetElementOfSite site = some elementId)

/-- Modelled from the spec: §4.1 `Update()`, not among the sources, recomputes the derived
geometric quantities.  Here these are functions of the ownership, so nothing is stored. -/
def Update (self : PopulationModel) : PopulationModel := self

/-- Modelled from the spec: the population after a hypothetical reassignment of a site, for
which an update rule of §4.2 computes its energy contribution. -/
def reassign (self : PopulationModel) (site : Nat) (newOwner : Option Nat) :
    PopulationModel :=
  { self with owners := self.owners.set site newOwner }

/-- Modelled from the spec: §4.1 `MoveSiteToElement(site, newElementOwner)`, not among the
sources: fails with an InvalidOperation error if the site is not adjacent to the target
element, that is when no neighbor of the site is owned by it. -/
def MoveSiteToElement (self : PopulationModel) (site : Nat) (newElementOwner : Option Nat) :
    Except Exception PopulationModel :=
  if (self.GetNeighborSites site).any (fun n => self.GetElementOfSite n = newElementOwner) then
    .ok (self.reassign site newElementOwner)
  else .error .invalidOperation

/-- Modelled from the spec: §4.3 death, the sites of the element of a removed cell are
released back to unowned. -/
def ReleaseElement (self : PopulationModel) (elementId : Nat) : PopulationModel :=
  { self with owners := self.owners.map (fun o => if o = some elementId then none else o) }

end PopulationModel

/-- Modelled from the spec: the cell class of the simulation is not among the sources.  §3
"Cell": unique id, birth time, a cell-cycle model, a property tag set, a key-value data
store, and the element it is one-to-one with while alive. -/
structure LiveCell where
  cellId : Nat
  birthTime : ℚ
  cellCycleModel : CellCycleModel
  properties : List String
  cellData : CellData
  element : Nat
  deriving DecidableEq, Repr

/-- Modelled from the spec: the process-wide pseudo-random generator of §5, as explicit
state (§9): its stream position. -/
structure RandomNumberGenerator where
  state : Nat
  deriving DecidableEq, Repr

/-- Modelled from the spec: the seed-reset of the generator (§5). -/
def RandomNumberGenerator.Reseed (seed : Nat) : RandomNumberGenerator := ⟨seed⟩

/-- Modelled from the spec: §6 output collaborator, the snapshot supplied at a sampled
step: the site ownership and the data store of every live cell. -/
structure Snapshot where
  stepIndex : Nat
  owners : List (Option Nat)
  cellData : List (Nat × CellData)
  deriving DecidableEq, Repr

/-- Modelled from the spec: §4.5, the states of the orchestrator. -/
inductive SimulationPhase where
  | constructed
  | setUp
  | running
  | finished
  | suspended
  deriving DecidableEq, Repr

/-- Modelled from the spec: the simulation class is not among the sources.  The full mutable
state of the orchestrator, the population model, the lifecycle manager and the modifier
pipeline (§6, checkpoint collaborator), with the generator and the clock of §3 as explicit
state (§9). -/
structure Simulation where
  population : PopulationModel
  cells : List LiveCell
  /-- The field solution owned by each modifier of the pipeline. -/
  solutions : List (List ℚ)
  generator : RandomNumberGenerator
  /-- The discrete time index; the real time is the index times the step size. -/
  clockIndex : Nat
  numBirths : Nat
  numDeaths : Nat
  nextCellId : Nat
  nextElementId : Nat
  samples : List Snapshot
  phase : SimulationPhase
  deriving DecidableEq, Repr

/-- Modelled from the spec: §4.2, an update rule is
`EvaluateHamiltonianContribution(currentSiteOwner, proposedSiteOwner, site,
populationModel) -> energy`. -/
abbrev UpdateRule := Option Nat → Option Nat → Nat → PopulationModel → ℚ

/-- Modelled from the spec: §4.3, a killer is a predicate `ShouldKill(cell) -> bool`, which
may look at the population and the time. -/
abbrev Killer := PopulationModel → ℚ → LiveCell → Bool

/-- Modelled from the spec: §4.4, a hook of a modifier: from the time, the population, the
live cells and the field solution it owns, it fails (DataNotFound, SolveFailure) or
gives its new field solution and the data store it writes to each cell. -/
abbrev ModifierHook :=
  ℚ → PopulationModel → List LiveCell → List ℚ →
    Except Exception (List ℚ × (LiveCell → CellData))

/-- Modelled from the spec: §3 "Modifier", a pipeline stage with a setup-time and a
per-step hook. -/
structure Modifier where
  SetupSolve : ModifierHook
  UpdateAtEndOfTimeStep : ModifierHook

/-- Modelled from the spec: §6 configuration surface (end time, fixed step size, sampling
interval, sweep count per step, site-visit order mode), the temperature and the
site-selection probability of §4.2, and the pluggable parts: update rules, killers,
modifiers, the deterministic advance of the generator (a draw in `[0, 1)` and the next
stream position), the exponential of the Metropolis criterion, the readiness signal of
the cell-cycle models and the rule that tells which sites of a dividing parent go to the
daughter (§9, open question). -/
structure Configuration where
  endTime : ℚ
  dt : ℚ
  dt_pos : 0 < dt
  samplingInterval : Nat
  sweepsPerStep : Nat
  shuffledVisitOrder : Bool
  selectionProbability : ℚ
  temperature : ℚ
  updateRules : List UpdateRule
  killers : List Killer
  modifiers : List Modifier
  ranf : RandomNumberGenerator → ℚ × RandomNumberGenerator
  expFn : ℚ → ℚ
  readyToDivide : ℚ → LiveCell → Bool
  daughterSite : PopulationModel → LiveCell → Nat → Bool

/-! ### The Metropolis update engine (§4.2) -/

/-- Modelled from the spec: §4.2, the total proposal energy change is the sum over the
rules of (contribution after the proposed move − contribution before). -/
def TotalEnergyChange (rules : List UpdateRule) (population : PopulationModel) (site : Nat)
    (proposedSiteOwner : Option Nat) : ℚ :=
  let currentSiteOwner := population.GetElementOfSite site
  (rules.map fun rule =>
    rule currentSiteOwner proposedSiteOwner site (population.reassign site proposedSiteOwner)
      - rule currentSiteOwner proposedSiteOwner site population).sum

/-- Modelled from the spec: §4.2 step 4, accept unconditionally if ΔH ≤ 0; otherwise accept
with probability exp(−ΔH / temperature), drawing from the shared generator. -/
def Accept (cfg : Configuration) (deltaH : ℚ) (generator : RandomNumberGenerator) :
    Bool × RandomNumberGenerator :=
  if deltaH ≤ 0 then (true, generator)
  else
    let draw := cfg.ranf generator
    (decide (draw.1 < cfg.expFn (-deltaH / cfg.temperature)), draw.2)

/-- Modelled from the spec: §4.2 steps 3 to 5 for one proposal: compute ΔH, accept or
reject, and on acceptance mutate the population via `MoveSiteToElement`. -/
def Propose (cfg : Configuration) (population : PopulationModel)
    (generator : RandomNumberGenerator) (site : Nat) (proposedSiteOwner : Option Nat) :
    Except Exception (PopulationModel × RandomNumberGenerator) :=
  let deltaH := TotalEnergyChange cfg.updateRules population site proposedSiteOwner
  let decision := Accept cfg deltaH generator
  if decision.1 then
    match population.MoveSiteToElement site proposedSiteOwner with
    | .error e => .error e
    | .ok moved => .ok (moved, decision.2)
  else .ok (population, decision.2)

/-- Modelled from the spec: the element labels of the neighbor sites of a site, from which
§4.2 step 2 samples the proposal. -/
def NeighborLabels (population : PopulationModel) (site : Nat) : List (Option Nat) :=
  (population.GetNeighborSites site).map population.GetElementOfSite

/-- Modelled from the spec: the index, among `n` candidates, selected by a uniform draw. -/
def DrawnIndex (draw : ℚ) (n : Nat) : Nat := min ⌊draw * n⌋₊ (n - 1)

/-- Modelled from the spec: §4.2 step 2 for the current site: a site with no neighbors of
different ownership performs no proposal; otherwise, with the site-selection probability,
a label sampled uniformly from its neighbor-element labels is proposed. -/
def VisitSite (cfg : Configuration) (population : PopulationModel)
    (generator : RandomNumberGenerator) (site : Nat) :
    Except Exception (PopulationModel × RandomNumberGenerator) :=
  let labels := NeighborLabels population site
  let current := population.GetElementOfSite site
  if labels.all (fun label => decide (label = current)) then .ok (population, generator)
  else
    let select := cfg.ranf generator
    if select.1 < cfg.selectionProbability then
      let pick := cfg.ranf select.2
      Propose cfg population pick.2 site
        (labels.getD (DrawnIndex pick.1 labels.length) current)
    else .ok (population, select.2)

/-- Modelled from the spec: the visit of the sites of one sweep, in the given order. -/
def VisitSites (cfg : Configuration) :
    List Nat → PopulationModel → RandomNumberGenerator →
      Except Exception (PopulationModel × RandomNumberGenerator)
  | [], population, generator => .ok (population, generator)
  | site :: rest, population, generator =>
      match VisitSite cfg population generator site with
      | .error e => .error e
      | .ok visited => VisitSites cfg rest visited.1 visited.2

/-- Modelled from the spec: §4.2 step 1, a uniformly shuffled order of the sites: the next
site is drawn among those that remain. -/
def Shuffle (cfg : Configuration) :
    Nat → List Nat → RandomNumberGenerator → List Nat × RandomNumberGenerator
  | 0, sites, generator => (sites, generator)
  | n + 1, sites, generator =>
      if sites.isEmpty then ([], generator)
      else
        let draw := cfg.ranf generator
        let i := DrawnIndex draw.1 sites.length
        let rest := Shuffle cfg n (sites.eraseIdx i) draw.2
        (sites.getD i 0 :: rest.1, rest.2)

/-- Modelled from the spec: §4.2, one sweep visits each site once, in a fixed deterministic
order or in a shuffled order. -/
def Sweep (cfg : Configuration) (population : PopulationModel)
    (generator : RandomNumberGenerator) :
    Except Exception (PopulationModel × RandomNumberGenerator) :=
  let sites := List.range population.owners.length
  let order :=
    if cfg.shuffledVisitOrder then Shuffle cfg sites.length sites generator
    else (sites, generator)
  VisitSites cfg order.1 population order.2

/-- Modelled from the spec: §4.2, one orchestrator step performs a fixed number of
sweeps. -/
def Sweeps (cfg : Configuration) :
    Nat → PopulationModel → RandomNumberGenerator →
      Except Exception (PopulationModel × RandomNumberGenerator)
  | 0, population, generator => .ok (population, generator)
  | n + 1, population, generator =>
      match Sweep cfg population generator with
      | .error e => .error e
      | .ok swept => Sweeps cfg n swept.1 swept.2

/-! ### The modifier pipeline (§4.4) and the cell lifecycle (§4.3) -/

/-- Modelled from the spec: §4.4, the hooks of the pipeline run in order; each gives its
new field solution and writes its data to every live cell. -/
def RunModifiers (time : ℚ) (population : PopulationModel) :
    List ModifierHook → List (List ℚ) → List LiveCell →
      Except Exception (List (List ℚ) × List LiveCell)
  | [], _, cells => .ok ([], cells)
  | hook :: rest, solutions, cells =>
      match hook time population cells (solutions.headD []) with
      | .error e => .error e
      | .ok written =>
          match RunModifiers time population rest solutions.tail
              (cells.map fun cell => { cell with cellData := written.2 cell }) with
          | .error e => .error e
          | .ok done => .ok (written.1 :: done.1, done.2)

/-- Modelled from the spec: the real time of the clock, index × fixed step size (§3). -/
def Simulation.time (cfg : Configuration) (sim : Simulation) : ℚ := sim.clockIndex * cfg.dt

/-- Modelled from the spec: §4.3 division of one parent: the sites of its element are
partitioned, a new cell and element are created for the daughter, whose cell-cycle model
and data store are cloned from the parent with age reset to zero; one birth is counted. -/
def Divide (cfg : Configuration) (sim : Simulation) (parent : LiveCell) : Simulation :=
  let daughterSites := (sim.population.GetElementSites parent.element).filter
    (cfg.daughterSite sim.population parent)
  let daughter : LiveCell :=
    { parent with
      cellId := sim.nextCellId, birthTime := sim.time cfg, element := sim.nextElementId }
  { sim with
    population := daughterSites.foldl
      (fun population site => population.reassign site (some sim.nextElementId))
      sim.population,
    cells := sim.cells ++ [daughter],
    numBirths := sim.numBirths + 1,
    nextCellId := sim.nextCellId + 1,
    nextElementId := sim.nextElementId + 1 }

/-- Modelled from the spec: §4.3 division pass: every live cell whose cell-cycle model
signals readiness divides. -/
def DivisionPass (cfg : Configuration) (sim : Simulation) : Simulation :=
  (sim.cells.filter (cfg.readyToDivide (sim.time cfg))).foldl (Divide cfg) sim

/-- Modelled from the spec: §4.3, a cell is killed when any killer returns true for it. -/
def ShouldKill (cfg : Configuration) (sim : Simulation) (cell : LiveCell) : Bool :=
  cfg.killers.any (fun killer => killer sim.population (sim.time cfg) cell)

/-- Modelled from the spec: §4.3 killer pass: the killers are evaluated once against every
live cell; the cells to kill are collected, then their element sites are released and
they are removed from the live set; each removal is counted as a death. -/
def KillerPass (cfg : Configuration) (sim : Simulation) : Simulation :=
  let doomed := sim.cells.filter (ShouldKill cfg sim)
  { sim with
    population := doomed.foldl
      (fun population cell => population.ReleaseElement cell.element) sim.population,
    cells := sim.cells.filter (fun cell => !ShouldKill cfg sim cell),
    numDeaths := sim.numDeaths + doomed.length }

/-! ### The orchestrator (§4.5) -/

/-- Modelled from the spec: §4.5 sampling, if the step index is a multiple of the sampling
interval the current snapshot is supplied to the output collaborator. -/
def Sample (cfg : Configuration) (sim : Simulation) : Simulation :=
  if sim.clockIndex % cfg.samplingInterval = 0 then
    { sim with
      samples := sim.samples ++
        [{ stepIndex := sim.clockIndex, owners := sim.population.owners,
           cellData := sim.cells.map fun cell => (cell.cellId, cell.cellData) }] }
  else sim

/-- Modelled from the spec: §4.5 transition `Running` step: population `Update()`, sweeps,
modifier per-step hooks, division pass, killer pass, sampling, clock increment.  A fatal
error halts the step. -/
def Step (cfg : Configuration) (sim : Simulation) : Except Exception Simulation :=
  match Sweeps cfg cfg.sweepsPerStep sim.population.Update sim.generator with
  | .error e => .error e
  | .ok swept =>
      match RunModifiers (sim.time cfg) swept.1
          (cfg.modifiers.map fun modifier => modifier.UpdateAtEndOfTimeStep)
          sim.solutions sim.cells with
      | .error e => .error e
      | .ok modified =>
          let updated : Simulation :=
            { sim with
              population := swept.1, generator := swept.2,
              solutions := modified.1, cells := modified.2 }
          let sampled := Sample cfg (KillerPass cfg (DivisionPass cfg updated))
          .ok { sampled with clockIndex := sampled.clockIndex + 1 }

/-- Modelled from the spec: §4.5 transition `SetUp`: the setup hook of each modifier is
invoked once. -/
def SetUp (cfg : Configuration) (sim : Simulation) : Except Exception Simulation :=
  match RunModifiers (sim.time cfg) sim.population
      (cfg.modifiers.map fun modifier => modifier.SetupSolve) sim.solutions sim.cells with
  | .error e => .error e
  | .ok modified =>
      .ok { sim with solutions := modified.1, cells := modified.2, phase := .setUp }

/-- Modelled from the spec: the given number of `Running` steps, halting at the first fatal
error. -/
def RunSteps (cfg : Configuration) : Nat → Simulation → Except Exception Simulation
  | 0, sim => .ok sim
  | n + 1, sim =>
      match Step cfg sim with
      | .error e => .error e
      | .ok next => RunSteps cfg n next

/-- Modelled from the spec: the number of steps after which the terminal condition of §4.5,
clock ≥ configured end time, is first met. -/
def StepsToEnd (cfg : Configuration) (sim : Simulation) : Nat :=
  ⌈(cfg.endTime - sim.time cfg) / cfg.dt⌉₊

/-- Modelled from the spec: `Solve()` of the simulation class is not among the sources.
§4.5: a constructed simulation is set up, then steps run until the clock has reached the
configured end time, and the simulation is finished. -/
def Solve (cfg : Configuration) (sim : Simulation) : Except Exception Simulation :=
  match (if sim.phase = .constructed then SetUp cfg sim else .ok sim) with
  | .error e => .error e
  | .ok ready =>
      match RunSteps cfg (StepsToEnd cfg ready) { ready with phase := .running } with
      | .error e => .error e
      | .ok done => .ok { done with phase := .finished }

/-- Modelled from the spec: `GetNumRealCells()` is not among the sources: the number of
live cells. -/
def Simulation.GetNumRealCells (sim : Simulation) : Nat := sim.cells.length

/-- Modelled from the spec: `GetNumBirths()` is not among the sources: the birth count. -/
def Simulation.GetNumBirths (sim : Simulation) : Nat := sim.numBirths

/-- Modelled from the spec: `GetNumDeaths()` is not among the sources: the death count. -/
def Simulation.GetNumDeaths (sim : Simulation) : Nat := sim.numDeaths

/-! ### Construction (§7) -/

/-- Modelled from the spec: a cell population handed to a simulation constructor: its
concrete class, its lattice and its cells. -/
structure CellPopulation where
  kind : PopulationKind
  population : PopulationModel
  cells : List LiveCell
  deriving DecidableEq, Repr

/-- Modelled from the spec: whether the class of a population is a subclass of
`AbstractOnLatticeCellPopulation` (the lattice-based populations) rather than of
`AbstractOffLatticeCellPopulation` (vertex, node and mesh based, §1). -/
def PopulationKind.IsOnLattice : PopulationKind → Bool
  | .pottsBased => true
  | .caBased => true
  | .vertexBased => false
  | .nodeBased => false
  | .meshBased => false

/-- Modelled from the spec: the constructor of `OnLatticeSimulation` is not among the
sources.  An unsupported population is a ConfigurationError reported before any step runs
(§7), with the text its test expects; construction resets the process-wide generator,
whatever its state, to the seed (§5), and the counts and the clock start at zero. -/
def OnLatticeSimulation.new (_processGenerator : RandomNumberGenerator)
    (rCellPopulation : CellPopulation) (seed : Nat) : Except Exception Simulation :=
  if rCellPopulation.kind.IsOnLattice then
    .ok
      { population := rCellPopulation.population,
        cells := rCellPopulation.cells,
        solutions := [],
        generator := RandomNumberGenerator.Reseed seed,
        clockIndex := 0, numBirths := 0, numDeaths := 0,
        nextCellId := rCellPopulation.cells.foldl (fun n cell => max n (cell.cellId + 1)) 0,
        nextElementId :=
          rCellPopulation.cells.foldl (fun n cell => max n (cell.element + 1)) 0,
        samples := [], phase := .constructed }
  else
    .error (.message "OnLatticeSimulations require a subclass of AbstractOnLatticeCellPopulation.")

/-- Modelled from the spec: successive calls of `Solve()`, each under its own configuration
(for instance with a later end time), halting at the first fatal error. -/
def SolveEach : List Configuration → Simulation → Except Exception Simulation
  | [], sim => .ok sim
  | cfg :: rest, sim =>
      match Solve cfg sim with
      | .error e => .error e
      | .ok solved => SolveEach rest solved

/-- Decidable equality of outcomes, by comparison of the values or of the exceptions. -/
instance instDecidableEqOutcome {α : Type} [DecidableEq α] :
    DecidableEq (Except Exception α)
  | .ok a, .ok b =>
      if h : a = b then isTrue (h ▸ rfl) else isFalse (fun h2 => h (Except.ok.inj h2))
  | .error a, .error b =>
      if h : a = b then isTrue (h ▸ rfl) else isFalse (fun h2 => h (Except.error.inj h2))
  | .ok _, .error _ => isFalse (fun h => Except.noConfusion h)
  | .error _, .ok _ => isFalse (fun h => Except.noConfusion h)

/-! ### An example simulation -/

/-- A row of four sites, each adjacent to the next; element 0 owns sites 0 and 1, element 1
owns sites 2 and 3. -/
def rowPopulation : PopulationModel :=
  { owners := [some 0, some 0, some 1, some 1],
    neighbours := [[1], [0, 2], [1, 3], [2]] }

/-- A differentiated cell attached to the given element. -/
def differentiatedCell (cellId element : Nat) : LiveCell :=
  { cellId := cellId, birthTime := 0,
    cellCycleModel :=
      { g1Duration := DBL_MAX, sDuration := 5, g2Duration := 4, mDuration := 1,
        transitCellG1Duration := 2 },
    properties := [], cellData := [("volume", 2)], element := element }

/-- A Potts-based population of two differentiated cells on `rowPopulation`. -/
def rowCellPopulation : CellPopulation :=
  { kind := .pottsBased, population := rowPopulation,
    cells := [differentiatedCell 0 0, differentiatedCell 1 1] }

/-- A volume-constraint rule: the squared deviation of the number of sites of the current
and of the proposed owner from the target volume 2. -/
def volumeConstraintRule : UpdateRule := fun currentSiteOwner proposedSiteOwner _ population =>
  let deviation (owner : Option Nat) : ℚ :=
    match owner with
    | none => 0
    | some elementId => (((population.GetElementSites elementId).length : ℚ) - 2) ^ 2
  deviation currentSiteOwner + deviation proposedSiteOwner

/-- A plane-based killer: it kills the cell whose element owns site 3. -/
def planeKiller : Killer := fun population _ cell =>
  population.GetElementOfSite 3 == some cell.element

/-- A configuration for one step of size `1/10`: one sweep per step in the fixed order, the
volume-constraint rule, the plane-based killer, no modifier, cells that never divide, and
a generator that steps through the tenths. -/
def rowConfiguration : Configuration :=
  { endTime := 1 / 10, dt := 1 / 10, dt_pos := by norm_num,
    samplingInterval := 1, sweepsPerStep := 1, shuffledVisitOrder := false,
    selectionProbability := 1, temperature := 1 / 10,
    updateRules := [volumeConstraintRule], killers := [planeKiller], modifiers := [],
    ranf := fun generator => (((generator.state % 10 : Nat) : ℚ) / 10, ⟨generator.state + 7⟩),
    expFn := fun x => 1 / (1 - x),
    readyToDivide := fun _ _ => false,
    daughterSite := fun _ _ site => site % 2 = 1 }

/-- The simulation constructed on `rowCellPopulation` with seed 3. -/
def rowSimulation : Simulation :=
  { population := rowPopulation,
    cells := [differentiatedCell 0 0, differentiatedCell 1 1],
    solutions := [], generator := ⟨3⟩, clockIndex := 0, numBirths := 0, numDeaths := 0,
    nextCellId := 2, nextElementId := 2, samples := [], phase := .constructed }

/-- The simulation `rowSimulation` after `Solve` under `rowConfiguration`: the sweep has
left the ownership as it was, and the killer has removed the cell of element 1. -/
def rowSimulationSolved : Simulation :=
  { population := { rowPopulation with owners := [some 0, some 0, none, none] },
    cells := [differentiatedCell 0 0],
    solutions := [], generator := ⟨38⟩, clockIndex := 1, numBirths := 0, numDeaths := 1,
    nextCellId := 2, nextElementId := 2,
    samples :=
      [{ stepIndex := 0, owners := [some 0, some 0, none, none],
         cellData := [(0, [("volume", 2)])] }],
    phase := .finished }

/-! ## The growth law in closed form -/

namespace TargetAreaNuclearMigrationGrowthModifier

/-- The target area of an apoptotic cell as a function of the mature target area `A`, the
birth time `b`, the start of apoptosis `s`, the effective G1 duration `g`, the apoptosis
duration `T` and the time `t`: the area `A0` at the start of apoptosis shrinks linearly
over `2 T` and is clamped at zero.  This is the formula in the words of the
specification, to be compared with `cell_target_area`. -/
def apoptoticTargetArea (A b s g T t : ℚ) : ℚ :=
  let A0 := if s - b < g then A * (1 + (s - b) / g) / 2 else A
  max 0 (A0 * (1 - (t - s) / (2 * T)))

/-- The target area of a healthy cell as a function of the mature target area `A`, the age
`a`, the effective G1 duration `g`, the G1 duration `rawG1` that the cell-cycle model
reports, the S, G2 and M durations, the slope `k` and whether the cell is ready to
divide, the three cases being tested in this order.  This is the formula in the words of
the specification, to be compared with `cell_target_area`. -/
def healthyTargetArea (A a g rawG1 s g2 m k : ℚ) (ready : Bool) : ℚ :=
  if a < 1.1 * g then 0.5 + a / (8 * k)
  else if a > g + s then
    let p := 0.5 + rawG1 / (8 * k)
    p + ((a - g - s) / (g2 + m)) * (1 - p)
  else if ready then A / 2
  else A

end TargetAreaNuclearMigrationGrowthModifier

/-! ## Default initial conditions of the ODE system -/

/-- The member variables of
`CellwiseOdeSystemInformation<Alarcon2004OxygenBasedCellCycleOdeSystem>`.  An initial
condition is `none` while it holds the placeholder `NAN`, which a rational number cannot
be. -/
structure CellwiseOdeSystemInformation where
  mVariableNames : List String
  mVariableUnits : List String
  mInitialConditions : List (Option ℚ)
  mInitialised : Bool
  deriving DecidableEq, Repr

namespace CellwiseOdeSystemInformation

/-- The object before `Initialise()` has run: three empty vectors. -/
def empty : CellwiseOdeSystemInformation :=
  { mVariableNames := [], mVariableUnits := [], mInitialConditions := [],
    mInitialised := false }

/-- The three `push_back` calls that `Initialise()` makes for one state variable. -/
def pushVariable (self : CellwiseOdeSystemInformation) (name unit : String)
    (initialCondition : Option ℚ) : CellwiseOdeSystemInformation :=
  { self with
    mVariableNames := self.mVariableNames ++ [name],
    mVariableUnits := self.mVariableUnits ++ [unit],
    mInitialConditions := self.mInitialConditions ++ [initialCondition] }

/-- Method `Initialise()` of the specialisation for the Alarcon (2004) system. -/
def Initialise (self : CellwiseOdeSystemInformation) : CellwiseOdeSystemInformation :=
  let self := pushVariable self "Cdh1_APC_complexes" "non_dim" (some 0.9)
  let self := pushVariable self "cyclin_CDK" "non_dim" (some 0.01)
  let self := pushVariable self "p27" "non_dim" (some 0.0)
  -- will be filled in later
  let self := pushVariable self "mass" "non_dim" none
  let self := pushVariable self "RBNP" "non_dim" (some 1.0)
  -- will be filled in later
  let self := pushVariable self "O2" "non_dim" none
  { self with mInitialised := true }

/-- Modelled from the spec: `SetDefaultInitialCondition(index, initialCondition)` is not
among the sources.  By its name, and by the comments `will be filled in later` of
`Initialise()`, it replaces the default initial condition of the state variable `index`
and changes nothing else; `none` when `index` is not the index of a state variable. -/
def SetDefaultInitialCondition (self : CellwiseOdeSystemInformation) (index : Nat)
    (initialCondition : ℚ) : Option CellwiseOdeSystemInformation :=
  if index < self.mInitialConditions.length then
    some { self with
      mInitialConditions := self.mInitialConditions.set index (some initialCondition) }
  else none

/-- The default initial conditions as a state vector `std::vector<double>`; `none` when one
of them is still the placeholder. -/
def stateVector : List (Option ℚ) → Option (List ℚ)
  | [] => some []
  | none :: _ => none
  | some value :: rest =>
      match stateVector rest with
      | none => none
      | some values => some (value :: values)

end CellwiseOdeSystemInformation

namespace Alarcon2004OxygenBasedCellCycleOdeSystem

/-- The constructor, as far as the system information is concerned: `mpSystemInfo` is
reset to a new `CellwiseOdeSystemInformation`, which `Initialise()` fills, and after the
parameters are set the two cell-specific initial conditions are written.  `none` when a
write is out of range.  (The optional argument `stateVariables` sets the state variables,
not the default initial conditions.) -/
def newSystemInfo (oxygenConcentration : ℚ) (isLabelled : Bool) :
    Option CellwiseOdeSystemInformation := do
  let self := new oxygenConcentration isLabelled
  let info := CellwiseOdeSystemInformation.Initialise CellwiseOdeSystemInformation.empty
  -- cell-specific initial conditions
  let info ← info.SetDefaultInitialCondition 3 (0.5 * self.mMstar)
  info.SetDefaultInitialCondition 5 oxygenConcentration

end Alarcon2004OxygenBasedCellCycleOdeSystem

/-! ## Example inputs for the closed forms -/

/-- A differentiated cell of age 9: its cell-cycle model reports the G1 duration `DBL_MAX`
and the transit-cell G1 duration 2; S 5, G2 4, M 1 hours, slope 1, healthy, not ready to
divide. -/
def differentiatedG2Cell : Cell :=
  { g2PhaseCell with
    cellId := 8,
    cellCycleModel := { g2PhaseCell.cellCycleModel with g1Duration := DBL_MAX } }

/-- A Potts-based population in state `twoCellState` whose `Update()` leaves a trace each
time it runs: it appends the next free index to the element indices. -/
def tracingPottsPopulation : AbstractCellPopulation :=
  { kind := .pottsBased,
    Update := fun st =>
      { st with elementIndices := st.elementIndices ++ [st.elementIndices.length] },
    state := twoCellState }

/-! ## IEEE 754 binary64 arithmetic -/

/-- A value of the C++ type `double` (IEEE 754 binary64): not-a-number, the two
infinities, negative zero, or a finite number given by its exact rational value
(`finite 0` is positive zero). -/
inductive Double where
  | nan
  | posInf
  | negInf
  | negZero
  | finite (value : ℚ)
  deriving DecidableEq, Repr

namespace Double

/-- The rational `2 ^ e` for an integer exponent. -/
def twoPow (e : ℤ) : ℚ :=
  if 0 ≤ e then ((2 ^ e.toNat : ℕ) : ℚ) else 1 / ((2 ^ (-e).toNat : ℕ) : ℚ)

/-- The binary logarithm of a natural number, rounded down, by repeated halving; the first
argument bounds the number of halvings. -/
def log2Fuel : ℕ → ℕ → ℕ
  | 0, _ => 0
  | fuel + 1, n => if n < 2 then 0 else log2Fuel fuel (n / 2) + 1

/-- The binary logarithm of a natural number, rounded down (0 for 0). -/
def floorLog2Nat (n : ℕ) : ℕ := log2Fuel n n

/-- For a positive rational `q`, the integer `e` with `2 ^ e ≤ q < 2 ^ (e + 1)`. -/
def floorLog2 (q : ℚ) : ℤ :=
  let e0 : ℤ := (floorLog2Nat q.num.natAbs : ℤ) - (floorLog2Nat q.den : ℤ)
  if q < twoPow e0 then e0 - 1 else e0

/-- Rounding of a non-negative rational to the nearest integer, ties to the even one. -/
def roundToEven (m : ℚ) : ℤ :=
  let f := ⌊m⌋
  if m - f < 1 / 2 then f
  else if 1 / 2 < m - f then f + 1
  else if f % 2 = 0 then f
  else f + 1

/-- The magnitude to which binary64 rounds a positive rational `q`, before the check for
overflow: the nearest multiple of the quantum `2 ^ (e - 52)`, where `e` is the binary
exponent of `q`, not below the exponent `-1022` of the subnormal numbers; ties go to the
even multiple. -/
def roundMagnitude (q : ℚ) : ℚ :=
  let e := max (floorLog2 q) (-1022) - 52
  (roundToEven (q / twoPow e) : ℚ) * twoPow e

/-- Rounding of an exact result to binary64, in the default rounding mode (to nearest,
ties to even): a result whose rounded magnitude reaches `2 ^ 1024` overflows to an
infinity, and one that rounds to zero keeps its sign. -/
def ofRat (q : ℚ) : Double :=
  if q = 0 then finite 0
  else if 0 < q then
    (if twoPow 1024 ≤ roundMagnitude q then posInf else finite (roundMagnitude q))
  else
    (if twoPow 1024 ≤ roundMagnitude (-q) then negInf
     else if roundMagnitude (-q) = 0 then negZero
     else finite (-roundMagnitude (-q)))

/-- The sign bit. -/
def signBit : Double → Bool
  | nan => false
  | posInf => false
  | negInf => true
  | negZero => true
  | finite value => decide (value < 0)

/-- Whether the value is a zero of either sign. -/
def isZero : Double → Bool
  | negZero => true
  | finite value => decide (value = 0)
  | _ => false

/-- Whether the value is an infinity. -/
def isInf : Double → Bool
  | posInf => true
  | negInf => true
  | _ => false

/-- The zero with the given sign bit. -/
def zero (negative : Bool) : Double := if negative then negZero else finite 0

/-- The infinity with the given sign bit. -/
def inf (negative : Bool) : Double := if negative then negInf else posInf

/-- Unary minus: flips the sign bit. -/
def neg : Double → Double
  | nan => nan
  | posInf => negInf
  | negInf => posInf
  | negZero => finite 0
  | finite value => if value = 0 then negZero else finite (-value)

/-- Addition.  The sum of two negative zeros is a negative zero, and every other exact
sum that is zero is a positive zero; a sum with one negative zero is the other operand
(rounding a binary64 number gives the number back). -/
def add : Double → Double → Double
  | nan, _ => nan
  | _, nan => nan
  | posInf, negInf => nan
  | negInf, posInf => nan
  | posInf, _ => posInf
  | _, posInf => posInf
  | negInf, _ => negInf
  | _, negInf => negInf
  | negZero, negZero => negZero
  | negZero, finite b => ofRat b
  | finite a, negZero => ofRat a
  | finite a, finite b => ofRat (a + b)

/-- Subtraction: `x - y` is `x + (-y)`. -/
def sub (x y : Double) : Double := add x (neg y)

/-- Multiplication. -/
def mul (x y : Double) : Double :=
  match x, y with
  | nan, _ => nan
  | _, nan => nan
  | finite a, finite b =>
      if a = 0 ∨ b = 0 then zero (xor (signBit x) (signBit y)) else ofRat (a * b)
  | _, _ =>
      if (isInf x && isZero y) || (isZero x && isInf y) then nan
      else if isInf x || isInf y then inf (xor (signBit x) (signBit y))
      else zero (xor (signBit x) (signBit y))

/-- Division. -/
def div (x y : Double) : Double :=
  match x, y with
  | nan, _ => nan
  | _, nan => nan
  | finite a, finite b =>
      if b = 0 then (if a = 0 then nan else inf (signBit x))
      else if a = 0 then zero (signBit y)
      else ofRat (a / b)
  | _, _ =>
      if (isInf x && isInf y) || (isZero x && isZero y) then nan
      else if isInf x || isZero y then inf (xor (signBit x) (signBit y))
      else zero (xor (signBit x) (signBit y))

/-- The comparison `x < y`: false when an operand is not a number; the two zeros are
equal. -/
def lt : Double → Double → Bool
  | nan, _ => false
  | _, nan => false
  | posInf, _ => false
  | _, negInf => false
  | _, posInf => true
  | negInf, _ => true
  | negZero, negZero => false
  | negZero, finite b => decide (0 < b)
  | finite a, negZero => decide (a < 0)
  | finite a, finite b => decide (a < b)

/-- The comparison `x == y`: false when an operand is not a number; the two zeros are
equal. -/
def eq : Double → Double → Bool
  | nan, _ => false
  | _, nan => false
  | negZero, finite b => decide (b = 0)
  | finite a, negZero => decide (a = 0)
  | x, y => decide (x = y)

/-- The comparison `x <= y`. -/
def le (x y : Double) : Bool := lt x y || eq x y

/-- The comparison `x > y`. -/
def gt (x y : Double) : Bool := lt y x

/-- The comparison `x >= y`. -/
def ge (x y : Double) : Bool := le y x

instance : Add Double := ⟨add⟩
instance : Sub Double := ⟨sub⟩
instance : Mul Double := ⟨mul⟩
instance : Div Double := ⟨div⟩
instance : Neg Double := ⟨neg⟩

/-- A decimal literal of the source, such as `1.1`: the nearest binary64 number. -/
instance : OfScientific Double :=
  ⟨fun mantissa exponentSign decimalExponent =>
    ofRat (Rat.ofScientific mantissa exponentSign decimalExponent)⟩

/-- An integer literal of the source used as a `double`. -/
instance (n : Nat) : OfNat Double n := ⟨ofRat n⟩

end Double

/-! ## The growth law in binary64 arithmetic

The definitions above compute with exact rational numbers.  The ones in the namespace
`Rounded` are the same source functions over `Double`: every arithmetic operation is the
binary64 operation, rounded once to nearest (ties to even), with its infinities, its
not-a-number and its signed zeros, and a decimal literal is the nearest binary64
number. -/

namespace Rounded

/-- The per-cell key-value store, with `double` values. -/
abbrev CellData := List (String × Double)

/-- Modelled from the spec: `CellData::GetItem` is not among the sources.  Reading a key
that was never written is the fatal `DataNotFound` error; otherwise the stored value is
returned. -/
def CellData.GetItem : CellData → String → Except Exception Double
  | [], k => .error (.dataNotFound k)
  | (k1, v1) :: rest, k => if k1 = k then .ok v1 else CellData.GetItem rest k

/-- Modelled from the spec: `CellData::SetItem` is not among the sources.  Writes the value
under the key, replacing the previous binding of that key when there is one and leaving
every other binding as it is. -/
def CellData.SetItem : CellData → String → Double → CellData
  | [], k, v => [(k, v)]
  | (k1, v1) :: rest, k, v =>
      if k1 = k then (k, v) :: rest else (k1, v1) :: CellData.SetItem rest k v

/-- The largest finite `double`, `DBL_MAX` of `<cfloat>`. -/
def DBL_MAX : Double := .finite ((2 ^ 53 - 1) * 2 ^ 971)

/-- What the getters of a cell's cell-cycle model return. -/
structure CellCycleModel where
  /-- Result of `GetG1Duration()` -/
  g1Duration : Double
  /-- Result of `GetSDuration()` -/
  sDuration : Double
  /-- Result of `GetG2Duration()` -/
  g2Duration : Double
  /-- Result of `GetMDuration()` -/
  mDuration : Double
  /-- Result of `GetTransitCellG1Duration()` -/
  transitCellG1Duration : Double
  deriving DecidableEq, Repr

/-- A cell, as seen by a modifier: the value of each getter, and its data store. -/
structure Cell where
  /-- Result of `GetCellId()` -/
  cellId : Nat
  /-- Result of `GetAge()` -/
  age : Double
  /-- Result of `GetBirthTime()` -/
  birthTime : Double
  /-- Result of `GetStartOfApoptosisTime()` -/
  startOfApoptosisTime : Double
  /-- Result of `GetApoptosisTime()`: the duration of apoptosis -/
  apoptosisTime : Double
  /-- Result of `HasCellProperty<ApoptoticCellProperty>()` -/
  hasApoptoticCellProperty : Bool
  /-- Result of `ReadyToDivide()` -/
  readyToDivide : Bool
  /-- Result of `GetCellCycleModel()` -/
  cellCycleModel : CellCycleModel
  /-- Result of `GetCellData()` -/
  cellData : CellData
  deriving DecidableEq, Repr

/-- The member variables of the modifier. -/
structure TargetAreaNuclearMigrationGrowthModifier where
  mMatureCellTargetArea : Double
  mIntermediateCellTargetArea : Double
  deriving DecidableEq, Repr

namespace TargetAreaNuclearMigrationGrowthModifier

/-- The constructor. -/
def new : TargetAreaNuclearMigrationGrowthModifier :=
  { mMatureCellTargetArea := 1.0, mIntermediateCellTargetArea := 0.55 }

/-- The G1 duration the growth law works with: a differentiated cell reports `DBL_MAX`, and
the transit-cell G1 duration is taken in its place. -/
def g1_duration (pCell : Cell) : Double :=
  if Double.eq pCell.cellCycleModel.g1Duration DBL_MAX then
    pCell.cellCycleModel.transitCellG1Duration
  else
    pCell.cellCycleModel.g1Duration

/-- The value of the local `cell_target_area` of an apoptotic cell after lines 117 to 120:
the target area at the start of apoptosis. -/
def area_at_start_of_apoptosis (self : TargetAreaNuclearMigrationGrowthModifier)
    (pCell : Cell) : Double :=
  if Double.lt (pCell.startOfApoptosisTime - pCell.birthTime) (g1_duration pCell) then
    self.mMatureCellTargetArea
      * (0.5 * (1 + (pCell.startOfApoptosisTime - pCell.birthTime) / g1_duration pCell))
  else self.mMatureCellTargetArea

/-- The body of `UpdateTargetAreaOfCell` between the read of `"slope"` and the write of
`"target area"`: the value of the local `cell_target_area` when it is stored. -/
def cell_target_area (self : TargetAreaNuclearMigrationGrowthModifier) (time : Double)
    (pCell : Cell) (cell_slope : Double) : Double :=
  let area0 := self.mMatureCellTargetArea
  let cell_age := pCell.age
  let g1 := g1_duration pCell
  let s_duration := pCell.cellCycleModel.sDuration
  let g2_duration := pCell.cellCycleModel.g2Duration
  let m_duration := pCell.cellCycleModel.mDuration
  if pCell.hasApoptoticCellProperty then
    -- age of the cell when apoptosis begins
    let area1 := area_at_start_of_apoptosis self pCell
    let area2 := area1 - 0.5 * area1 / pCell.apoptosisTime * (time - pCell.startOfApoptosisTime)
    -- don't allow a negative target area
    if Double.lt area2 0 then 0 else area2
  else
    if Double.lt cell_age (g1 * 1.1) then
      0.5 + cell_age / (cell_slope * 8.0)
    else if Double.gt cell_age (g1 + s_duration) then
      let target_area_post_g1 := 0.5 + pCell.cellCycleModel.g1Duration / (cell_slope * 8.0)
      target_area_post_g1
        + ((cell_age - g1 - s_duration) / (g2_duration + m_duration)) * (1 - target_area_post_g1)
    else if pCell.readyToDivide then
      0.5 * self.mMatureCellTargetArea
    else
      area0

/-- Method `UpdateTargetAreaOfCell(CellPtr pCell)`: reads `"slope"` (which throws when it is not
stored), computes the target area and stores it under `"target area"`. -/
def UpdateTargetAreaOfCell (self : TargetAreaNuclearMigrationGrowthModifier) (time : Double)
    (pCell : Cell) : Except Exception Cell :=
  match pCell.cellData.GetItem "slope" with
  | .error e => .error e
  | .ok cell_slope =>
      .ok { pCell with
        cellData := pCell.cellData.SetItem "target area"
          (cell_target_area self time pCell cell_slope) }

end TargetAreaNuclearMigrationGrowthModifier

/-! ## The ODE system in binary64 arithmetic -/

/-- The member variables of the ODE system. -/
structure Alarcon2004OxygenBasedCellCycleOdeSystem where
  ma1 : Double
  ma2 : Double
  ma3 : Double
  ma4 : Double
  mb3 : Double
  mb4 : Double
  mc1 : Double
  mc2 : Double
  md1 : Double
  md2 : Double
  mJ3 : Double
  mJ4 : Double
  mEta : Double
  mMstar : Double
  mB : Double
  mxThreshold : Double
  myThreshold : Double
  mOxygenConcentration : Double
  mIsLabelled : Bool
  deriving DecidableEq

/-- What stops a run of `EvaluateYDerivatives` short of its end: an access to a vector
outside its bounds, or, when divisions are checked, a division by a zero. -/
inductive Fault where
  | outOfBounds
  | divisionByZero
  deriving DecidableEq, Repr

instance instDecidableEqRun {α : Type} [DecidableEq α] : DecidableEq (Except Fault α)
  | .ok a, .ok b =>
      if h : a = b then isTrue (h ▸ rfl) else isFalse (fun h2 => h (Except.ok.inj h2))
  | .error a, .error b =>
      if h : a = b then isTrue (h ▸ rfl) else isFalse (fun h2 => h (Except.error.inj h2))
  | .ok _, .error _ => isFalse (fun h => Except.noConfusion h)
  | .error _, .ok _ => isFalse (fun h => Except.noConfusion h)

namespace Alarcon2004OxygenBasedCellCycleOdeSystem

/-- Method `Init()`: sets up the parameters shared by both cell types. -/
def Init (self : Alarcon2004OxygenBasedCellCycleOdeSystem) :
    Alarcon2004OxygenBasedCellCycleOdeSystem :=
  { self with
    ma2 := 1.0, ma3 := 0.25, ma4 := 0.04, mb3 := 10.0, mb4 := 5.5, mc2 := 0.01,
    md1 := 0.01, md2 := 0.1, mJ3 := 0.04, mJ4 := 0.04, mEta := 0.01, mMstar := 10.0,
    mB := 0.01 }

/-- The object at the start of the constructor body: the two members of the initialiser
list are set and every other member is still to be assigned (here `0`). -/
def uninitialised (oxygenConcentration : Double) (isLabelled : Bool) :
    Alarcon2004OxygenBasedCellCycleOdeSystem :=
  { ma1 := 0, ma2 := 0, ma3 := 0, ma4 := 0, mb3 := 0, mb4 := 0, mc1 := 0, mc2 := 0,
    md1 := 0, md2 := 0, mJ3 := 0, mJ4 := 0, mEta := 0, mMstar := 0, mB := 0,
    mxThreshold := 0, myThreshold := 0,
    mOxygenConcentration := oxygenConcentration, mIsLabelled := isLabelled }

/-- The constructor, as far as the parameters are concerned. -/
def new (oxygenConcentration : Double) (isLabelled : Bool) :
    Alarcon2004OxygenBasedCellCycleOdeSystem :=
  let self := Init (uninitialised oxygenConcentration isLabelled)
  if self.mIsLabelled then
    -- labelled "cancer" cells
    { self with ma1 := 0.04, mc1 := 0.007, mxThreshold := 0.004, myThreshold := 0.05 }
  else
    -- normal cells
    { self with ma1 := 0.05, mc1 := 0.1, mxThreshold := 0.004, myThreshold := 0.2 }

/-- The read `rY[i]` of a `std::vector<double>`: defined only for an index in bounds. -/
def readAt (v : List Double) (i : Nat) : Except Fault Double :=
  match v[i]? with
  | some value => .ok value
  | none => .error .outOfBounds

/-- The assignment `rDY[i] = value`: defined only for an index in bounds. -/
def writeAt (v : List Double) (i : Nat) (value : Double) : Except Fault (List Double) :=
  if i < v.length then .ok (v.set i value) else .error .outOfBounds

/-- The division `x / y` as the program performs it: it always yields a value. -/
def divide (x y : Double) : Except Fault Double := .ok (x / y)

/-- The division `x / y` with a check of the divisor: a division by a zero of either
sign is reported instead of performed. -/
def divideChecked (x y : Double) : Except Fault Double :=
  if y.isZero then .error .divisionByZero else .ok (x / y)

/-- The body of `EvaluateYDerivatives(time, rY, rDY)`, with the operation that performs
its divisions as a parameter. -/
def evaluateYDerivativesWith (division : Double → Double → Except Fault Double)
    (self : Alarcon2004OxygenBasedCellCycleOdeSystem) (_time : Double)
    (rY rDY : List Double) : Except Fault (List Double) := do
  let x ← readAt rY 0
  let y ← readAt rY 1
  let z ← readAt rY 2
  let mass ← readAt rY 3
  let u ← readAt rY 4
  let oxygen_concentration ← readAt rY 5
  let dx := (← division ((1 + self.mb3 * u) * (1 - x)) (self.mJ3 + 1 - x))
    - (← division (self.mb4 * mass * x * y) (self.mJ4 + x))
  let dy := self.ma4 - (self.ma1 + self.ma2 * x + self.ma3 * z) * y
  let dz ←
    if self.mIsLabelled then
      -- labelled "cancer" cells
      pure (self.mc1
        - (← division (self.mc2 * oxygen_concentration * z) (self.mB + oxygen_concentration)))
    else
      -- normal cells
      pure (self.mc1 * (1 - (← division mass self.mMstar))
        - (← division (self.mc2 * oxygen_concentration * z) (self.mB + oxygen_concentration)))
  let dmass := self.mEta * mass * (1 - (← division mass self.mMstar))
  let du := self.md1 - (self.md2 + self.md1 * y) * u
  -- rescale time to be in hours
  let rDY ← writeAt rDY 0 (60.0 * dx)
  let rDY ← writeAt rDY 1 (60.0 * dy)
  let rDY ← writeAt rDY 2 (60.0 * dz)
  let rDY ← writeAt rDY 3 (60.0 * dmass)
  let rDY ← writeAt rDY 4 (60.0 * du)
  -- do not change the oxygen concentration
  writeAt rDY 5 0.0

/-- Method `EvaluateYDerivatives(time, rY, rDY)`: returns `rDY` after the six writes. -/
def EvaluateYDerivatives (self : Alarcon2004OxygenBasedCellCycleOdeSystem) (time : Double)
    (rY rDY : List Double) : Except Fault (List Double) :=
  evaluateYDerivativesWith divide self time rY rDY

/-- Method `EvaluateYDerivatives(time, rY, rDY)` run with every divisor checked: the same
body, which stops at the first division by zero. -/
def EvaluateYDerivativesChecked (self : Alarcon2004OxygenBasedCellCycleOdeSystem)
    (time : Double) (rY rDY : List Double) : Except Fault (List Double) :=
  evaluateYDerivativesWith divideChecked self time rY rDY

end Alarcon2004OxygenBasedCellCycleOdeSystem

end Rounded

/-! ## Example inputs in binary64 arithmetic -/

namespace Rounded

/-- A cell born at time 0 whose apoptosis started at time 1 and lasts a quarter of an hour,
with phase durations G1 2, S 5, G2 4, M 1 hours and slope 1. -/
def apoptoticCell : Cell :=
  { cellId := 7, age := 1, birthTime := 0, startOfApoptosisTime := 1, apoptosisTime := 0.25,
    hasApoptoticCellProperty := true, readyToDivide := false,
    cellCycleModel :=
      { g1Duration := 2, sDuration := 5, g2Duration := 4, mDuration := 1,
        transitCellG1Duration := 2 },
    cellData := [("slope", 1)] }

/-- The modifier after `SetMatureCellTargetArea(DBL_MAX)`. -/
def modifierWithLargestMatureArea : TargetAreaNuclearMigrationGrowthModifier :=
  { TargetAreaNuclearMigrationGrowthModifier.new with mMatureCellTargetArea := DBL_MAX }

/-- A healthy transit cell with the phase durations of `apoptoticCell` at the end of its
cycle, age 12 = 2 + 5 + 4 + 1, with slope 1, not ready to divide. -/
def cellAtEndOfCycle : Cell :=
  { apoptoticCell with cellId := 3, age := 12, hasApoptoticCellProperty := false }

/-- The cell `cellAtEndOfCycle` with slope `2 ^ (-60)`. -/
def cellWithTinySlope : Cell :=
  { cellAtEndOfCycle with cellData := [("slope", .finite (1 / 2 ^ 60))] }

/-- The cell `cellAtEndOfCycle` at age 1, in G1 phase, with slope 0. -/
def cellWithZeroSlope : Cell :=
  { cellAtEndOfCycle with age := 1, cellData := [("slope", 0)] }

/-- The cell `cellAtEndOfCycle` as a differentiated cell: its cell-cycle model reports the
G1 duration `DBL_MAX`. -/
def differentiatedCellAtEndOfCycle : Cell :=
  { cellAtEndOfCycle with
    cellCycleModel := { cellAtEndOfCycle.cellCycleModel with g1Duration := DBL_MAX } }

/-- The cell `cellAtEndOfCycle` at age 9, in G2 phase. -/
def cellInG2Phase : Cell :=
  { cellAtEndOfCycle with age := 9 }

end Rounded

/-! ## The growth law in binary64 arithmetic, in closed form -/

namespace Rounded

namespace TargetAreaNuclearMigrationGrowthModifier

/-- The target area of an apoptotic cell as a function of the mature target area `A`, the
birth time `b`, the start of apoptosis `s`, the effective G1 duration `g`, the apoptosis
duration `T` and the time `t`, every operation being the binary64 operation: the area
`A0` at the start of apoptosis, less `0.5 * A0 / T * (t - s)`, and zero when that is
negative.  This is the formula in the words of the amended claim, to be compared with
`cell_target_area`. -/
def apoptoticTargetArea (A b s g T t : Double) : Double :=
  let A0 := if Double.lt (s - b) g then A * (0.5 * (1 + (s - b) / g)) else A
  let area := A0 - 0.5 * A0 / T * (t - s)
  if Double.lt area 0 then 0 else area

/-- The target area of a healthy cell as a function of the mature target area `A`, the age
`a`, the effective G1 duration `g`, the G1 duration `rawG1` that the cell-cycle model
reports, the S, G2 and M durations, the slope `k` and whether the cell is ready to
divide, every operation being the binary64 operation and the three cases being tested
in this order.  This is the formula in the words of the amended claim, to be compared
with `cell_target_area`. -/
def healthyTargetArea (A a g rawG1 s g2 m k : Double) (ready : Bool) : Double :=
  if Double.lt a (1.1 * g) then 0.5 + a / (8 * k)
  else if Double.gt a (g + s) then
    let p := 0.5 + rawG1 / (8 * k)
    p + ((a - g - s) / (g2 + m)) * (1 - p)
  else if ready then A / 2
  else A

end TargetAreaNuclearMigrationGrowthModifier

end Rounded

/-! ## Lemmas on the cell data store -/

theorem CellData.getItem_setItem_same (d : CellData) (k : String) (v : ℚ) :
    CellData.GetItem (CellData.SetItem d k v) k = .ok v := by
  induction d with
  | nil => simp [CellData.SetItem, CellData.GetItem]
  | cons e rest ih =>
      obtain ⟨k1, v1⟩ := e
      by_cases h : k1 = k
      · simp [CellData.SetItem, CellData.GetItem, h]
      · simp [CellData.SetItem, CellData.GetItem, h, ih]

theorem CellData.getItem_setItem_other (d : CellData) (k k2 : String) (v : ℚ) (hk : k2 ≠ k) :
    CellData.GetItem (CellData.SetItem d k v) k2 = CellData.GetItem d k2 := by
  induction d with
  | nil => simp [CellData.SetItem, CellData.GetItem, Ne.symm hk]
  | cons e rest ih =>
      obtain ⟨k1, v1⟩ := e
      by_cases h : k1 = k
      · subst h
        simp [CellData.SetItem, CellData.GetItem, Ne.symm hk]
      · by_cases h2 : k1 = k2
        · subst h2
          simp [CellData.SetItem, CellData.GetItem, hk]
        · simp [CellData.SetItem, CellData.GetItem, h, h2, ih]

/-- A write under `k` leaves the bindings of all other keys, and their order, as they were. -/
theorem CellData.filter_setItem (d : CellData) (k : String) (v : ℚ) :
    (CellData.SetItem d k v).filter (fun e => e.1 ≠ k) = d.filter (fun e => e.1 ≠ k) := by
  induction d with
  | nil => simp [CellData.SetItem]
  | cons e rest ih =>
      obtain ⟨k1, v1⟩ := e
      by_cases h : k1 = k
      · simp [CellData.SetItem, h]
      · simp only [ne_eq, decide_not] at ih
        simp [CellData.SetItem, h, ih]

theorem CellData.setItem_setItem (d : CellData) (k : String) (v w : ℚ) :
    CellData.SetItem (CellData.SetItem d k v) k w = CellData.SetItem d k w := by
  induction d with
  | nil => simp [CellData.SetItem]
  | cons e rest ih =>
      obtain ⟨k1, v1⟩ := e
      by_cases h : k1 = k
      · simp [CellData.SetItem, h]
      · simp [CellData.SetItem, h, ih]

/-- The only exception of `GetItem` is the one that names the missing key. -/
theorem CellData.getItem_error (d : CellData) (k : String) (e : Exception)
    (h : CellData.GetItem d k = .error e) : e = .dataNotFound k := by
  induction d with
  | nil => simpa [CellData.GetItem, eq_comm] using h
  | cons b rest ih =>
      obtain ⟨k1, v1⟩ := b
      by_cases hk : k1 = k
      · simp [CellData.GetItem, hk] at h
      · simp only [CellData.GetItem, hk, if_false] at h
        exact ih h

/-- A key with no binding in the store is reported as not found. -/
theorem CellData.getItem_of_no_entry (d : CellData) (k : String) (h : ∀ v, (k, v) ∉ d) :
    CellData.GetItem d k = .error (.dataNotFound k) := by
  induction d with
  | nil => rfl
  | cons e rest ih =>
      obtain ⟨k1, v1⟩ := e
      have hne : k1 ≠ k := by
        rintro rfl
        exact h v1 (List.mem_cons_self _ _)
      have hrest : ∀ v, (k, v) ∉ rest := fun v hv => h v (List.mem_cons_of_mem _ hv)
      simp [CellData.GetItem, hne, ih hrest]

/-! ## The growth law on a single cell -/

namespace TargetAreaNuclearMigrationGrowthModifier

/-- A call of `UpdateTargetAreaOfCell` succeeds exactly when `"slope"` is stored, and then
returns the cell with the computed target area written to its data store. -/
theorem updateTargetAreaOfCell_ok (self : TargetAreaNuclearMigrationGrowthModifier) (time : ℚ)
    (pCell updated : Cell) :
    UpdateTargetAreaOfCell self time pCell = .ok updated ↔
      ∃ cell_slope, pCell.cellData.GetItem "slope" = .ok cell_slope ∧
        updated = { pCell with
          cellData := pCell.cellData.SetItem "target area"
            (cell_target_area self time pCell cell_slope) } := by
  unfold UpdateTargetAreaOfCell
  cases h : pCell.cellData.GetItem "slope" with
  | error e => simp
  | ok cell_slope =>
      simp only [Except.ok.injEq, exists_eq_left']
      exact eq_comm

theorem slope_ne_target_area : ("slope" : String) ≠ "target area" := by decide

/-- The only exception `UpdateTargetAreaOfCell` can throw is the one of `GetItem`. -/
theorem updateTargetAreaOfCell_error (self : TargetAreaNuclearMigrationGrowthModifier)
    (time : ℚ) (pCell : Cell) (e : Exception)
    (h : UpdateTargetAreaOfCell self time pCell = .error e) : e = .dataNotFound "slope" := by
  unfold UpdateTargetAreaOfCell at h
  cases hg : pCell.cellData.GetItem "slope" with
  | error e2 =>
      rw [hg] at h
      have he : e2 = e := by simpa using h
      subst he
      exact CellData.getItem_error _ _ _ hg
  | ok k =>
      rw [hg] at h
      simp at h

/-- Updating a cell that has just been updated changes nothing. -/
theorem updateTargetAreaOfCell_idem (self : TargetAreaNuclearMigrationGrowthModifier)
    (time : ℚ) (pCell updated : Cell)
    (h : UpdateTargetAreaOfCell self time pCell = .ok updated) :
    UpdateTargetAreaOfCell self time updated = .ok updated := by
  obtain ⟨k, hk, rfl⟩ := (updateTargetAreaOfCell_ok self time pCell updated).1 h
  rw [updateTargetAreaOfCell_ok]
  refine ⟨k, ?_, ?_⟩
  · simpa [CellData.getItem_setItem_other _ _ _ _ slope_ne_target_area] using hk
  · simp only [CellData.setItem_setItem]
    rfl

/-- C3 fails on the code: `dividingCell` is not apoptotic and is ready to divide, its age 12
exceeds G1 + S = 7, so the G2 branch is taken before `ReadyToDivide()` is consulted and
the stored target area is 1, not half of the mature target area 1. -/
theorem C3_ready_to_divide_stores_full_area :
    dividingCell.hasApoptoticCellProperty = false
      ∧ dividingCell.readyToDivide = true
      ∧ UpdateTargetAreaOfCell new 12 dividingCell
          = .ok { dividingCell with cellData := [("slope", 1), ("target area", 1)] }
      ∧ (1 : ℚ) ≠ 0.5 * new.mMatureCellTargetArea := by
  refine ⟨rfl, rfl, ?_, ?_⟩
  · simp [UpdateTargetAreaOfCell, dividingCell, CellData.GetItem, CellData.SetItem,
      cell_target_area, g1_duration, new, DBL_MAX]
    norm_num
  · norm_num [new]

/-- C7: when the data store of a cell has no entry under `"slope"`, apoptotic or not,
`UpdateTargetAreaOfCell` fails with the data-not-found exception of `GetItem` for
`"slope"`; nothing is written: the loop of `UpdateTargetAreas` that reaches such a cell
stops with that exception and leaves the population state as it found it. -/
theorem C7_missing_slope (self : TargetAreaNuclearMigrationGrowthModifier) (time : ℚ)
    (pCell : Cell) (h : ∀ v, ("slope", v) ∉ pCell.cellData) :
    UpdateTargetAreaOfCell self time pCell = .error (.dataNotFound "slope")
      ∧ ∀ (st : PopulationState) (elem_index : Nat) (rest : List Nat),
          st.locationCellMap elem_index = some pCell →
            updateElements self time (elem_index :: rest) st
              = (.error (.dataNotFound "slope"), st) := by
  have hU : UpdateTargetAreaOfCell self time pCell = .error (.dataNotFound "slope") := by
    simp [UpdateTargetAreaOfCell, CellData.getItem_of_no_entry _ _ h]
  refine ⟨hU, ?_⟩
  intro st elem_index rest hst
  simp [updateElements, PopulationState.GetCellUsingLocationIndex, hst, hU]

/-- C7 at `cellWithoutSlope`, an apoptotic cell that stores only `"volume"`. -/
theorem C7_missing_slope_witness :
    UpdateTargetAreaOfCell new 12 cellWithoutSlope = .error (.dataNotFound "slope")
      ∧ updateElements new 12 [5, 6]
          { elementIndices := [5, 6], locationCellMap := fun _ => some cellWithoutSlope }
        = (.error (.dataNotFound "slope"),
            { elementIndices := [5, 6], locationCellMap := fun _ => some cellWithoutSlope }) :=
  have h := C7_missing_slope new 12 cellWithoutSlope
    (by simp [cellWithoutSlope, apoptoticCell])
  ⟨h.1, h.2 _ 5 [6] rfl⟩

/-- C9: a successful call of `UpdateTargetAreaOfCell` writes the entry `"target area"` and
nothing else: every other key reads as before, the bindings of the other keys are the
same list as before, and the cell returned differs from the cell given in its data store
only (identifier, age, birth time, apoptosis times, properties and cell-cycle durations
are the same). -/
theorem C9_frame (self : TargetAreaNuclearMigrationGrowthModifier) (time : ℚ)
    (pCell updated : Cell) (hU : UpdateTargetAreaOfCell self time pCell = .ok updated) :
    (∃ v, updated.cellData.GetItem "target area" = .ok v)
      ∧ (∀ k, k ≠ "target area" → updated.cellData.GetItem k = pCell.cellData.GetItem k)
      ∧ updated.cellData.filter (fun e => e.1 ≠ "target area")
          = pCell.cellData.filter (fun e => e.1 ≠ "target area")
      ∧ updated = { pCell with cellData := updated.cellData } := by
  obtain ⟨cell_slope, -, rfl⟩ := (updateTargetAreaOfCell_ok self time pCell updated).1 hU
  exact ⟨⟨_, CellData.getItem_setItem_same _ _ _⟩,
    fun k hk => CellData.getItem_setItem_other _ _ _ _ hk,
    CellData.filter_setItem _ _ _, rfl⟩

/-- C9 at `dividingCell`, updated at time 12. -/
theorem C9_frame_witness :
    (∃ v, CellData.GetItem [("slope", 1), ("target area", 1)] "target area" = .ok v)
      ∧ (∀ k, k ≠ "target area" →
          CellData.GetItem [("slope", 1), ("target area", 1)] k
            = dividingCell.cellData.GetItem k)
      ∧ List.filter (fun e => e.1 ≠ "target area")
            ([("slope", 1), ("target area", 1)] : CellData)
          = dividingCell.cellData.filter (fun e => e.1 ≠ "target area")
      ∧ ({ dividingCell with cellData := [("slope", 1), ("target area", 1)] } : Cell)
          = { dividingCell with cellData := [("slope", 1), ("target area", 1)] } :=
  C9_frame new 12 dividingCell
    { dividingCell with cellData := [("slope", 1), ("target area", 1)] }
    (by
      simp [UpdateTargetAreaOfCell, dividingCell, CellData.GetItem, CellData.SetItem,
        cell_target_area, g1_duration, new, DBL_MAX]
      norm_num)

/-! ### The growth law on a population -/

/-- The loop over the elements never throws an exception of the `message` kind. -/
theorem updateElements_ne_message (self : TargetAreaNuclearMigrationGrowthModifier) (time : ℚ)
    (text : String) (l : List Nat) (st : PopulationState) :
    (updateElements self time l st).1 ≠ .error (.message text) := by
  induction l generalizing st with
  | nil => simp [updateElements]
  | cons i rest ih =>
      unfold updateElements
      cases hc : st.GetCellUsingLocationIndex i with
      | error e =>
          have he : e = .invalidOperation := by
            unfold PopulationState.GetCellUsingLocationIndex at hc
            cases hm : st.locationCellMap i with
            | none => rw [hm] at hc; simpa [eq_comm] using hc
            | some c => rw [hm] at hc; simp at hc
          simp [he]
      | ok pCell =>
          cases hu : UpdateTargetAreaOfCell self time pCell with
          | error e =>
              have he := updateTargetAreaOfCell_error self time pCell e hu
              subst he
              simp [hu]
          | ok updated =>
              simp only [hu]
              exact ih _

/-- When every listed index carries a cell that stores `"slope"`, the loop over the elements
succeeds; it leaves at each listed index the update of the cell that was there, and
changes nothing else. -/
theorem updateElements_ok (self : TargetAreaNuclearMigrationGrowthModifier) (time : ℚ)
    (l : List Nat) (st : PopulationState)
    (h : ∀ i ∈ l, ∃ c k, st.locationCellMap i = some c ∧ c.cellData.GetItem "slope" = .ok k) :
    ∃ st2, updateElements self time l st = (.ok (), st2)
      ∧ st2.elementIndices = st.elementIndices
      ∧ (∀ i ∈ l, ∃ c c2, st.locationCellMap i = some c
            ∧ UpdateTargetAreaOfCell self time c = .ok c2 ∧ st2.locationCellMap i = some c2)
      ∧ (∀ i, i ∉ l → st2.locationCellMap i = st.locationCellMap i) := by
  induction l generalizing st with
  | nil => exact ⟨st, rfl, rfl, by simp, fun _ _ => rfl⟩
  | cons j rest ih =>
      obtain ⟨cj, kj, hcj, hkj⟩ := h j (List.mem_cons_self _ _)
      obtain ⟨cj2, hcj2⟩ : ∃ cj2, UpdateTargetAreaOfCell self time cj = .ok cj2 :=
        ⟨_, (updateTargetAreaOfCell_ok self time cj _).2 ⟨kj, hkj, rfl⟩⟩
      have hidem := updateTargetAreaOfCell_idem self time cj cj2 hcj2
      have hmap : ∀ i, (st.setCell j cj2).locationCellMap i
          = if i = j then some cj2 else st.locationCellMap i := by
        intro i
        simp [PopulationState.setCell, Function.update_apply]
      have hrest : ∀ i ∈ rest, ∃ c k, (st.setCell j cj2).locationCellMap i = some c
          ∧ c.cellData.GetItem "slope" = .ok k := by
        intro i hi
        by_cases hij : i = j
        · obtain ⟨k, hk, -⟩ := (updateTargetAreaOfCell_ok self time cj2 cj2).1 hidem
          exact ⟨cj2, k, by simp [hmap, hij], hk⟩
        · obtain ⟨c, k, hc, hk⟩ := h i (List.mem_cons_of_mem _ hi)
          exact ⟨c, k, by simp [hmap, hij, hc], hk⟩
      obtain ⟨st2, hrun, helems, hin, hout⟩ := ih (st.setCell j cj2) hrest
      refine ⟨st2, ?_, ?_, ?_, ?_⟩
      · simp [updateElements, PopulationState.GetCellUsingLocationIndex, hcj, hcj2, hrun]
      · simpa [PopulationState.setCell] using helems
      · intro i hi
        by_cases hir : i ∈ rest
        · obtain ⟨c, c2, hc, hu, hc2⟩ := hin i hir
          by_cases hij : i = j
          · subst hij
            have hcc : c = cj2 := by simpa [hmap] using hc.symm
            subst hcc
            have : c2 = c := by
              rw [hidem] at hu
              exact (Except.ok.inj hu).symm
            subst this
            exact ⟨cj, c2, hcj, hcj2, hc2⟩
          · exact ⟨c, c2, by simpa [hmap, hij] using hc, hu, hc2⟩
        · have hij : i = j := by
            rcases List.mem_cons.1 hi with h1 | h1
            · exact h1
            · exact absurd h1 hir
          subst hij
          exact ⟨cj, cj2, hcj, hcj2, by rw [hout i hir]; simp [hmap]⟩
      · intro i hi
        have hij : i ≠ j := fun hh => hi (hh ▸ List.mem_cons_self _ _)
        have hir : i ∉ rest := fun hh => hi (List.mem_cons_of_mem _ hh)
        rw [hout i hir]
        simp [hmap, hij]

/-- When the loop over the elements succeeds, every listed index carried a cell that
stores `"slope"`. -/
theorem updateElements_ok_inv (self : TargetAreaNuclearMigrationGrowthModifier) (time : ℚ)
    (l : List Nat) (st st2 : PopulationState)
    (h : updateElements self time l st = (.ok (), st2)) :
    ∀ i ∈ l, ∃ c k, st.locationCellMap i = some c ∧ c.cellData.GetItem "slope" = .ok k := by
  induction l generalizing st with
  | nil => simp
  | cons j rest ih =>
      unfold updateElements PopulationState.GetCellUsingLocationIndex at h
      cases hm : st.locationCellMap j with
      | none => simp [hm] at h
      | some cj =>
          simp only [hm] at h
          cases hu : UpdateTargetAreaOfCell self time cj with
          | error e => simp [hu] at h
          | ok cj2 =>
              simp only [hu] at h
              obtain ⟨kj, hkj, -⟩ := (updateTargetAreaOfCell_ok self time cj cj2).1 hu
              intro i hi
              by_cases hij : i = j
              · subst hij
                exact ⟨cj, kj, hm, hkj⟩
              · have hir : i ∈ rest := by
                  rcases List.mem_cons.1 hi with h1 | h1
                  · exact absurd h1 hij
                  · exact h1
                obtain ⟨c, k, hc, hk⟩ := ih _ h i hir
                refine ⟨c, k, ?_, hk⟩
                simpa [PopulationState.setCell, Function.update_apply, hij] using hc

/-- Under a vertex-based population `UpdateTargetAreas` is the loop over the elements of
the updated population. -/
theorem updateTargetAreas_vertex (self : TargetAreaNuclearMigrationGrowthModifier) (time : ℚ)
    (pop : AbstractCellPopulation) (hk : pop.kind = .vertexBased) :
    UpdateTargetAreas self time pop
      = ((updateElements self time (pop.Update pop.state).elementIndices
            (pop.Update pop.state)).1,
          { pop with state := (updateElements self time (pop.Update pop.state).elementIndices
            (pop.Update pop.state)).2 }) := by
  simp [UpdateTargetAreas, hk]

/-- On a vertex-based population in which, after `Update()`, every mesh element carries a
cell that stores `"slope"`, `SetupSolve` succeeds. -/
theorem setupSolve_succeeds (self : TargetAreaNuclearMigrationGrowthModifier) (time : ℚ)
    (pop : AbstractCellPopulation) (dir : String) (hk : pop.kind = .vertexBased)
    (hs : ∀ i ∈ (pop.Update pop.state).elementIndices, ∃ c k,
      (pop.Update pop.state).locationCellMap i = some c
        ∧ c.cellData.GetItem "slope" = .ok k) :
    ∃ pop2, SetupSolve self time pop dir = (.ok (), pop2) := by
  obtain ⟨st2, hrun, -⟩ := updateElements_ok self time _ _ hs
  exact ⟨_, by rw [SetupSolve, updateTargetAreas_vertex self time pop hk, hrun]⟩

/-- C8: for a population that is not vertex based, `SetupSolve` and `UpdateAtEndOfTimeStep`
throw the exception "TargetAreaNuclearMigrationGrowthModifier is to be used with a
VertexBasedCellPopulation only" and leave the population as `Update()` left it, no target
area having been written; for a vertex-based population neither throws that exception. -/
theorem C8_vertex_only (self : TargetAreaNuclearMigrationGrowthModifier) (time : ℚ)
    (pop : AbstractCellPopulation) (dir : String) :
    (pop.kind ≠ .vertexBased →
      SetupSolve self time pop dir
          = (.error (.message vertexOnlyMessage), { pop with state := pop.Update pop.state })
        ∧ UpdateAtEndOfTimeStep self time pop
          = (.error (.message vertexOnlyMessage), { pop with state := pop.Update pop.state }))
    ∧ (pop.kind = .vertexBased →
      (SetupSolve self time pop dir).1 ≠ .error (.message vertexOnlyMessage)
        ∧ (UpdateAtEndOfTimeStep self time pop).1 ≠ .error (.message vertexOnlyMessage)) := by
  constructor
  · intro hk
    simp [SetupSolve, UpdateAtEndOfTimeStep, UpdateTargetAreas, hk]
  · intro hk
    have h := updateElements_ne_message self time vertexOnlyMessage
      (pop.Update pop.state).elementIndices (pop.Update pop.state)
    simp only [SetupSolve, UpdateAtEndOfTimeStep, updateTargetAreas_vertex self time pop hk]
    exact ⟨h, h⟩

/-- C8 at `pottsPopulation`, which is rejected, and at `vertexPopulation`, which is not. -/
theorem C8_vertex_only_witness :
    (SetupSolve new 12 pottsPopulation "output"
          = (.error (.message vertexOnlyMessage),
              { pottsPopulation with state := pottsPopulation.Update pottsPopulation.state })
        ∧ UpdateAtEndOfTimeStep new 12 pottsPopulation
          = (.error (.message vertexOnlyMessage),
              { pottsPopulation with state := pottsPopulation.Update pottsPopulation.state }))
    ∧ ((SetupSolve new 12 vertexPopulation "output").1 ≠ .error (.message vertexOnlyMessage)
        ∧ (UpdateAtEndOfTimeStep new 12 vertexPopulation).1
          ≠ .error (.message vertexOnlyMessage)) :=
  ⟨(C8_vertex_only new 12 pottsPopulation "output").1 (by simp [pottsPopulation]),
    (C8_vertex_only new 12 vertexPopulation "output").2 rfl⟩

/-- C10: after a successful `SetupSolve`, every mesh element of the population carries a
cell whose data store has a `"target area"` entry, equal to the value that
`UpdateTargetAreaOfCell` computes for the cell that `Update()` left at that element; and
`UpdateAtEndOfTimeStep` performs exactly the same update as `SetupSolve`.  (That the call
does succeed on a vertex-based population whose cells all store `"slope"` is
`setupSolve_succeeds`.) -/
theorem C10_setupSolve_populates (self : TargetAreaNuclearMigrationGrowthModifier) (time : ℚ)
    (pop pop2 : AbstractCellPopulation) (dir : String)
    (hrun : SetupSolve self time pop dir = (.ok (), pop2)) :
    (∀ i ∈ pop2.state.elementIndices, ∃ c c2 k,
        (pop.Update pop.state).locationCellMap i = some c
          ∧ c.cellData.GetItem "slope" = .ok k
          ∧ UpdateTargetAreaOfCell self time c = .ok c2
          ∧ pop2.state.locationCellMap i = some c2
          ∧ c2.cellData.GetItem "target area" = .ok (cell_target_area self time c k))
      ∧ pop2.state.elementIndices = (pop.Update pop.state).elementIndices
      ∧ UpdateAtEndOfTimeStep self time pop = SetupSolve self time pop dir := by
  have hk : pop.kind = .vertexBased := by
    by_contra hne
    simp [SetupSolve, UpdateTargetAreas, hne] at hrun
  rw [SetupSolve, updateTargetAreas_vertex self time pop hk] at hrun
  obtain ⟨h1, h2⟩ := Prod.mk.inj hrun
  have hloop : updateElements self time (pop.Update pop.state).elementIndices
      (pop.Update pop.state) = (.ok (), pop2.state) := by
    rw [← h2]
    exact Prod.ext h1 rfl
  have hs := updateElements_ok_inv self time _ _ _ hloop
  obtain ⟨st2, hrun2, helems, hin, -⟩ := updateElements_ok self time _ _ hs
  have hst : st2 = pop2.state := by
    rw [hloop] at hrun2
    exact (Prod.mk.inj hrun2).2.symm
  subst hst
  refine ⟨?_, helems, rfl⟩
  intro i hi
  rw [helems] at hi
  obtain ⟨c, c2, hc, hu, hc2⟩ := hin i hi
  obtain ⟨k, hk2, rfl⟩ := (updateTargetAreaOfCell_ok self time c c2).1 hu
  exact ⟨c, _, k, hc, hk2, hu, hc2, CellData.getItem_setItem_same _ _ _⟩

/-- C10 at `vertexPopulation`: `SetupSolve` at time 12 succeeds and leaves
`updatedVertexPopulation`. -/
theorem C10_setupSolve_populates_witness :
    (∀ i ∈ updatedVertexPopulation.state.elementIndices, ∃ c c2 k,
        (vertexPopulation.Update vertexPopulation.state).locationCellMap i = some c
          ∧ c.cellData.GetItem "slope" = .ok k
          ∧ UpdateTargetAreaOfCell new 12 c = .ok c2
          ∧ updatedVertexPopulation.state.locationCellMap i = some c2
          ∧ c2.cellData.GetItem "target area" = .ok (cell_target_area new 12 c k))
      ∧ updatedVertexPopulation.state.elementIndices
          = (vertexPopulation.Update vertexPopulation.state).elementIndices
      ∧ UpdateAtEndOfTimeStep new 12 vertexPopulation
          = SetupSolve new 12 vertexPopulation "output" :=
  C10_setupSolve_populates new 12 vertexPopulation updatedVertexPopulation "output"
    (by
      simp [SetupSolve, UpdateTargetAreas, vertexPopulation, twoCellState, updateElements,
        PopulationState.GetCellUsingLocationIndex, PopulationState.setCell,
        UpdateTargetAreaOfCell, dividingCell, apoptoticCell, CellData.GetItem,
        CellData.SetItem, cell_target_area, g1_duration, new, DBL_MAX,
        updatedVertexPopulation]
      norm_num)

end TargetAreaNuclearMigrationGrowthModifier

/-! ## The Alarcon (2004) ODE system -/

namespace Alarcon2004OxygenBasedCellCycleOdeSystem

/-- C4: on a 6-component state vector `CalculateStoppingEvent` returns true exactly when
`y[0] < 0.004` and `y[1] > 0.05` for a system constructed as labelled, and exactly when
`y[0] < 0.004` and `y[1] > 0.2` for one constructed as normal; for every system the result
depends neither on the time argument nor on `y[2..5]`. -/
theorem C4_calculateStoppingEvent_thresholds
    (oxygenConcentration time y0 y1 y2 y3 y4 y5 : ℚ) :
    CalculateStoppingEvent (new oxygenConcentration true) time [y0, y1, y2, y3, y4, y5]
        = some (decide (y0 < 0.004 ∧ y1 > 0.05))
    ∧ CalculateStoppingEvent (new oxygenConcentration false) time [y0, y1, y2, y3, y4, y5]
        = some (decide (y0 < 0.004 ∧ y1 > 0.2))
    ∧ ∀ (self : Alarcon2004OxygenBasedCellCycleOdeSystem) (time2 z2 z3 z4 z5 : ℚ),
        CalculateStoppingEvent self time2 [y0, y1, z2, z3, z4, z5]
          = CalculateStoppingEvent self time [y0, y1, y2, y3, y4, y5] := by
  refine ⟨?_, ?_, ?_⟩
  · simp [CalculateStoppingEvent, new, Init, uninitialised, Bool.decide_and]
  · simp [CalculateStoppingEvent, new, Init, uninitialised, Bool.decide_and]
  · intro self time2 z2 z3 z4 z5
    simp [CalculateStoppingEvent]

/-- C6: for every system (labelled or normal, whatever its parameters), every time and all
6-component vectors, `EvaluateYDerivatives` returns and the derivative it writes for state
variable 5, the oxygen concentration, is exactly 0. -/
theorem C6_evaluateYDerivatives_oxygen (self : Alarcon2004OxygenBasedCellCycleOdeSystem)
    (time y0 y1 y2 y3 y4 y5 d0 d1 d2 d3 d4 d5 : ℚ) :
    ∃ rDY, EvaluateYDerivatives self time [y0, y1, y2, y3, y4, y5] [d0, d1, d2, d3, d4, d5]
        = some rDY ∧ rDY[5]? = some 0 := by
  simp [EvaluateYDerivatives, writeAt]
  norm_num

end Alarcon2004OxygenBasedCellCycleOdeSystem

/-! ## Further properties of the growth law -/

namespace TargetAreaNuclearMigrationGrowthModifier

/-- C19 fails on the code: with the mature target area set to 2, the newborn cell
`newbornCell` (age 0, G1 duration 2, slope 1, not apoptotic) is given the target area
`1/2`, not half of the mature value. -/
theorem C19_newborn_area_ignores_mature_area :
    SetMatureCellTargetArea new 2 = some modifierWithMatureArea2
      ∧ newbornCell.hasApoptoticCellProperty = false
      ∧ newbornCell.age = 0
      ∧ UpdateTargetAreaOfCell modifierWithMatureArea2 0 newbornCell
          = .ok { newbornCell with cellData := [("slope", 1), ("target area", 1 / 2)] }
      ∧ (1 / 2 : ℚ) ≠ 0.5 * GetMatureCellTargetArea modifierWithMatureArea2 := by
  refine ⟨?_, rfl, rfl, ?_, ?_⟩
  · simp [SetMatureCellTargetArea, modifierWithMatureArea2, new]
    norm_num
  · simp [UpdateTargetAreaOfCell, newbornCell, dividingCell, CellData.GetItem,
      CellData.SetItem, cell_target_area, g1_duration, modifierWithMatureArea2, new, DBL_MAX]
    norm_num
  · norm_num [GetMatureCellTargetArea, modifierWithMatureArea2, new]

end TargetAreaNuclearMigrationGrowthModifier

/-! ## The averaged-source dispatch of AbstractPdeModifier -/

namespace AbstractPdeModifier

/-- C11: `HasAveragedSourcePde` returns true if and only if the PDE of the modifier is not
null and is an averaged-source elliptic or an averaged-source parabolic PDE; and whenever
it is true, `SetUpSourceTermsForAveragedSourcePde` passes its assertion and makes exactly
one call of `SetupSourceTerms`, on that PDE, with the given mesh and cell-to-element
map. -/
theorem C11_averaged_source_dispatch (self : AbstractPdeModifier) (pMesh : TetrahedralMesh)
    (pCellPdeElementMap : List (Nat × Nat)) :
    (HasAveragedSourcePde self = true ↔
        ∃ pde, self.mpPde = some pde
          ∧ (pde.isAveragedSourceEllipticPde = true ∨ pde.isAveragedSourceParabolicPde = true))
      ∧ (HasAveragedSourcePde self = true →
        ∃ pde method, self.mpPde = some pde
          ∧ SetUpSourceTermsForAveragedSourcePde self pMesh pCellPdeElementMap
            = some [⟨method, pde, pMesh, pCellPdeElementMap⟩]) := by
  cases hp : self.mpPde with
  | none =>
      simp [HasAveragedSourcePde, castToAveragedSourceEllipticPde,
        castToAveragedSourceParabolicPde, hp]
  | some pde =>
      cases he : pde.isAveragedSourceEllipticPde <;>
        cases hq : pde.isAveragedSourceParabolicPde <;>
        simp [HasAveragedSourcePde, SetUpSourceTermsForAveragedSourcePde,
          castToAveragedSourceEllipticPde, castToAveragedSourceParabolicPde, hp, he, hq]

/-- C11 at `averagedSourceModifier`: the one call is made on its elliptic PDE. -/
theorem C11_averaged_source_dispatch_witness :
    ∃ pde method, averagedSourceModifier.mpPde = some pde
      ∧ SetUpSourceTermsForAveragedSourcePde averagedSourceModifier ⟨3, [[0, 1, 2]]⟩ [(7, 0)]
        = some [⟨method, pde, ⟨3, [[0, 1, 2]]⟩, [(7, 0)]⟩] :=
  (C11_averaged_source_dispatch averagedSourceModifier ⟨3, [[0, 1, 2]]⟩ [(7, 0)]).2
    (by simp [HasAveragedSourcePde, castToAveragedSourceEllipticPde, averagedSourceModifier])

end AbstractPdeModifier

/-! ## The lattice-based simulation engine: counts of cells, births and deaths -/

theorem runModifiers_length (time : ℚ) (population : PopulationModel)
    (hooks : List ModifierHook) :
    ∀ (solutions : List (List ℚ)) (cells : List LiveCell)
      (done : List (List ℚ) × List LiveCell),
      RunModifiers time population hooks solutions cells = .ok done →
        done.2.length = cells.length := by
  induction hooks with
  | nil =>
      intro solutions cells done h
      simp only [RunModifiers, Except.ok.injEq] at h
      rw [← h]
  | cons hook rest ih =>
      intro solutions cells done h
      unfold RunModifiers at h
      split at h
      · simp at h
      · split at h
        · simp at h
        · rename_i written _ tail hr
          simp only [Except.ok.injEq] at h
          rw [← h]
          simpa using ih _ _ _ hr

theorem foldl_divide_counts (cfg : Configuration) (parents : List LiveCell) :
    ∀ sim : Simulation,
      (parents.foldl (Divide cfg) sim).cells.length = sim.cells.length + parents.length
        ∧ (parents.foldl (Divide cfg) sim).numBirths = sim.numBirths + parents.length
        ∧ (parents.foldl (Divide cfg) sim).numDeaths = sim.numDeaths := by
  induction parents with
  | nil => intro sim; simp
  | cons parent rest ih =>
      intro sim
      obtain ⟨h1, h2, h3⟩ := ih (Divide cfg sim parent)
      simp only [List.foldl_cons, List.length_cons]
      refine ⟨?_, ?_, ?_⟩
      · rw [h1]; simp [Divide]; omega
      · rw [h2]; simp [Divide]; omega
      · rw [h3]; simp [Divide]

theorem divisionPass_counts (cfg : Configuration) (sim : Simulation) :
    ∃ births : Nat,
      (DivisionPass cfg sim).cells.length = sim.cells.length + births
        ∧ (DivisionPass cfg sim).numBirths = sim.numBirths + births
        ∧ (DivisionPass cfg sim).numDeaths = sim.numDeaths
        ∧ ((∀ t c, cfg.readyToDivide t c = false) → births = 0) := by
  refine ⟨(sim.cells.filter (cfg.readyToDivide (sim.time cfg))).length, ?_, ?_, ?_, ?_⟩
  · exact (foldl_divide_counts cfg _ sim).1
  · exact (foldl_divide_counts cfg _ sim).2.1
  · exact (foldl_divide_counts cfg _ sim).2.2
  · intro h
    simp [h]

theorem killerPass_counts (cfg : Configuration) (sim : Simulation) :
    ∃ deaths : Nat,
      (KillerPass cfg sim).cells.length + deaths = sim.cells.length
        ∧ (KillerPass cfg sim).numDeaths = sim.numDeaths + deaths
        ∧ (KillerPass cfg sim).numBirths = sim.numBirths
        ∧ (cfg.killers = [] → deaths = 0) := by
  refine ⟨(sim.cells.filter (ShouldKill cfg sim)).length, ?_, rfl, rfl, ?_⟩
  · have h := List.length_eq_length_filter_add (l := sim.cells) (ShouldKill cfg sim)
    simp only [KillerPass]
    omega
  · intro h
    simp [ShouldKill, h]

theorem sample_counts (cfg : Configuration) (sim : Simulation) :
    (Sample cfg sim).cells = sim.cells ∧ (Sample cfg sim).numBirths = sim.numBirths
      ∧ (Sample cfg sim).numDeaths = sim.numDeaths := by
  unfold Sample
  split_ifs <;> exact ⟨rfl, rfl, rfl⟩

/-- One step changes the counts by the births of its division pass and the deaths of its
killer pass: there are no births when no cell-cycle model ever signals readiness, and no
deaths when there is no killer. -/
theorem step_counts (cfg : Configuration) (sim next : Simulation)
    (h : Step cfg sim = .ok next) :
    ∃ births deaths : Nat,
      next.cells.length + deaths = sim.cells.length + births
        ∧ next.numBirths = sim.numBirths + births
        ∧ next.numDeaths = sim.numDeaths + deaths
        ∧ ((∀ t c, cfg.readyToDivide t c = false) → births = 0)
        ∧ (cfg.killers = [] → deaths = 0) := by
  unfold Step at h
  split at h
  · simp at h
  · rename_i swept hs
    split at h
    · simp at h
    · rename_i modified hm
      simp only [Except.ok.injEq] at h
      have hlen := runModifiers_length _ _ _ _ _ _ hm
      obtain ⟨births, hb1, hb2, hb3, hb4⟩ := divisionPass_counts cfg
        { sim with
          population := swept.1, generator := swept.2,
          solutions := modified.1, cells := modified.2 }
      obtain ⟨deaths, hd1, hd2, hd3, hd4⟩ := killerPass_counts cfg (DivisionPass cfg
        { sim with
          population := swept.1, generator := swept.2,
          solutions := modified.1, cells := modified.2 })
      obtain ⟨hs1, hs2, hs3⟩ := sample_counts cfg (KillerPass cfg (DivisionPass cfg
        { sim with
          population := swept.1, generator := swept.2,
          solutions := modified.1, cells := modified.2 }))
      dsimp only at hb1 hb2 hb3
      refine ⟨births, deaths, ?_, ?_, ?_, hb4, hd4⟩
      · rw [← h]
        dsimp only
        rw [hs1]
        omega
      · rw [← h]
        dsimp only
        rw [hs2]
        omega
      · rw [← h]
        dsimp only
        rw [hs3]
        omega
theorem runSteps_counts (cfg : Configuration) (n : Nat) :
    ∀ sim final : Simulation, RunSteps cfg n sim = .ok final →
      ∃ births deaths : Nat,
        final.cells.length + deaths = sim.cells.length + births
          ∧ final.numBirths = sim.numBirths + births
          ∧ final.numDeaths = sim.numDeaths + deaths
          ∧ ((∀ t c, cfg.readyToDivide t c = false) → births = 0)
          ∧ (cfg.killers = [] → deaths = 0) := by
  induction n with
  | zero =>
      intro sim final h
      simp only [RunSteps, Except.ok.injEq] at h
      subst h
      exact ⟨0, 0, rfl, rfl, rfl, fun _ => rfl, fun _ => rfl⟩
  | succ n ih =>
      intro sim final h
      unfold RunSteps at h
      split at h
      · simp at h
      · rename_i next hstep
        obtain ⟨b1, d1, h1, h2, h3, h4, h5⟩ := step_counts cfg sim next hstep
        obtain ⟨b2, d2, k1, k2, k3, k4, k5⟩ := ih next final h
        refine ⟨b1 + b2, d1 + d2, by omega, by omega, by omega, ?_, ?_⟩
        · intro hn
          rw [h4 hn, k4 hn]
        · intro hk
          rw [h5 hk, k5 hk]

theorem setUp_counts (cfg : Configuration) (sim ready : Simulation)
    (h : SetUp cfg sim = .ok ready) :
    ready.cells.length = sim.cells.length ∧ ready.numBirths = sim.numBirths
      ∧ ready.numDeaths = sim.numDeaths := by
  unfold SetUp at h
  split at h
  · simp at h
  · rename_i modified hm
    simp only [Except.ok.injEq] at h
    subst h
    exact ⟨runModifiers_length _ _ _ _ _ _ hm, rfl, rfl⟩

/-- A completed `Solve` changes the counts by its births and deaths. -/
theorem solve_counts (cfg : Configuration) (sim final : Simulation)
    (h : Solve cfg sim = .ok final) :
    ∃ births deaths : Nat,
      final.cells.length + deaths = sim.cells.length + births
        ∧ final.numBirths = sim.numBirths + births
        ∧ final.numDeaths = sim.numDeaths + deaths
        ∧ ((∀ t c, cfg.readyToDivide t c = false) → births = 0)
        ∧ (cfg.killers = [] → deaths = 0) := by
  unfold Solve at h
  split at h
  · simp at h
  · rename_i ready hready
    split at h
    · simp at h
    · rename_i done hrun
      simp only [Except.ok.injEq] at h
      subst h
      obtain ⟨b, d, h1, h2, h3, h4, h5⟩ := runSteps_counts cfg _ _ _ hrun
      dsimp only at h1 h2 h3
      have hr : ready.cells.length = sim.cells.length ∧ ready.numBirths = sim.numBirths
          ∧ ready.numDeaths = sim.numDeaths := by
        split_ifs at hready with hp
        · exact setUp_counts cfg sim ready hready
        · simp only [Except.ok.injEq] at hready
          subst hready
          exact ⟨rfl, rfl, rfl⟩
      obtain ⟨r1, r2, r3⟩ := hr
      exact ⟨b, d, by dsimp only; omega, by dsimp only; omega, by dsimp only; omega, h4, h5⟩

theorem solveEach_counts (cfgs : List Configuration) :
    ∀ sim final : Simulation, SolveEach cfgs sim = .ok final →
      ∃ births deaths : Nat,
        final.cells.length + deaths = sim.cells.length + births
          ∧ final.numBirths = sim.numBirths + births
          ∧ final.numDeaths = sim.numDeaths + deaths
          ∧ ((∀ cfg ∈ cfgs, ∀ t c, cfg.readyToDivide t c = false) → births = 0)
          ∧ ((∀ cfg ∈ cfgs, cfg.killers = []) → deaths = 0) := by
  induction cfgs with
  | nil =>
      intro sim final h
      simp only [SolveEach, Except.ok.injEq] at h
      subst h
      exact ⟨0, 0, rfl, rfl, rfl, fun _ => rfl, fun _ => rfl⟩
  | cons cfg rest ih =>
      intro sim final h
      unfold SolveEach at h
      split at h
      · simp at h
      · rename_i solved hsolve
        obtain ⟨b1, d1, h1, h2, h3, h4, h5⟩ := solve_counts cfg sim solved hsolve
        obtain ⟨b2, d2, k1, k2, k3, k4, k5⟩ := ih solved final h
        refine ⟨b1 + b2, d1 + d2, by omega, by omega, by omega, ?_, ?_⟩
        · intro hn
          rw [h4 (hn cfg (List.mem_cons_self _ _)),
            k4 (fun c hc => hn c (List.mem_cons_of_mem _ hc))]
        · intro hk
          rw [h5 (hk cfg (List.mem_cons_self _ _)),
            k5 (fun c hc => hk c (List.mem_cons_of_mem _ hc))]

/-- A simulation as constructed holds the cells of the population, and no birth or death
has been counted. -/
theorem onLatticeSimulation_new_ok (g : RandomNumberGenerator) (pop : CellPopulation)
    (seed : Nat) (sim : Simulation) (h : OnLatticeSimulation.new g pop seed = .ok sim) :
    sim.cells = pop.cells ∧ sim.population = pop.population ∧ sim.numBirths = 0
      ∧ sim.numDeaths = 0 ∧ sim.clockIndex = 0
      ∧ sim.generator = RandomNumberGenerator.Reseed seed := by
  unfold OnLatticeSimulation.new at h
  split_ifs at h
  simp only [Except.ok.injEq] at h
  subst h
  exact ⟨rfl, rfl, rfl, rfl, rfl, rfl⟩

/-- C12: after every completed `Solve` of an on-lattice simulation (one or several in a
row, each under its own configuration), the number of live cells equals the initial
number of cells plus `GetNumBirths()` minus `GetNumDeaths()`; with cells that never
signal readiness to divide there are no births, so the final count is the initial count
minus the deaths; and if moreover there is no killer, births and deaths are 0 and the
count is unchanged. -/
theorem C12_live_cells_balance (g : RandomNumberGenerator) (pop : CellPopulation)
    (seed : Nat) (cfgs : List Configuration) (sim final : Simulation)
    (hnew : OnLatticeSimulation.new g pop seed = .ok sim)
    (hsolve : SolveEach cfgs sim = .ok final) :
    ((final.GetNumRealCells : ℤ)
        = (pop.cells.length : ℤ) + final.GetNumBirths - final.GetNumDeaths)
      ∧ ((∀ cfg ∈ cfgs, ∀ t c, cfg.readyToDivide t c = false) →
          final.GetNumBirths = 0
            ∧ final.GetNumRealCells + final.GetNumDeaths = pop.cells.length)
      ∧ ((∀ cfg ∈ cfgs, ∀ t c, cfg.readyToDivide t c = false) →
          (∀ cfg ∈ cfgs, cfg.killers = []) →
            final.GetNumBirths = 0 ∧ final.GetNumDeaths = 0
              ∧ final.GetNumRealCells = pop.cells.length) := by
  obtain ⟨hc, -, hb, hd, -, -⟩ := onLatticeSimulation_new_ok g pop seed sim hnew
  obtain ⟨b, d, h1, h2, h3, h4, h5⟩ := solveEach_counts cfgs sim final hsolve
  rw [hc] at h1
  rw [hb] at h2
  rw [hd] at h3
  simp only [Simulation.GetNumRealCells, Simulation.GetNumBirths, Simulation.GetNumDeaths]
  refine ⟨by omega, ?_, ?_⟩
  · intro hn
    have := h4 hn
    omega
  · intro hn hk
    have := h4 hn
    have := h5 hk
    omega

/-- C12 at `rowCellPopulation`: the simulation constructed with seed 3 and solved under
`rowConfiguration` ends with one live cell, no birth and one death. -/
theorem C12_live_cells_balance_witness :
    ((rowSimulationSolved.GetNumRealCells : ℤ)
        = (rowCellPopulation.cells.length : ℤ) + rowSimulationSolved.GetNumBirths
          - rowSimulationSolved.GetNumDeaths)
      ∧ ((∀ cfg ∈ [rowConfiguration], ∀ t c, cfg.readyToDivide t c = false) →
          rowSimulationSolved.GetNumBirths = 0
            ∧ rowSimulationSolved.GetNumRealCells + rowSimulationSolved.GetNumDeaths
              = rowCellPopulation.cells.length)
      ∧ ((∀ cfg ∈ [rowConfiguration], ∀ t c, cfg.readyToDivide t c = false) →
          (∀ cfg ∈ [rowConfiguration], cfg.killers = []) →
            rowSimulationSolved.GetNumBirths = 0 ∧ rowSimulationSolved.GetNumDeaths = 0
              ∧ rowSimulationSolved.GetNumRealCells = rowCellPopulation.cells.length) :=
  C12_live_cells_balance ⟨99⟩ rowCellPopulation 3 [rowConfiguration] rowSimulation
    rowSimulationSolved (by decide!) (by decide!)

/-! ## The lattice-based simulation engine: Metropolis acceptance -/

theorem list_set_getD_self {α : Type} (d : α) :
    ∀ (l : List α) (i : Nat), l.set i (l.getD i d) = l := by
  intro l
  induction l with
  | nil => intro i; simp
  | cons a rest ih =>
      intro i
      cases i with
      | zero => simp
      | succ i => simpa using ih i

/-- Reassigning a site to the element that owns it leaves the population as it is. -/
theorem PopulationModel.reassign_self (population : PopulationModel) (site : Nat) :
    population.reassign site (population.GetElementOfSite site) = population := by
  unfold PopulationModel.reassign PopulationModel.GetElementOfSite
  rw [list_set_getD_self]

/-- A label proposed from the neighbor-element labels of a site passes the adjacency check
of `MoveSiteToElement`. -/
theorem PopulationModel.moveSiteToElement_of_label (population : PopulationModel) (site : Nat)
    (proposed : Option Nat) (h : proposed ∈ NeighborLabels population site) :
    population.MoveSiteToElement site proposed = .ok (population.reassign site proposed) := by
  obtain ⟨n, hn, hp⟩ := List.mem_map.1 h
  have hany : (population.GetNeighborSites site).any
      (fun n => population.GetElementOfSite n = proposed) = true := by
    rw [List.any_eq_true]
    exact ⟨n, hn, by simpa using hp⟩
  simp [PopulationModel.MoveSiteToElement, hany]

/-- C16: Metropolis acceptance.  For every lattice state and every proposed reassignment of
a site, a proposal whose total energy change is at most 0 is accepted without a draw from
the generator, and the move is made when the proposed owner is one of the neighbor-element
labels of the site; a no-op proposal (the proposed owner is the current owner) has total
energy change exactly 0 under every set of update rules and leaves the population, hence
the site ownership, unchanged. -/
theorem C16_metropolis_acceptance (cfg : Configuration) (population : PopulationModel)
    (generator : RandomNumberGenerator) (site : Nat) (proposed : Option Nat) :
    (TotalEnergyChange cfg.updateRules population site proposed ≤ 0 →
      Accept cfg (TotalEnergyChange cfg.updateRules population site proposed) generator
          = (true, generator)
        ∧ (proposed ∈ NeighborLabels population site →
          Propose cfg population generator site proposed
            = .ok (population.reassign site proposed, generator)))
    ∧ (proposed = population.GetElementOfSite site →
      TotalEnergyChange cfg.updateRules population site proposed = 0
        ∧ population.reassign site proposed = population
        ∧ (∀ outcome, Propose cfg population generator site proposed = .ok outcome →
            outcome.1 = population)
        ∧ (proposed ∈ NeighborLabels population site →
          Propose cfg population generator site proposed = .ok (population, generator))) := by
  have hacc : ∀ deltaH : ℚ, deltaH ≤ 0 → Accept cfg deltaH generator = (true, generator) := by
    intro deltaH h
    simp [Accept, h]
  constructor
  · intro h
    refine ⟨hacc _ h, ?_⟩
    intro hl
    simp [Propose, hacc _ h, PopulationModel.moveSiteToElement_of_label population site
      proposed hl]
  · intro hp
    subst hp
    have hzero : TotalEnergyChange cfg.updateRules population site
        (population.GetElementOfSite site) = 0 := by
      simp [TotalEnergyChange, PopulationModel.reassign_self]
    refine ⟨hzero, PopulationModel.reassign_self population site, ?_, ?_⟩
    · intro outcome h
      simp only [Propose, hzero, hacc 0 (le_refl 0), if_true,
        PopulationModel.MoveSiteToElement, PopulationModel.reassign_self] at h
      split at h
      · simp at h
      · rename_i moved hm
        split_ifs at hm
        simp only [Except.ok.injEq] at hm h
        rw [← h, ← hm]
    · intro hl
      simp [Propose, hzero, hacc 0 (le_refl 0),
        PopulationModel.moveSiteToElement_of_label population site _ hl,
        PopulationModel.reassign_self]

/-- C16 at site 1 of `rowPopulation` under `rowConfiguration`, for the no-op proposal of its
owner, element 0, which is also the label of its neighbor site 0. -/
theorem C16_metropolis_acceptance_witness :
    (Accept rowConfiguration
        (TotalEnergyChange rowConfiguration.updateRules rowPopulation 1 (some 0)) ⟨3⟩
          = (true, ⟨3⟩)
        ∧ (some 0 ∈ NeighborLabels rowPopulation 1 →
          Propose rowConfiguration rowPopulation ⟨3⟩ 1 (some 0)
            = .ok (rowPopulation.reassign 1 (some 0), ⟨3⟩)))
      ∧ (TotalEnergyChange rowConfiguration.updateRules rowPopulation 1 (some 0) = 0
        ∧ rowPopulation.reassign 1 (some 0) = rowPopulation
        ∧ (∀ outcome, Propose rowConfiguration rowPopulation ⟨3⟩ 1 (some 0) = .ok outcome →
            outcome.1 = rowPopulation)
        ∧ (some 0 ∈ NeighborLabels rowPopulation 1 →
          Propose rowConfiguration rowPopulation ⟨3⟩ 1 (some 0) = .ok (rowPopulation, ⟨3⟩))) :=
  ⟨(C16_metropolis_acceptance rowConfiguration rowPopulation ⟨3⟩ 1 (some 0)).1 (by decide!),
    (C16_metropolis_acceptance rowConfiguration rowPopulation ⟨3⟩ 1 (some 0)).2 (by decide!)⟩

/-! ## The growth law of a differentiated cell, and what the law reads -/

namespace TargetAreaNuclearMigrationGrowthModifier

/-- C21 fails on the code: `differentiatedG2Cell` reports the G1 duration `DBL_MAX` and the
transit-cell G1 duration 2.  The otherwise identical cell whose G1 duration is 2 is
`g2PhaseCell` (up to its identifier) and is given the target area `17/20`; the
differentiated cell is given `7/10 + 3/40 * DBL_MAX`, because the target area at the end
of G1 is computed from `GetG1Duration()` and not from the local `g1_duration`. -/
theorem C21_differentiated_cell_uses_raw_g1 :
    differentiatedG2Cell.cellCycleModel.g1Duration = DBL_MAX
      ∧ { differentiatedG2Cell with
            cellCycleModel :=
              { differentiatedG2Cell.cellCycleModel with
                g1Duration := differentiatedG2Cell.cellCycleModel.transitCellG1Duration } }
          = { g2PhaseCell with cellId := 8 }
      ∧ UpdateTargetAreaOfCell new 9 { g2PhaseCell with cellId := 8 }
          = .ok { g2PhaseCell with
                  cellId := 8, cellData := [("slope", 1), ("target area", 17 / 20)] }
      ∧ UpdateTargetAreaOfCell new 9 differentiatedG2Cell
          = .ok { differentiatedG2Cell with
                  cellData := [("slope", 1), ("target area", 7 / 10 + 3 / 40 * DBL_MAX)] }
      ∧ 7 / 10 + 3 / 40 * DBL_MAX ≠ (17 / 20 : ℚ) := by
  have hmax : (2 : ℚ) < DBL_MAX := by
    unfold DBL_MAX
    have h1 : (1 : ℚ) ≤ 2 ^ 971 := one_le_pow₀ (by norm_num)
    have h2 : (2 : ℚ) < 2 ^ 53 - 1 := by norm_num
    nlinarith
  refine ⟨rfl, rfl, ?_, ?_, ?_⟩
  · simp [UpdateTargetAreaOfCell, g2PhaseCell, dividingCell, CellData.GetItem,
      CellData.SetItem, cell_target_area, g1_duration, new, DBL_MAX]
    norm_num
  · have hlt : ¬ ((9 : ℚ) < 2 * 1.1) := by norm_num
    have hgt : (9 : ℚ) > 2 + 5 := by norm_num
    have hv : cell_target_area new 9 differentiatedG2Cell 1 = 7 / 10 + 3 / 40 * DBL_MAX := by
      simp only [differentiatedG2Cell, g2PhaseCell, dividingCell, cell_target_area,
        g1_duration, new, if_true, Bool.false_eq_true, if_false, hlt, hgt]
      norm_num
      ring
    rw [updateTargetAreaOfCell_ok]
    refine ⟨1, by simp [differentiatedG2Cell, g2PhaseCell, dividingCell, CellData.GetItem],
      ?_⟩
    rw [hv]
    simp [differentiatedG2Cell, g2PhaseCell, dividingCell, CellData.SetItem]
  · intro h
    linarith

/-- The computed target area does not read the intermediate cell target area. -/
theorem cell_target_area_congr (m1 m2 : TargetAreaNuclearMigrationGrowthModifier)
    (h : m1.mMatureCellTargetArea = m2.mMatureCellTargetArea) (time : ℚ) (pCell : Cell)
    (cell_slope : ℚ) :
    cell_target_area m1 time pCell cell_slope = cell_target_area m2 time pCell cell_slope := by
  simp only [cell_target_area, h]

/-- C30: the intermediate cell target area has no influence on growth: for every cell
and every two values passed to `SetIntermediateCellTargetArea`, all else equal,
`UpdateTargetAreaOfCell` has the same outcome and stores the same target area;
`SetIntermediateCellTargetArea` changes what `GetIntermediateCellTargetArea` returns
(0.55 after construction) and leaves the mature target area (1.0 after construction)
unchanged. -/
theorem C30_intermediate_area_has_no_influence
    (self m1 m2 : TargetAreaNuclearMigrationGrowthModifier) (v1 v2 : ℚ)
    (h1 : SetIntermediateCellTargetArea self v1 = some m1)
    (h2 : SetIntermediateCellTargetArea self v2 = some m2) :
    (∀ (time : ℚ) (pCell : Cell),
        UpdateTargetAreaOfCell m1 time pCell = UpdateTargetAreaOfCell m2 time pCell)
      ∧ GetIntermediateCellTargetArea m1 = v1
      ∧ GetMatureCellTargetArea m1 = GetMatureCellTargetArea self
      ∧ m1 = { self with mIntermediateCellTargetArea := v1 }
      ∧ GetIntermediateCellTargetArea new = 0.55
      ∧ GetMatureCellTargetArea new = 1.0 := by
  unfold SetIntermediateCellTargetArea at h1 h2
  split_ifs at h1 h2
  simp only [Option.some.injEq] at h1 h2
  subst h1
  subst h2
  refine ⟨?_, rfl, rfl, rfl, ?_, ?_⟩
  · intro time pCell
    unfold UpdateTargetAreaOfCell
    cases pCell.cellData.GetItem "slope" with
    | error e => rfl
    | ok k =>
        have hc := cell_target_area_congr
          { self with mIntermediateCellTargetArea := v1 }
          { self with mIntermediateCellTargetArea := v2 } rfl time pCell k
        simp only [hc]
  · norm_num [GetIntermediateCellTargetArea, new]
  · norm_num [GetMatureCellTargetArea, new]

/-- C30 at the freshly constructed modifier, with the values 0.2 and 0.9, on
`dividingCell` at time 12. -/
theorem C30_intermediate_area_has_no_influence_witness :
    UpdateTargetAreaOfCell { new with mIntermediateCellTargetArea := 0.2 } 12 dividingCell
        = UpdateTargetAreaOfCell { new with mIntermediateCellTargetArea := 0.9 } 12
            dividingCell
      ∧ GetIntermediateCellTargetArea { new with mIntermediateCellTargetArea := 0.2 } = 0.2
      ∧ GetMatureCellTargetArea { new with mIntermediateCellTargetArea := 0.2 }
          = GetMatureCellTargetArea new :=
  have h := C30_intermediate_area_has_no_influence new
    { new with mIntermediateCellTargetArea := 0.2 }
    { new with mIntermediateCellTargetArea := 0.9 } 0.2 0.9
    (by simp [SetIntermediateCellTargetArea]; norm_num)
    (by simp [SetIntermediateCellTargetArea]; norm_num)
  ⟨h.1 12 dividingCell, h.2.1, h.2.2.1⟩

end TargetAreaNuclearMigrationGrowthModifier

/-! ## The population update on the error path -/

namespace TargetAreaNuclearMigrationGrowthModifier

/-- C27: `UpdateTargetAreas` applies the population's `Update()` once, before the check of
the population type: for a population that is not vertex based the call ends with the
configuration error and leaves the population in the state that one `Update()` produces
from the state it was given, with the cells, and so their data stores, exactly as
`Update()` left them. -/
theorem C27_update_before_type_check (self : TargetAreaNuclearMigrationGrowthModifier)
    (time : ℚ) (pop : AbstractCellPopulation) (hk : pop.kind ≠ .vertexBased) :
    UpdateTargetAreas self time pop
        = (.error (.message vertexOnlyMessage), { pop with state := pop.Update pop.state })
      ∧ (UpdateTargetAreas self time pop).2.state.locationCellMap
          = (pop.Update pop.state).locationCellMap
      ∧ (UpdateTargetAreas self time pop).2.state.elementIndices
          = (pop.Update pop.state).elementIndices := by
  have h : UpdateTargetAreas self time pop
      = (.error (.message vertexOnlyMessage), { pop with state := pop.Update pop.state }) := by
    simp [UpdateTargetAreas, hk]
  refine ⟨h, ?_, ?_⟩ <;> rw [h]

/-- C27 at `tracingPottsPopulation`, whose `Update()` appends an index each time it runs:
after the failed call the element indices are `[0, 1, 2]`, so `Update()` has run once
(not zero times, which would leave `[0, 1]`, and not twice), and the cells are those of
`twoCellState`. -/
theorem C27_update_before_type_check_witness :
    (UpdateTargetAreas new 12 tracingPottsPopulation).1 = .error (.message vertexOnlyMessage)
      ∧ (UpdateTargetAreas new 12 tracingPottsPopulation).2.state.elementIndices = [0, 1, 2]
      ∧ tracingPottsPopulation.state.elementIndices = [0, 1]
      ∧ (UpdateTargetAreas new 12 tracingPottsPopulation).2.state.locationCellMap
          = twoCellState.locationCellMap :=
  have h := C27_update_before_type_check new 12 tracingPottsPopulation
    (by simp [tracingPottsPopulation])
  ⟨by rw [h.1], by rw [h.2.2]; rfl, rfl, by rw [h.2.1]; rfl⟩

end TargetAreaNuclearMigrationGrowthModifier

/-! ## Further properties of the Alarcon (2004) ODE system -/

namespace Alarcon2004OxygenBasedCellCycleOdeSystem

/-- C24: `SetIsLabelled` changes only the labelled flag: every parameter, `a1`, `c1`,
`xThreshold` and `yThreshold` among them, keeps its value.  Hence after
`SetIsLabelled(true)` on a system constructed as normal, `EvaluateYDerivatives` uses the
labelled p27 equation (no mass term) with the normal-cell `c1 = 0.1` and `a1 = 0.05`,
`CalculateStoppingEvent` uses the normal-cell thresholds `(0.004, 0.2)`, and the system
differs from one constructed as labelled. -/
theorem C24_setIsLabelled_frame (self : Alarcon2004OxygenBasedCellCycleOdeSystem)
    (isLabelled : Bool) (oxygenConcentration time x y z m u P d0 d1 d2 d3 d4 d5 : ℚ) :
    SetIsLabelled self isLabelled = { self with mIsLabelled := isLabelled }
      ∧ (SetIsLabelled self isLabelled).ma1 = self.ma1
      ∧ (SetIsLabelled self isLabelled).mc1 = self.mc1
      ∧ (SetIsLabelled self isLabelled).mxThreshold = self.mxThreshold
      ∧ (SetIsLabelled self isLabelled).myThreshold = self.myThreshold
      ∧ (SetIsLabelled self isLabelled).mIsLabelled = isLabelled
      ∧ EvaluateYDerivatives (SetIsLabelled (new oxygenConcentration false) true) time
          [x, y, z, m, u, P] [d0, d1, d2, d3, d4, d5]
        = some [60 * ((1 + 10 * u) * (1 - x) / (0.04 + 1 - x) - 5.5 * m * x * y / (0.04 + x)),
                60 * (0.04 - (0.05 + x + 0.25 * z) * y),
                60 * (0.1 - 0.01 * P * z / (0.01 + P)),
                60 * 0.01 * m * (1 - m / 10),
                60 * (0.01 - (0.1 + 0.01 * y) * u),
                0]
      ∧ CalculateStoppingEvent (SetIsLabelled (new oxygenConcentration false) true) time
          [x, y, z, m, u, P]
        = some (decide (x < 0.004 ∧ y > 0.2))
      ∧ SetIsLabelled (new oxygenConcentration false) true ≠ new oxygenConcentration true := by
  refine ⟨rfl, rfl, rfl, rfl, rfl, rfl, ?_, ?_, ?_⟩
  · simp [EvaluateYDerivatives, writeAt, SetIsLabelled, new, Init, uninitialised]
    refine ⟨?_, ?_, ?_, ?_, ?_, ?_⟩ <;> first | ring1 | norm_num
  · simp [CalculateStoppingEvent, SetIsLabelled, new, Init, uninitialised, Bool.decide_and]
  · intro h
    have hc : (SetIsLabelled (new oxygenConcentration false) true).mc1
        = (new oxygenConcentration true).mc1 := by rw [h]
    simp [SetIsLabelled, new, Init, uninitialised] at hc
    norm_num at hc

/-- The constructor leaves a system information whose default initial conditions are all
defined. -/
theorem newSystemInfo_initialConditions (c : ℚ) (isLabelled : Bool) :
    ∃ info, newSystemInfo c isLabelled = some info
      ∧ info.mInitialConditions
        = [some 0.9, some 0.01, some 0.0, some 5.0, some 1.0, some c] := by
  have hM : (new c isLabelled).mMstar = 10 := by
    cases isLabelled <;> norm_num [new, Init, uninitialised]
  simp only [newSystemInfo, CellwiseOdeSystemInformation.Initialise,
    CellwiseOdeSystemInformation.pushVariable, CellwiseOdeSystemInformation.empty,
    CellwiseOdeSystemInformation.SetDefaultInitialCondition, hM]
  simp
  norm_num

/-- C29: after construction with oxygen concentration `c`, for either cell type, the
default initial conditions are exactly `(0.9, 0.01, 0.0, 5.0, 1.0, c)`: the two
placeholder entries that `Initialise()` leaves for mass and O2 (indices 3 and 5, and
only those) are filled in with `0.5 * Mstar = 5.0` and `c`, so no default initial
condition is left undefined. -/
theorem C29_default_initial_conditions (c : ℚ) (isLabelled : Bool) :
    (CellwiseOdeSystemInformation.Initialise
          CellwiseOdeSystemInformation.empty).mInitialConditions
        = [some 0.9, some 0.01, some 0.0, none, some 1.0, none]
      ∧ 0.5 * (new c isLabelled).mMstar = 5.0
      ∧ ∃ info, newSystemInfo c isLabelled = some info
          ∧ info.mInitialConditions
            = [some 0.9, some 0.01, some 0.0, some 5.0, some 1.0, some c]
          ∧ CellwiseOdeSystemInformation.stateVector info.mInitialConditions
            = some [0.9, 0.01, 0.0, 5.0, 1.0, c] := by
  have hM : (new c isLabelled).mMstar = 10 := by
    cases isLabelled <;> norm_num [new, Init, uninitialised]
  obtain ⟨info, hinfo, hconds⟩ := newSystemInfo_initialConditions c isLabelled
  refine ⟨rfl, by rw [hM]; norm_num, info, hinfo, hconds, ?_⟩
  rw [hconds]
  simp [CellwiseOdeSystemInformation.stateVector]

/-- C28: a freshly constructed cell-cycle ODE system does not signal division at once:
for both cell types and every oxygen concentration, the default initial conditions are a
state vector with `x = 0.9` and `y = 0.01`, and `CalculateStoppingEvent` evaluated on it
returns false. -/
theorem C28_no_stopping_event_at_start (c time : ℚ) (isLabelled : Bool) :
    ∃ info rY, newSystemInfo c isLabelled = some info
      ∧ CellwiseOdeSystemInformation.stateVector info.mInitialConditions = some rY
      ∧ rY[0]? = some (0.9 : ℚ) ∧ rY[1]? = some (0.01 : ℚ)
      ∧ CalculateStoppingEvent (new c isLabelled) time rY = some false := by
  obtain ⟨info, hinfo, hconds⟩ := newSystemInfo_initialConditions c isLabelled
  refine ⟨info, [0.9, 0.01, 0.0, 5.0, 1.0, c], hinfo, ?_, by simp, by simp, ?_⟩
  · rw [hconds]
    simp [CellwiseOdeSystemInformation.stateVector]
  · cases isLabelled <;>
      simp [CalculateStoppingEvent, new, Init, uninitialised] <;> norm_num

end Alarcon2004OxygenBasedCellCycleOdeSystem

/-! ## Rounding to binary64 is monotone -/

namespace Double

theorem twoPow_eq (e : ℤ) : twoPow e = (2 : ℚ) ^ e := by
  unfold twoPow
  split_ifs with h
  · have h1 : (e.toNat : ℤ) = e := Int.toNat_of_nonneg h
    have h2 : (2 : ℚ) ^ e = (2 : ℚ) ^ (e.toNat : ℤ) := by rw [h1]
    rw [h2, zpow_natCast]
    push_cast
    rfl
  · have h1 : ((-e).toNat : ℤ) = -e := Int.toNat_of_nonneg (by omega)
    have h2 : (2 : ℚ) ^ e = ((2 : ℚ) ^ ((-e).toNat : ℤ))⁻¹ := by rw [h1, zpow_neg, inv_inv]
    rw [h2, zpow_natCast]
    push_cast
    rw [one_div]

theorem twoPow_pos (e : ℤ) : 0 < twoPow e := by
  rw [twoPow_eq]
  positivity

theorem twoPow_add (a b : ℤ) : twoPow (a + b) = twoPow a * twoPow b := by
  simp only [twoPow_eq]
  exact zpow_add₀ (by norm_num) a b

theorem twoPow_le {a b : ℤ} (h : a ≤ b) : twoPow a ≤ twoPow b := by
  simp only [twoPow_eq]
  exact zpow_le_zpow_right₀ (by norm_num) h

theorem twoPow_lt {a b : ℤ} (h : a < b) : twoPow a < twoPow b := by
  simp only [twoPow_eq]
  exact zpow_lt_zpow_right₀ (by norm_num) h

theorem twoPow_natCast (n : ℕ) : twoPow (n : ℤ) = (2 : ℚ) ^ n := by
  rw [twoPow_eq, zpow_natCast]

theorem log2Fuel_eq (fuel : ℕ) : ∀ n, n ≤ fuel → log2Fuel fuel n = Nat.log2 n := by
  induction fuel with
  | zero =>
      intro n h
      have : n = 0 := by omega
      subst this
      simp [log2Fuel]
  | succ fuel ih =>
      intro n h
      unfold log2Fuel
      rw [Nat.log2]
      split_ifs with h1 h2 h2
      · omega
      · rfl
      · rw [ih (n / 2) (by omega)]
      · omega

theorem floorLog2Nat_eq (n : ℕ) : floorLog2Nat n = Nat.log2 n :=
  log2Fuel_eq n n (le_refl n)

/-- The binary exponent of a positive rational brackets it. -/
theorem floorLog2_spec (q : ℚ) (hq : 0 < q) :
    twoPow (floorLog2 q) ≤ q ∧ q < twoPow (floorLog2 q + 1) := by
  have hnum : 0 < q.num := Rat.num_pos.2 hq
  have hn0 : q.num.natAbs ≠ 0 := by omega
  have hd0 : q.den ≠ 0 := q.den_nz
  have hqe : q = (q.num.natAbs : ℚ) / (q.den : ℚ) := by
    have h1 : ((q.num.natAbs : ℤ) : ℚ) = (q.num : ℚ) := by
      rw [Int.natAbs_of_nonneg hnum.le]
    have h2 : ((q.num.natAbs : ℕ) : ℚ) = ((q.num.natAbs : ℤ) : ℚ) :=
      (Int.cast_natCast _).symm
    rw [h2, h1]
    exact (Rat.num_div_den q).symm
  have hdpos : (0 : ℚ) < (q.den : ℚ) := by exact_mod_cast Nat.pos_of_ne_zero hd0
  -- bounds on numerator and denominator
  have hnl : ((2 : ℚ) ^ q.num.natAbs.log2) ≤ (q.num.natAbs : ℚ) := by
    exact_mod_cast Nat.log2_self_le hn0
  have hnu : (q.num.natAbs : ℚ) < (2 : ℚ) ^ (q.num.natAbs.log2 + 1) := by
    exact_mod_cast (Nat.lt_log2_self (n := q.num.natAbs))
  have hdl : ((2 : ℚ) ^ q.den.log2) ≤ (q.den : ℚ) := by
    exact_mod_cast Nat.log2_self_le hd0
  have hdu : (q.den : ℚ) < (2 : ℚ) ^ (q.den.log2 + 1) := by
    exact_mod_cast (Nat.lt_log2_self (n := q.den))
  have hlow : twoPow ((q.num.natAbs.log2 : ℤ) - (q.den.log2 : ℤ) - 1) ≤ q := by
    rw [twoPow_eq]
    have h2 : (2 : ℚ) ^ ((q.num.natAbs.log2 : ℤ) - (q.den.log2 : ℤ) - 1)
        = (2 : ℚ) ^ q.num.natAbs.log2 / (2 : ℚ) ^ (q.den.log2 + 1) := by
      rw [show (q.num.natAbs.log2 : ℤ) - (q.den.log2 : ℤ) - 1
        = (q.num.natAbs.log2 : ℤ) - ((q.den.log2 + 1 : ℕ) : ℤ) by push_cast; ring]
      rw [zpow_sub₀ (by norm_num), zpow_natCast, zpow_natCast]
    rw [h2]
    conv_rhs => rw [hqe]
    rw [div_le_div_iff₀ (by positivity) hdpos]
    exact mul_le_mul hnl hdu.le hdpos.le (by positivity)
  have hupp : q < twoPow ((q.num.natAbs.log2 : ℤ) - (q.den.log2 : ℤ) + 1) := by
    rw [twoPow_eq]
    have h2 : (2 : ℚ) ^ ((q.num.natAbs.log2 : ℤ) - (q.den.log2 : ℤ) + 1)
        = (2 : ℚ) ^ (q.num.natAbs.log2 + 1) / (2 : ℚ) ^ q.den.log2 := by
      rw [show (q.num.natAbs.log2 : ℤ) - (q.den.log2 : ℤ) + 1
        = ((q.num.natAbs.log2 + 1 : ℕ) : ℤ) - (q.den.log2 : ℤ) by push_cast; ring]
      rw [zpow_sub₀ (by norm_num), zpow_natCast, zpow_natCast]
    rw [h2]
    conv_lhs => rw [hqe]
    rw [div_lt_div_iff₀ hdpos (by positivity)]
    calc (q.num.natAbs : ℚ) * (2 : ℚ) ^ q.den.log2
        ≤ (q.num.natAbs : ℚ) * (q.den : ℚ) :=
          mul_le_mul_of_nonneg_left hdl (by positivity)
      _ < (2 : ℚ) ^ (q.num.natAbs.log2 + 1) * (q.den : ℚ) :=
          mul_lt_mul_of_pos_right hnu hdpos
  unfold floorLog2
  simp only [floorLog2Nat_eq]
  split_ifs with h
  · refine ⟨hlow, ?_⟩
    rw [sub_add_cancel]
    exact h
  · exact ⟨not_lt.1 h, hupp⟩

/-- The binary exponent is monotone. -/
theorem floorLog2_mono (q1 q2 : ℚ) (h1 : 0 < q1) (h : q1 ≤ q2) :
    floorLog2 q1 ≤ floorLog2 q2 := by
  by_contra hlt
  have hlt2 : floorLog2 q2 + 1 ≤ floorLog2 q1 := by omega
  have s1 := floorLog2_spec q1 h1
  have s2 := floorLog2_spec q2 (lt_of_lt_of_le h1 h)
  have : q2 < q1 := lt_of_lt_of_le s2.2 (le_trans (twoPow_le hlt2) s1.1)
  exact absurd h (not_le.2 this)

theorem roundToEven_bounds (m : ℚ) : ⌊m⌋ ≤ roundToEven m ∧ roundToEven m ≤ ⌊m⌋ + 1 := by
  unfold roundToEven
  simp only
  split_ifs <;> constructor <;> omega

theorem roundToEven_intCast (n : ℤ) : roundToEven (n : ℚ) = n := by
  unfold roundToEven
  simp

/-- Rounding to the nearest integer, ties to even, is monotone. -/
theorem roundToEven_mono (m1 m2 : ℚ) (h : m1 ≤ m2) : roundToEven m1 ≤ roundToEven m2 := by
  have hf : ⌊m1⌋ ≤ ⌊m2⌋ := Int.floor_mono h
  rcases lt_or_eq_of_le hf with hlt | heq
  · exact le_trans (roundToEven_bounds m1).2 (le_trans (by omega) (roundToEven_bounds m2).1)
  · unfold roundToEven
    simp only
    rw [← heq]
    have hfr : m1 - ⌊m1⌋ ≤ m2 - ⌊m1⌋ := by linarith
    split_ifs <;> first | omega | (exfalso; linarith)

theorem roundToEven_le_of_le (m : ℚ) (n : ℤ) (h : m ≤ n) : roundToEven m ≤ n := by
  have := roundToEven_mono m n h
  rwa [roundToEven_intCast] at this

theorem le_roundToEven_of_le (m : ℚ) (n : ℤ) (h : (n : ℚ) ≤ m) : n ≤ roundToEven m := by
  have := roundToEven_mono n m h
  rwa [roundToEven_intCast] at this

theorem roundMagnitude_nonneg (q : ℚ) (hq : 0 < q) : 0 ≤ roundMagnitude q := by
  unfold roundMagnitude
  simp only
  have hm : (0 : ℚ) ≤ q / twoPow (max (floorLog2 q) (-1022) - 52) :=
    div_nonneg hq.le (twoPow_pos _).le
  have h0 : (0 : ℤ) ≤ roundToEven (q / twoPow (max (floorLog2 q) (-1022) - 52)) :=
    le_roundToEven_of_le _ 0 (by simpa using hm)
  exact mul_nonneg (by exact_mod_cast h0) (twoPow_pos _).le

/-- The rounded magnitude stays within the binade of the exponent used. -/
theorem roundMagnitude_le (q : ℚ) (hq : 0 < q) :
    roundMagnitude q ≤ twoPow (max (floorLog2 q) (-1022) + 1) := by
  unfold roundMagnitude
  simp only
  set E := max (floorLog2 q) (-1022) with hE
  have hlt : q < twoPow (E + 1) :=
    lt_of_lt_of_le (floorLog2_spec q hq).2 (twoPow_le (by omega))
  have hsplit : twoPow (E + 1) = (2 : ℚ) ^ 53 * twoPow (E - 52) := by
    rw [show E + 1 = (53 : ℤ) + (E - 52) by ring, twoPow_add]
    congr 1
  have hm : q / twoPow (E - 52) ≤ (2 : ℚ) ^ 53 := by
    rw [div_le_iff₀ (twoPow_pos _), ← hsplit]
    exact hlt.le
  have hn : roundToEven (q / twoPow (E - 52)) ≤ 2 ^ 53 :=
    roundToEven_le_of_le _ (2 ^ 53) (by push_cast; exact hm)
  have hc : ((roundToEven (q / twoPow (E - 52)) : ℤ) : ℚ) ≤ (2 : ℚ) ^ 53 := by
    exact_mod_cast hn
  rw [hsplit]
  exact mul_le_mul_of_nonneg_right hc (twoPow_pos _).le

/-- A number in the normal range is not rounded below its binade. -/
theorem le_roundMagnitude (q : ℚ) (hq : 0 < q) (hn : -1022 ≤ floorLog2 q) :
    twoPow (floorLog2 q) ≤ roundMagnitude q := by
  unfold roundMagnitude
  simp only
  rw [max_eq_left hn]
  have hsplit : twoPow (floorLog2 q) = (2 : ℚ) ^ 52 * twoPow (floorLog2 q - 52) := by
    rw [show floorLog2 q = (52 : ℤ) + (floorLog2 q - 52) by ring, twoPow_add]
    congr 1
    ring_nf
  have hm : (2 : ℚ) ^ 52 ≤ q / twoPow (floorLog2 q - 52) := by
    rw [le_div_iff₀ (twoPow_pos _), ← hsplit]
    exact (floorLog2_spec q hq).1
  have hn2 : 2 ^ 52 ≤ roundToEven (q / twoPow (floorLog2 q - 52)) :=
    le_roundToEven_of_le _ (2 ^ 52) (by push_cast; exact hm)
  have hc : (2 : ℚ) ^ 52 ≤ ((roundToEven (q / twoPow (floorLog2 q - 52)) : ℤ) : ℚ) := by
    exact_mod_cast hn2
  conv_lhs => rw [hsplit]
  exact mul_le_mul_of_nonneg_right hc (twoPow_pos _).le

/-- The rounded magnitude is monotone. -/
theorem roundMagnitude_mono (q1 q2 : ℚ) (h1 : 0 < q1) (h : q1 ≤ q2) :
    roundMagnitude q1 ≤ roundMagnitude q2 := by
  have h2 : 0 < q2 := lt_of_lt_of_le h1 h
  have hfl := floorLog2_mono q1 q2 h1 h
  rcases lt_or_eq_of_le (max_le_max_right (-1022) hfl) with hlt | heq
  · -- the exponents differ: the larger number is normal
    have hn : -1022 ≤ floorLog2 q2 := by
      by_contra hc
      have : max (floorLog2 q2) (-1022) = -1022 := max_eq_right (by omega)
      have : -1022 ≤ max (floorLog2 q1) (-1022) := le_max_right _ _
      omega
    have hE2 : max (floorLog2 q2) (-1022) = floorLog2 q2 := max_eq_left hn
    calc roundMagnitude q1 ≤ twoPow (max (floorLog2 q1) (-1022) + 1) :=
          roundMagnitude_le q1 h1
      _ ≤ twoPow (floorLog2 q2) := twoPow_le (by omega)
      _ ≤ roundMagnitude q2 := le_roundMagnitude q2 h2 hn
  · unfold roundMagnitude
    simp only
    rw [heq]
    have hm : q1 / twoPow (max (floorLog2 q2) (-1022) - 52)
        ≤ q2 / twoPow (max (floorLog2 q2) (-1022) - 52) :=
      div_le_div_of_nonneg_right h (twoPow_pos _).le
    have := roundToEven_mono _ _ hm
    exact mul_le_mul_of_nonneg_right (by exact_mod_cast this) (twoPow_pos _).le

theorem lt_irrefl_finite (a : ℚ) : lt (finite a) (finite a) = false := by
  simp [lt]

/-- Rounding to binary64 is monotone. -/
theorem ofRat_mono (q1 q2 : ℚ) (h : q1 ≤ q2) : le (ofRat q1) (ofRat q2) = true := by
  rcases lt_trichotomy q1 0 with n1 | z1 | p1
  · -- q1 < 0
    have hq1 : ¬ q1 = 0 := ne_of_lt n1
    have hp1 : ¬ 0 < q1 := not_lt.2 n1.le
    have hm1 := roundMagnitude_nonneg (-q1) (by linarith)
    rcases lt_trichotomy q2 0 with n2 | z2 | p2
    · have hq2 : ¬ q2 = 0 := ne_of_lt n2
      have hp2 : ¬ 0 < q2 := not_lt.2 n2.le
      have hmono := roundMagnitude_mono (-q2) (-q1) (by linarith) (by linarith)
      have hm2 := roundMagnitude_nonneg (-q2) (by linarith)
      simp only [ofRat, hq1, hp1, hq2, hp2, if_false]
      split_ifs <;> simp [le, lt, eq] <;>
        first
        | linarith
        | exact lt_or_eq_of_le (by linarith)
        | exact (lt_or_eq_of_le (by linarith)).imp id Eq.symm
    · subst z2
      simp only [ofRat, hq1, hp1, if_false, if_true]
      split_ifs <;> simp [le, lt, eq]
      first
        | linarith
        | exact lt_or_eq_of_le (by linarith)
        | exact (lt_or_eq_of_le (by linarith)).imp id Eq.symm
    · have hq2 : ¬ q2 = 0 := ne_of_gt p2
      have hm2 := roundMagnitude_nonneg q2 p2
      simp only [ofRat, hq1, hp1, hq2, p2, if_false, if_true]
      split_ifs <;> simp [le, lt, eq] <;>
        first
        | linarith
        | exact lt_or_eq_of_le (by linarith)
        | exact (lt_or_eq_of_le (by linarith)).imp id Eq.symm
  · subst z1
    rcases lt_or_eq_of_le h with p2 | z2
    · have hq2 : ¬ q2 = 0 := ne_of_gt p2
      have hm2 := roundMagnitude_nonneg q2 p2
      simp only [ofRat, hq2, p2, if_false, if_true]
      split_ifs <;> simp [le, lt, eq]
      first
        | linarith
        | exact lt_or_eq_of_le (by linarith)
    · subst z2
      simp [ofRat, le, lt, eq]
  · have p2 : 0 < q2 := lt_of_lt_of_le p1 h
    have hq1 : ¬ q1 = 0 := ne_of_gt p1
    have hq2 : ¬ q2 = 0 := ne_of_gt p2
    have hmono := roundMagnitude_mono q1 q2 p1 h
    simp only [ofRat, hq1, hq2, p1, p2, if_false, if_true]
    split_ifs <;> simp [le, lt, eq] <;>
      first
      | linarith
      | exact lt_or_eq_of_le (by linarith)

end Double

/-! ## Binary64 arithmetic: literals and comparisons -/

namespace Double

theorem zero_lit : (0 : Double) = finite 0 := by decide

theorem one_lit : (1 : Double) = finite 1 := by decide!

theorem half_lit : (0.5 : Double) = finite (1 / 2) := by decide!

theorem ofRat_ne_nan (q : ℚ) : ofRat q ≠ nan := by
  unfold ofRat
  split_ifs <;> simp

/-- A value that is not below zero is not-a-number or at least zero. -/
theorem nan_or_nonneg_of_not_lt_zero (x : Double) (h : lt x (finite 0) = false) :
    x = nan ∨ le (finite 0) x = true := by
  cases x <;> simp [lt, le, eq] at h ⊢
  rename_i value
  rcases lt_or_eq_of_le h with hh | hh
  · exact Or.inl hh
  · exact Or.inr hh

theorem ofRat_zero : ofRat 0 = finite 0 := by decide

theorem ofRat_one : ofRat 1 = finite 1 := by decide!

/-- The product of two finite numbers other than zero is the rounded exact product. -/
theorem finite_mul_finite (a b : ℚ) (ha : a ≠ 0) (hb : b ≠ 0) :
    finite a * finite b = ofRat (a * b) := by
  show mul (finite a) (finite b) = ofRat (a * b)
  simp [mul, ha, hb]

/-- The difference of two finite numbers, the second other than zero, is the rounded
exact difference. -/
theorem finite_sub_finite (a b : ℚ) (hb : b ≠ 0) :
    finite a - finite b = ofRat (a - b) := by
  show add (finite a) (neg (finite b)) = ofRat (a - b)
  simp [add, neg, hb, sub_eq_add_neg]

/-- The sum of two finite numbers is the rounded exact sum. -/
theorem finite_add_finite (a b : ℚ) : finite a + finite b = ofRat (a + b) := rfl

theorem two_lit : (2 : Double) = finite 2 := by decide!

theorem eight_lit : (8.0 : Double) = 8 := by decide!

/-- Multiplication is commutative. -/
theorem mul_comm (x y : Double) : x * y = y * x := by
  show mul x y = mul y x
  cases x <;> cases y <;>
    simp [mul, isInf, isZero, signBit, zero, inf, Bool.xor_comm]
  rename_i a b
  rw [Rat.mul_comm a b]
  by_cases h : a = 0 ∨ b = 0
  · rw [if_pos h, if_pos (Or.symm h)]
  · rw [if_neg h, if_neg (fun hh => h (Or.symm hh))]

/-- Halving is the same operation as dividing by two. -/
theorem div_two (x : Double) : x / 2 = 0.5 * x := by
  rw [two_lit, half_lit]
  show div x (finite 2) = mul (finite (1 / 2)) x
  cases x <;> simp [div, mul, isInf, isZero, signBit, zero, inf]
  rename_i a
  by_cases h : a = 0
  · simp [h]
  · simp only [h, if_false]
    congr 1
    ring

end Double

/-! ## Binary64 arithmetic: order and monotonicity of the operations -/

namespace Double

theorem add_def (x y : Double) : x + y = add x y := rfl

theorem sub_def (x y : Double) : x - y = add x (neg y) := rfl

theorem mul_def (x y : Double) : x * y = mul x y := rfl

theorem div_def (x y : Double) : x / y = div x y := rfl

theorem le_finite_finite (a b : ℚ) : le (finite a) (finite b) = true ↔ a ≤ b := by
  simp [le, lt, eq, le_iff_lt_or_eq]

theorem le_negZero_finite (b : ℚ) : le negZero (finite b) = true ↔ 0 ≤ b := by
  simp only [le, lt, eq, Bool.or_eq_true, decide_eq_true_eq]
  constructor
  · rintro (h | h)
    · exact h.le
    · exact h.ge
  · intro h
    exact (lt_or_eq_of_le h).imp id Eq.symm

theorem le_finite_negZero (a : ℚ) : le (finite a) negZero = true ↔ a ≤ 0 := by
  simp [le, lt, eq, le_iff_lt_or_eq]

theorem le_negZero_negZero : le negZero negZero = true := by decide

theorem le_nan (x : Double) : le x nan = false := by
  cases x <;> simp [le, lt, eq]

theorem nan_le (x : Double) : le nan x = false := by
  cases x <;> simp [le, lt, eq]

theorem le_posInf (x : Double) : le x posInf = true ↔ x ≠ nan := by
  cases x <;> simp [le, lt, eq]

theorem negInf_le (x : Double) : le negInf x = true ↔ x ≠ nan := by
  cases x <;> simp [le, lt, eq]

theorem posInf_le (x : Double) : le posInf x = true ↔ x = posInf := by
  cases x <;> simp [le, lt, eq]

theorem le_negInf (x : Double) : le x negInf = true ↔ x = negInf := by
  cases x <;> simp [le, lt, eq]

/-- The rounding of a number at or above zero is at or above either zero. -/
theorem negZero_le_ofRat (r : ℚ) (h : 0 ≤ r) : le negZero (ofRat r) = true := by
  have h1 := ofRat_mono 0 r h
  rw [ofRat_zero] at h1
  cases hr : ofRat r <;> rw [hr] at h1 <;> simp [le, lt, eq] at h1 ⊢
  rcases h1 with h1 | h1
  · exact Or.inl h1
  · exact Or.inr h1.symm

theorem zero_le_ofRat (r : ℚ) (h : 0 ≤ r) : le (finite 0) (ofRat r) = true := by
  have h1 := ofRat_mono 0 r h
  rwa [ofRat_zero] at h1

/-- The rounding of a number at or below zero is at or below either zero. -/
theorem ofRat_le_negZero (r : ℚ) (h : r ≤ 0) : le (ofRat r) negZero = true := by
  have h1 := ofRat_mono r 0 h
  rw [ofRat_zero] at h1
  cases hr : ofRat r <;> rw [hr] at h1 <;> simp [le, lt, eq] at h1 ⊢
  exact h1

theorem ofRat_le_zero (r : ℚ) (h : r ≤ 0) : le (ofRat r) (finite 0) = true := by
  have h1 := ofRat_mono r 0 h
  rwa [ofRat_zero] at h1

theorem add_comm (x y : Double) : x + y = y + x := by
  cases x <;> cases y <;> simp [add_def, add, Rat.add_comm]

/-- Addition is monotone in its first operand, where it yields numbers. -/
theorem add_mono_left (x1 x2 y : Double) (h : le x1 x2 = true)
    (h1 : x1 + y ≠ nan) (h2 : x2 + y ≠ nan) : le (x1 + y) (x2 + y) = true := by
  cases y <;> cases x1 <;> cases x2 <;>
    simp [add_def, add, le_finite_finite, le_negZero_finite, le_finite_negZero,
      le_negZero_negZero, le_nan, nan_le, le_posInf, negInf_le, posInf_le, le_negInf,
      ofRat_ne_nan] at h h1 h2 ⊢ <;>
    first
      | exact ofRat_mono _ _ (by linarith)
      | exact negZero_le_ofRat _ (by linarith)
      | exact ofRat_le_negZero _ (by linarith)

/-- Addition is monotone in its second operand, where it yields numbers. -/
theorem add_mono_right (x y1 y2 : Double) (h : le y1 y2 = true)
    (h1 : x + y1 ≠ nan) (h2 : x + y2 ≠ nan) : le (x + y1) (x + y2) = true := by
  rw [add_comm x y1] at h1 ⊢
  rw [add_comm x y2] at h2 ⊢
  exact add_mono_left y1 y2 x h h1 h2

/-- Unary minus reverses the order. -/
theorem neg_anti (x y : Double) (h : le x y = true) : le (neg y) (neg x) = true := by
  cases x <;> cases y <;>
    simp [neg, le_finite_finite, le_negZero_finite, le_finite_negZero,
      le_negZero_negZero, le_nan, nan_le, le_posInf, negInf_le, posInf_le, le_negInf] at h ⊢
  all_goals
    split_ifs <;>
    simp [le_finite_finite, le_negZero_finite, le_finite_negZero, le_negZero_negZero] <;>
    linarith

theorem add_ne_nan (x y : Double) (h : x + y ≠ nan) : x ≠ nan ∧ y ≠ nan := by
  cases x <;> cases y <;> simp [add_def, add] at h ⊢

theorem neg_ne_nan (x : Double) (h : neg x ≠ nan) : x ≠ nan := by
  cases x <;> simp [neg] at h ⊢

theorem sub_ne_nan (x y : Double) (h : x - y ≠ nan) : x ≠ nan ∧ y ≠ nan := by
  rw [sub_def] at h
  exact ⟨(add_ne_nan _ _ h).1, neg_ne_nan _ (add_ne_nan _ _ h).2⟩

theorem mul_ne_nan (x y : Double) (h : x * y ≠ nan) : x ≠ nan ∧ y ≠ nan := by
  cases x <;> cases y <;> simp [mul_def, mul] at h ⊢

/-- Subtraction is monotone in its first operand, where it yields numbers. -/
theorem sub_mono_left (x1 x2 y : Double) (h : le x1 x2 = true)
    (h1 : x1 - y ≠ nan) (h2 : x2 - y ≠ nan) : le (x1 - y) (x2 - y) = true :=
  add_mono_left x1 x2 (neg y) h h1 h2

/-- Subtraction reverses the order of its second operand, where it yields numbers. -/
theorem sub_anti_right (x y1 y2 : Double) (h : le y1 y2 = true)
    (h1 : x - y1 ≠ nan) (h2 : x - y2 ≠ nan) : le (x - y2) (x - y1) = true :=
  add_mono_right x (neg y2) (neg y1) (neg_anti y1 y2 h) h2 h1

theorem le_zero_zero (s t : Bool) : le (zero s) (zero t) = true := by
  cases s <;> cases t <;> decide

theorem zero_ne_nan (s : Bool) : zero s ≠ nan := by
  cases s <;> simp [zero]

theorem zero_le_ofRat_of_nonneg (s : Bool) (r : ℚ) (h : 0 ≤ r) :
    le (zero s) (ofRat r) = true := by
  cases s
  · exact zero_le_ofRat r h
  · exact negZero_le_ofRat r h

theorem ofRat_le_zero_of_nonpos (s : Bool) (r : ℚ) (h : r ≤ 0) :
    le (ofRat r) (zero s) = true := by
  cases s
  · exact ofRat_le_zero r h
  · exact ofRat_le_negZero r h

theorem le_refl (x : Double) (h : x ≠ nan) : le x x = true := by
  cases x <;> simp [le, lt, eq] at h ⊢

/-- A factor at or above zero times the positive infinity is that infinity, or no number. -/
theorem mul_posInf (c : Double) (hc : le (finite 0) c = true) (h : c * posInf ≠ nan) :
    c * posInf = posInf := by
  cases c with
  | nan => simp [le_nan] at hc
  | negInf => simp [le_negInf] at hc
  | posInf => rfl
  | negZero => exact absurd rfl h
  | finite a =>
      have ha : 0 ≤ a := (le_finite_finite 0 a).1 hc
      by_cases ha0 : a = 0
      · subst ha0
        exact absurd rfl h
      · have hapos : ¬ a < 0 := not_lt.2 ha
        simp [mul_def, mul, isInf, isZero, signBit, inf, ha0, hapos]

/-- A factor at or above zero times the negative infinity is that infinity, or no number. -/
theorem mul_negInf (c : Double) (hc : le (finite 0) c = true) (h : c * negInf ≠ nan) :
    c * negInf = negInf := by
  cases c with
  | nan => simp [le_nan] at hc
  | negInf => simp [le_negInf] at hc
  | posInf => rfl
  | negZero => exact absurd rfl h
  | finite a =>
      have ha : 0 ≤ a := (le_finite_finite 0 a).1 hc
      by_cases ha0 : a = 0
      · subst ha0
        exact absurd rfl h
      · have hapos : ¬ a < 0 := not_lt.2 ha
        simp [mul_def, mul, isInf, isZero, signBit, inf, ha0, hapos]

theorem finite_mul_negZero (a : ℚ) :
    finite a * negZero = zero (xor (decide (a < 0)) true) := by
  simp [mul_def, mul, isInf, isZero, signBit]

theorem negZero_mul_finite (a : ℚ) :
    negZero * finite a = zero (xor true (decide (a < 0))) := by
  simp [mul_def, mul, isInf, isZero, signBit]

theorem negZero_mul_negZero : negZero * negZero = finite 0 := rfl

theorem finite_mul_finite_eq (a b : ℚ) :
    finite a * finite b
      = if a = 0 ∨ b = 0 then zero (xor (decide (a < 0)) (decide (b < 0)))
        else ofRat (a * b) := rfl

/-- The product of a finite factor at or above zero and a finite number or zero lies, in
the order, where the rounding of the exact product lies. -/
theorem finite_mul_sandwich (a : ℚ) (ha : 0 ≤ a) (p q : ℚ) (h : p ≤ q) :
    le (finite a * finite p) (finite a * finite q) = true := by
  rw [finite_mul_finite_eq, finite_mul_finite_eq]
  by_cases ha0 : a = 0
  · simp only [ha0, true_or, if_true]
    exact le_zero_zero _ _
  · by_cases hp : p = 0 <;> by_cases hq : q = 0
    · simp only [hp, hq, or_true, if_true]
      exact le_zero_zero _ _
    · simp only [hp, hq, ha0, or_true, or_self, if_true, if_false]
      exact zero_le_ofRat_of_nonneg _ _ (mul_nonneg ha (by rw [hp] at h; exact h))
    · simp only [hp, hq, ha0, or_true, or_self, if_true, if_false]
      exact ofRat_le_zero_of_nonpos _ _
        (mul_nonpos_of_nonneg_of_nonpos ha (by rw [hq] at h; exact h))
    · simp only [hp, hq, ha0, or_self, if_false]
      exact ofRat_mono _ _ (mul_le_mul_of_nonneg_left h ha)

/-- Two zeros are equal in the order, whatever their signs. -/
theorem le_of_isZero (u v : Double) (hu : isZero u = true) (hv : isZero v = true) :
    le u v = true := by
  cases u <;> cases v <;> simp [isZero] at hu hv
  · decide
  · subst hv
    decide
  · subst hu
    decide
  · subst hu
    subst hv
    decide

theorem isZero_zero (s : Bool) : isZero (zero s) = true := by
  cases s <;> decide

/-- A zero times a number is a zero, or no number. -/
theorem isZero_mul (c e : Double) (hc : isZero c = true) (h : c * e ≠ nan) :
    isZero (c * e) = true := by
  cases c <;> simp [isZero] at hc
  · cases e with
    | nan => exact absurd rfl h
    | posInf => exact absurd rfl h
    | negInf => exact absurd rfl h
    | negZero => decide
    | finite b => exact isZero_zero (xor true (decide (b < 0)))
  · subst hc
    cases e with
    | nan => exact absurd rfl h
    | posInf => exact absurd rfl h
    | negInf => exact absurd rfl h
    | negZero => decide
    | finite b =>
        rw [finite_mul_finite_eq, if_pos (Or.inl rfl)]
        exact isZero_zero _

/-- Multiplication by a factor at or above zero is monotone, where it yields numbers. -/
theorem mul_mono (c d1 d2 : Double) (hc : le 0 c = true) (h : le d1 d2 = true)
    (h1 : c * d1 ≠ nan) (h2 : c * d2 ≠ nan) : le (c * d1) (c * d2) = true := by
  rw [zero_lit] at hc
  by_cases hz : isZero c = true
  · exact le_of_isZero _ _ (isZero_mul c d1 hz h1) (isZero_mul c d2 hz h2)
  cases d1 with
  | nan => simp [nan_le] at h
  | posInf =>
      rw [(posInf_le d2).1 h]
      exact le_refl _ h1
  | negInf =>
      rw [mul_negInf c hc h1]
      exact (negInf_le _).2 h2
  | negZero =>
      cases d2 with
      | nan => simp [le_nan] at h
      | posInf =>
          rw [mul_posInf c hc h2]
          exact (le_posInf _).2 h1
      | negInf => simp [le_negInf] at h
      | negZero => exact le_refl _ h1
      | finite q =>
          have hq : 0 ≤ q := (le_negZero_finite q).1 h
          cases c with
          | nan => simp [le_nan] at hc
          | negInf => simp [le_negInf] at hc
          | posInf => exact absurd rfl h1
          | negZero => exact absurd rfl hz
          | finite a =>
              have ha : 0 ≤ a := (le_finite_finite 0 a).1 hc
              have ha0 : a ≠ 0 := fun e => hz (by rw [e]; decide)
              rw [finite_mul_negZero, finite_mul_finite_eq]
              by_cases hq0 : q = 0
              · rw [if_pos (Or.inr hq0)]
                exact le_zero_zero _ _
              · rw [if_neg (by simp [ha0, hq0])]
                exact zero_le_ofRat_of_nonneg _ _ (mul_nonneg ha hq)
  | finite p =>
      cases d2 with
      | nan => simp [le_nan] at h
      | posInf =>
          rw [mul_posInf c hc h2]
          exact (le_posInf _).2 h1
      | negInf => simp [le_negInf] at h
      | negZero =>
          have hp : p ≤ 0 := (le_finite_negZero p).1 h
          cases c with
          | nan => simp [le_nan] at hc
          | negInf => simp [le_negInf] at hc
          | posInf => exact absurd rfl h2
          | negZero => exact absurd rfl hz
          | finite a =>
              have ha : 0 ≤ a := (le_finite_finite 0 a).1 hc
              have ha0 : a ≠ 0 := fun e => hz (by rw [e]; decide)
              rw [finite_mul_negZero, finite_mul_finite_eq]
              by_cases hp0 : p = 0
              · rw [if_pos (Or.inr hp0)]
                exact le_zero_zero _ _
              · rw [if_neg (by simp [ha0, hp0])]
                exact ofRat_le_zero_of_nonpos _ _ (mul_nonpos_of_nonneg_of_nonpos ha hp)
      | finite q =>
          have hpq : p ≤ q := (le_finite_finite p q).1 h
          cases c with
          | nan => simp [le_nan] at hc
          | negInf => simp [le_negInf] at hc
          | posInf =>
              have e1 : posInf * finite p
                  = if p = 0 then nan else if p < 0 then negInf else posInf := by
                simp [mul_def, mul, isInf, isZero, signBit, inf]
              have e2 : posInf * finite q
                  = if q = 0 then nan else if q < 0 then negInf else posInf := by
                simp [mul_def, mul, isInf, isZero, signBit, inf]
              rw [e1] at h1 ⊢
              rw [e2] at h2 ⊢
              by_cases hp0 : p = 0
              · exact absurd (if_pos hp0) h1
              by_cases hq0 : q = 0
              · exact absurd (if_pos hq0) h2
              rw [if_neg hp0, if_neg hq0]
              by_cases hp : p < 0
              · rw [if_pos hp]
                refine (negInf_le _).2 ?_
                split_ifs <;> simp
              · rw [if_neg hp]
                have hq : ¬ q < 0 := fun hh => hp (lt_of_le_of_lt hpq hh)
                rw [if_neg hq]
                decide
          | negZero => exact absurd rfl hz
          | finite a =>
              exact finite_mul_sandwich a ((le_finite_finite 0 a).1 hc) p q hpq

/-- The clamp `if (x < 0) x = 0` is monotone. -/
theorem clamp_mono (a b : Double) (h : le a b = true) :
    le (if lt a 0 = true then 0 else a) (if lt b 0 = true then 0 else b) = true := by
  rw [zero_lit]
  cases a <;> cases b <;>
    simp [lt, le_finite_finite, le_negZero_finite, le_finite_negZero,
      le_negZero_negZero, le_nan, nan_le, le_posInf, negInf_le, posInf_le, le_negInf] at h ⊢
  all_goals
    split_ifs <;>
    simp [le_finite_finite, le_negZero_finite, le_finite_negZero] <;>
    linarith

/-- The clamp keeps not-a-number. -/
theorem clamp_ne_nan (a : Double) (h : (if lt a 0 = true then 0 else a) ≠ nan) : a ≠ nan := by
  intro e
  subst e
  exact h rfl

/-- The sum of two values that are each at least zero or no number is so too. -/
theorem nn_add (x y : Double) (hx : x = nan ∨ le (finite 0) x = true)
    (hy : y = nan ∨ le (finite 0) y = true) :
    x + y = nan ∨ le (finite 0) (x + y) = true := by
  cases x <;> cases y <;>
    simp [add_def, add, le_finite_finite, le_negZero_finite, le_finite_negZero,
      le_negZero_negZero, le_nan, nan_le, le_posInf, negInf_le, posInf_le, le_negInf]
      at hx hy ⊢
  all_goals exact Or.inr (zero_le_ofRat _ (by linarith))

theorem zero_le_zero (s : Bool) : le (finite 0) (zero s) = true := by
  cases s <;> decide

/-- The difference `s - b` with `b ≤ s` is at least zero, or no number. -/
theorem nn_sub (b s : Double) (h : le b s = true) :
    s - b = nan ∨ le (finite 0) (s - b) = true := by
  cases b with
  | finite q =>
      by_cases hq : q = 0
      · subst hq
        cases s <;>
          simp [sub_def, add, neg, le_finite_finite, le_finite_negZero, le_nan, le_posInf,
            le_negInf] at h ⊢
        all_goals exact Or.inr (zero_le_ofRat _ (by linarith))
      · cases s <;>
          simp [sub_def, add, neg, hq, le_finite_finite, le_finite_negZero, le_nan, le_posInf,
            le_negInf] at h ⊢
        all_goals exact Or.inr (zero_le_ofRat _ (by linarith))
  | _ =>
      cases s <;>
        simp [sub_def, add, neg, le_negZero_finite, le_negZero_negZero, le_nan, nan_le,
          le_posInf, negInf_le, posInf_le, le_negInf] at h ⊢
      all_goals exact Or.inr (zero_le_ofRat _ (by linarith))

/-- The product of two values that are each at least zero or no number is so too. -/
theorem nn_mul (x y : Double) (hx : x = nan ∨ le (finite 0) x = true)
    (hy : y = nan ∨ le (finite 0) y = true) :
    x * y = nan ∨ le (finite 0) (x * y) = true := by
  cases x <;> cases y <;>
    simp [mul_def, mul, isInf, isZero, signBit, inf, le_finite_finite, le_negZero_finite,
      le_finite_negZero, le_negZero_negZero, le_nan, nan_le, le_posInf, negInf_le, posInf_le,
      le_negInf] at hx hy ⊢
  all_goals
    (try split_ifs) <;>
    first
      | exact Or.inr (zero_le_zero _)
      | exact Or.inr (zero_le_ofRat _ (mul_nonneg hx hy))
      | exact Or.inr (by decide)
      | exact Or.inl (fun _ => rfl)
      | exact Or.inl rfl
      | (exfalso; linarith)
      | simp_all

/-- The quotient of a value that is at least zero or no number by a value above zero is
at least zero or no number. -/
theorem nn_div (x y : Double) (hx : x = nan ∨ le (finite 0) x = true)
    (hy : lt (finite 0) y = true) :
    x / y = nan ∨ le (finite 0) (x / y) = true := by
  cases x <;> cases y <;>
    simp [div_def, div, isInf, isZero, signBit, inf, lt, le_finite_finite, le_negZero_finite,
      le_finite_negZero, le_negZero_negZero, le_nan, nan_le, le_posInf, negInf_le, posInf_le,
      le_negInf] at hx hy ⊢
  all_goals
    (try split_ifs) <;>
    first
      | exact Or.inr (zero_le_zero _)
      | exact Or.inr (zero_le_ofRat _ (div_nonneg hx hy.le))
      | exact Or.inr (by decide)
      | exact Or.inl (fun _ => rfl)
      | exact Or.inl rfl
      | (exfalso; linarith)

/-- What is above a value that is at least zero is above zero. -/
theorem pos_of_nonneg_of_lt (x g : Double) (hx : le (finite 0) x = true)
    (h : lt x g = true) : lt (finite 0) g = true := by
  cases x <;> cases g <;>
    simp [lt, le_finite_finite, le_negZero_finite, le_finite_negZero, le_negZero_negZero,
      le_nan, nan_le, le_posInf, negInf_le, posInf_le, le_negInf] at hx h ⊢
  all_goals linarith

end Double

/-! ## The growth law in binary64 arithmetic: theorems -/

namespace Rounded

theorem CellData.getItem_setItem_same_rounded (d : CellData) (k : String) (v : Double) :
    CellData.GetItem (CellData.SetItem d k v) k = .ok v := by
  induction d with
  | nil => simp [CellData.SetItem, CellData.GetItem]
  | cons e rest ih =>
      obtain ⟨k1, v1⟩ := e
      by_cases h : k1 = k
      · simp [CellData.SetItem, CellData.GetItem, h]
      · simp [CellData.SetItem, CellData.GetItem, h, ih]

namespace TargetAreaNuclearMigrationGrowthModifier

/-- A call of `UpdateTargetAreaOfCell` succeeds exactly when `"slope"` is stored, and then
returns the cell with the computed target area written to its data store. -/
theorem updateTargetAreaOfCell_ok_rounded (self : TargetAreaNuclearMigrationGrowthModifier)
    (time : Double) (pCell updated : Cell) :
    UpdateTargetAreaOfCell self time pCell = .ok updated ↔
      ∃ cell_slope, pCell.cellData.GetItem "slope" = .ok cell_slope ∧
        updated = { pCell with
          cellData := pCell.cellData.SetItem "target area"
            (cell_target_area self time pCell cell_slope) } := by
  unfold UpdateTargetAreaOfCell
  cases h : pCell.cellData.GetItem "slope" with
  | error e => simp
  | ok cell_slope =>
      simp only [Except.ok.injEq, exists_eq_left']
      exact eq_comm

/-- C1 fails on the code: with the mature target area `DBL_MAX`, at the start of its
apoptosis (time 1) the cell `apoptoticCell` is given a target area that is not a number:
`0.5 * area / 0.25` overflows to infinity and is multiplied by the elapsed time 0.  The
clamp `cell_target_area < 0` is false for it, and so is the comparison with zero that the
claim makes. -/
theorem C1_target_area_can_be_nan :
    apoptoticCell.hasApoptoticCellProperty = true
      ∧ UpdateTargetAreaOfCell modifierWithLargestMatureArea 1 apoptoticCell
          = .ok { apoptoticCell with cellData := [("slope", 1), ("target area", .nan)] }
      ∧ Double.ge .nan 0 = false := by
  decide!

/-- C1 as amended: for every apoptotic cell (any birth time, apoptosis start time,
apoptosis duration, G1 duration, stored slope and configured mature target area) and
every simulation time, the value that `UpdateTargetAreaOfCell` stores under
`"target area"` is never below zero: it is greater than or equal to zero, or it is
not-a-number. -/
theorem C1_apoptotic_target_area_not_negative
    (self : TargetAreaNuclearMigrationGrowthModifier) (time : Double) (pCell updated : Cell)
    (hA : pCell.hasApoptoticCellProperty = true)
    (hU : UpdateTargetAreaOfCell self time pCell = .ok updated) :
    ∃ v, updated.cellData.GetItem "target area" = .ok v
      ∧ Double.lt v 0 = false
      ∧ (Double.ge v 0 = true ∨ v = .nan) := by
  obtain ⟨k, -, rfl⟩ := (updateTargetAreaOfCell_ok_rounded self time pCell updated).1 hU
  refine ⟨_, CellData.getItem_setItem_same_rounded _ _ _, ?_⟩
  have hlt : Double.lt (cell_target_area self time pCell k) 0 = false := by
    simp only [cell_target_area, hA, if_true]
    split_ifs with h
    · decide
    · simpa using h
  refine ⟨hlt, ?_⟩
  rw [Double.zero_lit] at hlt ⊢
  rcases Double.nan_or_nonneg_of_not_lt_zero _ hlt with h | h
  · exact Or.inr h
  · exact Or.inl h

/-- The amended C1 at `apoptoticCell`, a tenth of an hour into its apoptosis, where
`0.5999999999999999` is stored. -/
theorem C1_apoptotic_target_area_not_negative_witness :
    ∃ v, CellData.GetItem
          [("slope", 1), ("target area", .finite (2702159776422297 / 4503599627370496))]
          "target area" = .ok v
      ∧ Double.lt v 0 = false
      ∧ (Double.ge v 0 = true ∨ v = .nan) :=
  C1_apoptotic_target_area_not_negative new 1.1 apoptoticCell
    { apoptoticCell with
      cellData :=
        [("slope", 1), ("target area", .finite (2702159776422297 / 4503599627370496))] }
    rfl (by decide!)

/-- With the start of apoptosis not before the birth and a mature target area that is
at least zero, the target area at the start of apoptosis is at least zero, or no number. -/
theorem area_at_start_of_apoptosis_nn (self : TargetAreaNuclearMigrationGrowthModifier)
    (pCell : Cell)
    (hbs : Double.le pCell.birthTime pCell.startOfApoptosisTime = true)
    (hM : Double.le 0 self.mMatureCellTargetArea = true) :
    area_at_start_of_apoptosis self pCell = .nan
      ∨ Double.le (.finite 0) (area_at_start_of_apoptosis self pCell) = true := by
  rw [Double.zero_lit] at hM
  unfold area_at_start_of_apoptosis
  split_ifs with hlt
  · have hd := Double.nn_sub _ _ hbs
    have hd0 : Double.le (.finite 0) (pCell.startOfApoptosisTime - pCell.birthTime) = true := by
      rcases hd with hd | hd
      · rw [hd] at hlt
        exact absurd hlt (by simp [Double.lt])
      · exact hd
    have hg := Double.pos_of_nonneg_of_lt _ _ hd0 hlt
    have h1 : Double.le (.finite 0) (1 : Double) = true := by decide!
    have h2 : Double.le (.finite 0) (0.5 : Double) = true := by decide!
    exact Double.nn_mul _ _ (Or.inr hM)
      (Double.nn_mul _ _ (Or.inr h2) (Double.nn_add _ _ (Or.inr h1) (Double.nn_div _ _ hd hg)))
  · exact Or.inr hM

/-- The computed target area of an apoptotic cell does not increase with the time, where
it is a number at both times. -/
theorem cell_target_area_apoptotic_non_increasing
    (self : TargetAreaNuclearMigrationGrowthModifier) (t1 t2 a1 a2 k1 k2 : Double)
    (pCell : Cell)
    (hA : pCell.hasApoptoticCellProperty = true)
    (hT : Double.lt 0 pCell.apoptosisTime = true)
    (hbs : Double.le pCell.birthTime pCell.startOfApoptosisTime = true)
    (hM : Double.le 0 self.mMatureCellTargetArea = true)
    (ht : Double.le t1 t2 = true)
    (hn1 : cell_target_area self t1 { pCell with age := a1 } k1 ≠ .nan)
    (hn2 : cell_target_area self t2 { pCell with age := a2 } k2 ≠ .nan) :
    Double.le (cell_target_area self t2 { pCell with age := a2 } k2)
      (cell_target_area self t1 { pCell with age := a1 } k1) = true := by
  have e : ∀ (t a k : Double), cell_target_area self t { pCell with age := a } k
      = (if Double.lt (area_at_start_of_apoptosis self pCell
            - 0.5 * area_at_start_of_apoptosis self pCell / pCell.apoptosisTime
              * (t - pCell.startOfApoptosisTime)) 0 = true then 0
         else area_at_start_of_apoptosis self pCell
            - 0.5 * area_at_start_of_apoptosis self pCell / pCell.apoptosisTime
              * (t - pCell.startOfApoptosisTime)) := by
    intro t a k
    simp only [cell_target_area, hA, if_true]
    rfl
  rw [e] at hn1 hn2 ⊢
  rw [e]
  have hs1 := Double.clamp_ne_nan _ hn1
  have hs2 := Double.clamp_ne_nan _ hn2
  have hp1 := (Double.sub_ne_nan _ _ hs1).2
  have hp2 := (Double.sub_ne_nan _ _ hs2).2
  have hd1 := (Double.mul_ne_nan _ _ hp1).2
  have hd2 := (Double.mul_ne_nan _ _ hp2).2
  have hcn := (Double.mul_ne_nan _ _ hp1).1
  have hc : Double.le 0 (0.5 * area_at_start_of_apoptosis self pCell / pCell.apoptosisTime)
      = true := by
    rw [Double.zero_lit] at hT ⊢
    have h2 : Double.le (.finite 0) (0.5 : Double) = true := by decide!
    rcases Double.nn_div _ _
      (Double.nn_mul _ _ (Or.inr h2) (area_at_start_of_apoptosis_nn self pCell hbs hM)) hT
      with h | h
    · exact absurd h hcn
    · exact h
  exact Double.clamp_mono _ _
    (Double.sub_anti_right _ _ _
      (Double.mul_mono _ _ _ hc (Double.sub_mono_left _ _ _ ht hd1 hd2) hp1 hp2) hs1 hs2)

/-- C2 fails on the code: with the mature target area `DBL_MAX` the cell `apoptoticCell`
(apoptosis duration `0.25 > 0`, G1 duration `2 > 0`, born at 0, apoptosis started at 1)
is given not-a-number at time 1, the start of its apoptosis, and 0 at time 2; the
comparison `0 <= NaN` that the claim makes of the two stored values is false. -/
theorem C2_target_area_order_fails :
    apoptoticCell.hasApoptoticCellProperty = true
      ∧ Double.lt 0 apoptoticCell.apoptosisTime = true
      ∧ Double.lt 0 (g1_duration apoptoticCell) = true
      ∧ Double.le apoptoticCell.birthTime apoptoticCell.startOfApoptosisTime = true
      ∧ Double.le 0 modifierWithLargestMatureArea.mMatureCellTargetArea = true
      ∧ Double.le apoptoticCell.startOfApoptosisTime 1 = true
      ∧ Double.le 1 2 = true
      ∧ UpdateTargetAreaOfCell modifierWithLargestMatureArea 1 apoptoticCell
          = .ok { apoptoticCell with cellData := [("slope", 1), ("target area", .nan)] }
      ∧ UpdateTargetAreaOfCell modifierWithLargestMatureArea 2 apoptoticCell
          = .ok { apoptoticCell with cellData := [("slope", 1), ("target area", .finite 0)] }
      ∧ Double.le (.finite 0) .nan = false := by
  decide!

/-- C2 as amended: for every apoptotic cell with positive apoptosis duration, apoptosis
start time not before its birth time and a configured mature target area that is at least
zero, and for all simulation times `t1 <= t2`, the target areas that
`UpdateTargetAreaOfCell` stores at `t1` and at `t2` (the age of the cell may differ
between the two calls, every other attribute is the same) are such that one of them is
not-a-number or the one stored at `t2` is less than or equal to the one stored at `t1`. -/
theorem C2_apoptotic_target_area_non_increasing
    (self : TargetAreaNuclearMigrationGrowthModifier) (t1 t2 a1 a2 : Double)
    (pCell u1 u2 : Cell)
    (hA : pCell.hasApoptoticCellProperty = true)
    (hT : Double.lt 0 pCell.apoptosisTime = true)
    (hbs : Double.le pCell.birthTime pCell.startOfApoptosisTime = true)
    (hM : Double.le 0 self.mMatureCellTargetArea = true)
    (ht : Double.le t1 t2 = true)
    (h1 : UpdateTargetAreaOfCell self t1 { pCell with age := a1 } = .ok u1)
    (h2 : UpdateTargetAreaOfCell self t2 { pCell with age := a2 } = .ok u2) :
    ∃ v1 v2, u1.cellData.GetItem "target area" = .ok v1
      ∧ u2.cellData.GetItem "target area" = .ok v2
      ∧ (v1 = .nan ∨ v2 = .nan ∨ Double.le v2 v1 = true) := by
  obtain ⟨k1, -, rfl⟩ := (updateTargetAreaOfCell_ok_rounded self t1 _ u1).1 h1
  obtain ⟨k2, -, rfl⟩ := (updateTargetAreaOfCell_ok_rounded self t2 _ u2).1 h2
  refine ⟨_, _, CellData.getItem_setItem_same_rounded _ _ _, CellData.getItem_setItem_same_rounded _ _ _, ?_⟩
  by_cases hn1 : cell_target_area self t1 { pCell with age := a1 } k1 = .nan
  · exact Or.inl hn1
  by_cases hn2 : cell_target_area self t2 { pCell with age := a2 } k2 = .nan
  · exact Or.inr (Or.inl hn2)
  exact Or.inr (Or.inr
    (cell_target_area_apoptotic_non_increasing self t1 t2 a1 a2 k1 k2 pCell hA hT hbs hM ht
      hn1 hn2))

/-- The amended C2 at `apoptoticCell` with the default mature target area:
`0.45000000000000007` is stored at time 1.2, after `0.5999999999999999` at time 1.1. -/
theorem C2_apoptotic_target_area_non_increasing_witness :
    ∃ v1 v2,
      CellData.GetItem
          [("slope", 1), ("target area", .finite (2702159776422297 / 4503599627370496))]
          "target area" = .ok v1
      ∧ CellData.GetItem
          [("slope", 1), ("target area", .finite (4053239664633447 / 9007199254740992))]
          "target area" = .ok v2
      ∧ (v1 = .nan ∨ v2 = .nan ∨ Double.le v2 v1 = true) :=
  C2_apoptotic_target_area_non_increasing new 1.1 1.2 1 1 apoptoticCell
    { apoptoticCell with
      cellData :=
        [("slope", 1), ("target area", .finite (2702159776422297 / 4503599627370496))] }
    { apoptoticCell with
      cellData :=
        [("slope", 1), ("target area", .finite (4053239664633447 / 9007199254740992))] }
    rfl (by decide!) (by decide!) (by decide!) (by decide!) (by decide!) (by decide!)

/-- For an apoptotic cell the computed target area is `apoptoticTargetArea`. -/
theorem cell_target_area_apoptotic (self : TargetAreaNuclearMigrationGrowthModifier)
    (time : Double) (pCell : Cell) (cell_slope : Double)
    (hA : pCell.hasApoptoticCellProperty = true) :
    cell_target_area self time pCell cell_slope
      = apoptoticTargetArea self.mMatureCellTargetArea pCell.birthTime
          pCell.startOfApoptosisTime (g1_duration pCell) pCell.apoptosisTime time := by
  simp only [cell_target_area, apoptoticTargetArea, area_at_start_of_apoptosis, hA, if_true]

/-- C22 fails on the code: with the mature target area `DBL_MAX` and the apoptosis
duration `0.25`, at the start of its apoptosis (time 1) the cell `apoptoticCell` is given
a target area that is not a number, where the closed form of the claim is the number
`3/4 * DBL_MAX`. -/
theorem C22_closed_form_fails :
    apoptoticCell.hasApoptoticCellProperty = true
      ∧ Double.lt 0 apoptoticCell.apoptosisTime = true
      ∧ UpdateTargetAreaOfCell modifierWithLargestMatureArea 1 apoptoticCell
          = .ok { apoptoticCell with cellData := [("slope", 1), ("target area", .nan)] }
      ∧ Chaste.TargetAreaNuclearMigrationGrowthModifier.apoptoticTargetArea
          Chaste.DBL_MAX 0 1 2 (1 / 4) 1 = 3 / 4 * Chaste.DBL_MAX
      ∧ ∀ q : ℚ, Double.nan ≠ Double.finite q := by
  refine ⟨rfl, by decide!, by decide!, ?_, fun q h => Double.noConfusion h⟩
  have hpos : (0 : ℚ) ≤ Chaste.DBL_MAX := by
    unfold Chaste.DBL_MAX
    positivity
  simp only [Chaste.TargetAreaNuclearMigrationGrowthModifier.apoptoticTargetArea]
  norm_num
  rw [max_eq_right (by linarith)]
  ring

/-- C22 as amended: for every apoptotic cell with birth time `b`, apoptosis start `s`,
effective G1 duration `g`, apoptosis duration `T` and mature target area `A`, the target
area stored at time `t` is `A0 - 0.5 * A0 / T * (t - s)`, each operation performed in
binary64 arithmetic in this order, replaced by 0 when it is below zero, where
`A0 = A * (0.5 * (1 + (s - b) / g))` if `s - b < g` and `A0 = A` otherwise; it is a
function of these quantities only: a second apoptotic cell with the same `b`, `s`, `g`
and `T` is given the same target area, whatever its age, slope, S, G2 and M durations
and `ReadyToDivide`. -/
theorem C22_apoptotic_formula (self : TargetAreaNuclearMigrationGrowthModifier)
    (time : Double) (pCell updated : Cell) (hA : pCell.hasApoptoticCellProperty = true)
    (hU : UpdateTargetAreaOfCell self time pCell = .ok updated) :
    updated.cellData.GetItem "target area"
        = .ok (apoptoticTargetArea self.mMatureCellTargetArea pCell.birthTime
            pCell.startOfApoptosisTime (g1_duration pCell) pCell.apoptosisTime time)
      ∧ ∀ other updatedOther : Cell, other.hasApoptoticCellProperty = true →
          other.birthTime = pCell.birthTime →
          other.startOfApoptosisTime = pCell.startOfApoptosisTime →
          g1_duration other = g1_duration pCell →
          other.apoptosisTime = pCell.apoptosisTime →
          UpdateTargetAreaOfCell self time other = .ok updatedOther →
            updatedOther.cellData.GetItem "target area"
              = updated.cellData.GetItem "target area" := by
  obtain ⟨k, -, rfl⟩ := (updateTargetAreaOfCell_ok_rounded self time pCell updated).1 hU
  have hv := cell_target_area_apoptotic self time pCell k hA
  refine ⟨by rw [CellData.getItem_setItem_same_rounded, hv], ?_⟩
  intro other updatedOther hAo hb hs hg hTo hUo
  obtain ⟨ko, -, rfl⟩ := (updateTargetAreaOfCell_ok_rounded self time other updatedOther).1 hUo
  have hvo := cell_target_area_apoptotic self time other ko hAo
  simp only [CellData.getItem_setItem_same_rounded]
  rw [hv, hvo, hb, hs, hg, hTo]

/-- The amended C22 at `apoptoticCell`, a tenth of an hour into its apoptosis; the second
cell is `apoptoticCell` at age 3, with slope 5 and ready to divide. -/
theorem C22_apoptotic_formula_witness :
    CellData.GetItem
          [("slope", 1), ("target area", .finite (2702159776422297 / 4503599627370496))]
          "target area"
        = .ok (apoptoticTargetArea new.mMatureCellTargetArea apoptoticCell.birthTime
            apoptoticCell.startOfApoptosisTime (g1_duration apoptoticCell)
            apoptoticCell.apoptosisTime 1.1)
      ∧ CellData.GetItem
          [("slope", 5), ("target area", .finite (2702159776422297 / 4503599627370496))]
          "target area"
        = CellData.GetItem
          [("slope", 1), ("target area", .finite (2702159776422297 / 4503599627370496))]
          "target area" :=
  have h := C22_apoptotic_formula new 1.1 apoptoticCell
    { apoptoticCell with
      cellData :=
        [("slope", 1), ("target area", .finite (2702159776422297 / 4503599627370496))] }
    rfl (by decide!)
  ⟨h.1,
    h.2 { apoptoticCell with age := 3, readyToDivide := true, cellData := [("slope", 5)] }
      { apoptoticCell with
        age := 3, readyToDivide := true,
        cellData :=
          [("slope", 5), ("target area", .finite (2702159776422297 / 4503599627370496))] }
      rfl rfl rfl (by decide!) rfl (by decide!)⟩

/-- For a healthy cell the computed target area is `healthyTargetArea`. -/
theorem cell_target_area_healthy (self : TargetAreaNuclearMigrationGrowthModifier)
    (time : Double) (pCell : Cell) (cell_slope : Double)
    (hA : pCell.hasApoptoticCellProperty = false) :
    cell_target_area self time pCell cell_slope
      = healthyTargetArea self.mMatureCellTargetArea pCell.age (g1_duration pCell)
          pCell.cellCycleModel.g1Duration pCell.cellCycleModel.sDuration
          pCell.cellCycleModel.g2Duration pCell.cellCycleModel.mDuration cell_slope
          pCell.readyToDivide := by
  simp only [cell_target_area, healthyTargetArea, hA, Bool.false_eq_true, if_false]
  rw [Double.mul_comm (g1_duration pCell) 1.1, Double.eight_lit,
    Double.mul_comm cell_slope 8, Double.div_two]

/-- C23 fails on the code.  For the healthy cell `cellWithZeroSlope` (age 1, in G1 phase,
slope 0) the stored target area is an infinity, not a number.  For the healthy
differentiated cell `differentiatedCellAtEndOfCycle` (age 12, effective G1 duration 2,
reported G1 duration `DBL_MAX`, slope 1) the stored target area is 0, where the formula
of the claim gives 1. -/
theorem C23_closed_form_fails :
    cellWithZeroSlope.hasApoptoticCellProperty = false
      ∧ UpdateTargetAreaOfCell new 1 cellWithZeroSlope
          = .ok { cellWithZeroSlope with
                  cellData := [("slope", 0), ("target area", .posInf)] }
      ∧ differentiatedCellAtEndOfCycle.hasApoptoticCellProperty = false
      ∧ UpdateTargetAreaOfCell new 12 differentiatedCellAtEndOfCycle
          = .ok { differentiatedCellAtEndOfCycle with
                  cellData := [("slope", 1), ("target area", .finite 0)] }
      ∧ Chaste.TargetAreaNuclearMigrationGrowthModifier.healthyTargetArea
          1 12 2 Chaste.DBL_MAX 5 4 1 1 false = 1 := by
  refine ⟨rfl, by decide!, rfl, by decide!, ?_⟩
  have hmax : (5 : ℚ) < Chaste.DBL_MAX := by
    unfold Chaste.DBL_MAX
    have h1 : (1 : ℚ) ≤ 2 ^ 971 := one_le_pow₀ (by norm_num)
    have h2 : (5 : ℚ) < 2 ^ 53 - 1 := by norm_num
    nlinarith
  have hlt : ¬ ((12 : ℚ) < 1.1 * 2) := by norm_num
  have hgt : (12 : ℚ) > 2 + 5 := by norm_num
  simp only [Chaste.TargetAreaNuclearMigrationGrowthModifier.healthyTargetArea, hlt, hgt,
    if_true, if_false]
  norm_num

/-- C23 as amended: for every healthy (non-apoptotic) cell with age `a`, effective G1
duration `g`, S, G2 and M durations `s`, `g2`, `m`, stored slope `k` and mature target
area `A`, the update succeeds and the stored target area is, each operation being
performed in binary64 arithmetic: `0.5 + a / (8 k)` if `a < 1.1 g`; otherwise
`p + ((a - g - s) / (g2 + m)) (1 - p)` with `p = 0.5 + (raw G1 duration) / (8 k)` if
`a > g + s`; otherwise `A / 2` if the cell is ready to divide and `A` if not.  The cases
are tested in this order: whenever `a < 1.1 g` the first one applies. -/
theorem C23_healthy_formula (self : TargetAreaNuclearMigrationGrowthModifier)
    (time : Double) (pCell : Cell) (k : Double)
    (hA : pCell.hasApoptoticCellProperty = false)
    (hS : pCell.cellData.GetItem "slope" = .ok k) :
    ∃ updated, UpdateTargetAreaOfCell self time pCell = .ok updated
      ∧ updated.cellData.GetItem "target area"
        = .ok (healthyTargetArea self.mMatureCellTargetArea pCell.age (g1_duration pCell)
            pCell.cellCycleModel.g1Duration pCell.cellCycleModel.sDuration
            pCell.cellCycleModel.g2Duration pCell.cellCycleModel.mDuration k
            pCell.readyToDivide)
      ∧ (Double.lt pCell.age (1.1 * g1_duration pCell) = true →
          updated.cellData.GetItem "target area" = .ok (0.5 + pCell.age / (8 * k))) := by
  refine ⟨_, (updateTargetAreaOfCell_ok_rounded self time pCell _).2 ⟨k, hS, rfl⟩, ?_, ?_⟩
  · rw [CellData.getItem_setItem_same_rounded, cell_target_area_healthy self time pCell k hA]
  · intro hlt
    rw [CellData.getItem_setItem_same_rounded, cell_target_area_healthy self time pCell k hA]
    simp only [healthyTargetArea, hlt, if_true]

/-- The amended C23 at `cellInG2Phase` (age 9, G1 2, S 5, G2 4, M 1, slope 1, mature area
1): the second case applies and gives `0.85`. -/
theorem C23_healthy_formula_witness :
    healthyTargetArea 1 9 2 2 5 4 1 1 false
        = .finite (7656119366529843 / 9007199254740992)
      ∧ ∃ updated, UpdateTargetAreaOfCell new 9 cellInG2Phase = .ok updated
        ∧ updated.cellData.GetItem "target area"
          = .ok (healthyTargetArea new.mMatureCellTargetArea cellInG2Phase.age
              (g1_duration cellInG2Phase) cellInG2Phase.cellCycleModel.g1Duration
              cellInG2Phase.cellCycleModel.sDuration cellInG2Phase.cellCycleModel.g2Duration
              cellInG2Phase.cellCycleModel.mDuration 1 cellInG2Phase.readyToDivide)
        ∧ (Double.lt cellInG2Phase.age (1.1 * g1_duration cellInG2Phase) = true →
            updated.cellData.GetItem "target area"
              = .ok (0.5 + cellInG2Phase.age / (8 * 1))) :=
  ⟨by decide!, C23_healthy_formula new 9 cellInG2Phase 1 rfl (by decide!)⟩

/-- C18 fails on the code: `apoptoticCell` has apoptosis duration `0.25`, and at the end
of its apoptosis, time `1 + 0.25`, the stored target area is `0.375`, half of the `0.75`
it had at the start of apoptosis, not 0. -/
theorem C18_area_at_end_of_apoptosis :
    apoptoticCell.hasApoptoticCellProperty = true
      ∧ Double.lt 0 apoptoticCell.apoptosisTime = true
      ∧ area_at_start_of_apoptosis new apoptoticCell = .finite (3 / 4)
      ∧ UpdateTargetAreaOfCell new
          (apoptoticCell.startOfApoptosisTime + apoptoticCell.apoptosisTime) apoptoticCell
          = .ok { apoptoticCell with
                  cellData := [("slope", 1), ("target area", .finite (3 / 8))] }
      ∧ Double.eq (.finite (3 / 8)) 0 = false := by
  decide!

/-- C18 as amended: the target area of an apoptotic cell shrinks linearly to zero over
twice its apoptosis duration, as far as the arithmetic is exact.  For every apoptotic
cell with positive apoptosis duration `T` whose target area `A1` at the start of
apoptosis is a number not below zero, if `0.5 * A1` and `0.5 * A1 / T` are computed
without rounding, then the target area stored at a time `t` with `t - start = T` is
`A1 / 2`, and the target area stored at a time `t` with `t - start = 2 T` is 0. -/
theorem C18_area_halved_then_zero (self : TargetAreaNuclearMigrationGrowthModifier)
    (time : Double) (pCell updated : Cell) (a1 T : ℚ)
    (hA : pCell.hasApoptoticCellProperty = true)
    (hT : pCell.apoptosisTime = .finite T) (hTpos : 0 < T)
    (harea : area_at_start_of_apoptosis self pCell = .finite a1) (ha1 : 0 ≤ a1)
    (hrep : Double.ofRat a1 = .finite a1)
    (hhalf : (0.5 : Double) * .finite a1 = .finite (a1 / 2))
    (hrate : Double.finite (a1 / 2) / Double.finite T = .finite (a1 / (2 * T)))
    (hU : UpdateTargetAreaOfCell self time pCell = .ok updated) :
    (time - pCell.startOfApoptosisTime = .finite T →
        updated.cellData.GetItem "target area" = .ok (.finite (a1 / 2)))
      ∧ (time - pCell.startOfApoptosisTime = .finite (2 * T) →
        updated.cellData.GetItem "target area" = .ok (.finite 0)) := by
  obtain ⟨k, -, rfl⟩ := (updateTargetAreaOfCell_ok_rounded self time pCell updated).1 hU
  simp only [CellData.getItem_setItem_same_rounded, Except.ok.injEq]
  have hT0 : T ≠ 0 := ne_of_gt hTpos
  have hcore : ∀ d : ℚ, 0 < d → time - pCell.startOfApoptosisTime = .finite d →
      Double.ofRat (a1 / (2 * T) * d) = .finite (a1 / (2 * T) * d) →
      Double.ofRat (a1 - a1 / (2 * T) * d) = .finite (a1 - a1 / (2 * T) * d) →
      0 ≤ a1 - a1 / (2 * T) * d →
      cell_target_area self time pCell k = .finite (a1 - a1 / (2 * T) * d) := by
    intro d hd helapsed hprod hdiff hnonneg
    simp only [cell_target_area, hA, if_true, harea, hT, hhalf, hrate, helapsed]
    rcases eq_or_lt_of_le ha1 with h0 | hpos
    · -- the area at the start of apoptosis is zero
      subst h0
      have hz : Double.finite (0 / (2 * T)) * Double.finite d = Double.finite 0 := by
        show Double.mul _ _ = _
        simp [Double.mul, Double.zero, Double.signBit, not_lt.2 hd.le]
      rw [hz]
      have hs : Double.finite 0 - Double.finite 0 = Double.finite 0 := by decide
      rw [hs, Double.zero_lit]
      simp [Double.lt]
    · have hr0 : a1 / (2 * T) ≠ 0 := by positivity
      rw [Double.finite_mul_finite _ _ hr0 (ne_of_gt hd), hprod]
      have hp0 : a1 / (2 * T) * d ≠ 0 := by positivity
      rw [Double.finite_sub_finite _ _ hp0, hdiff, Double.zero_lit]
      simp only [Double.lt, decide_eq_true_eq, not_lt.2 hnonneg, if_false]
  have hhalf2 : a1 ≠ 0 → Double.ofRat (a1 / 2) = .finite (a1 / 2) := by
    intro h0
    rw [Double.half_lit, Double.finite_mul_finite _ _ (by norm_num) h0] at hhalf
    rw [← hhalf]
    congr 1
    ring
  constructor
  · intro helapsed
    have e1 : a1 / (2 * T) * T = a1 / 2 := by
      field_simp
      ring
    have e2 : a1 - a1 / (2 * T) * T = a1 / 2 := by rw [e1]; ring
    rw [hcore T hTpos helapsed ?_ ?_ ?_, e2]
    · rw [e1]
      by_cases h0 : a1 = 0
      · rw [h0]
        norm_num
        exact Double.ofRat_zero
      · exact hhalf2 h0
    · rw [e2]
      by_cases h0 : a1 = 0
      · rw [h0]
        norm_num
        exact Double.ofRat_zero
      · exact hhalf2 h0
    · rw [e2]
      linarith
  · intro helapsed
    have e1 : a1 / (2 * T) * (2 * T) = a1 := by
      field_simp
    have e2 : a1 - a1 / (2 * T) * (2 * T) = 0 := by rw [e1]; ring
    rw [hcore (2 * T) (by linarith) helapsed ?_ ?_ ?_, e2]
    · rw [e1]
      exact hrep
    · rw [e2]
      exact Double.ofRat_zero
    · rw [e2]

/-- The amended C18 at `apoptoticCell`, whose area at the start of apoptosis is `0.75` and
whose apoptosis lasts `0.25`: at time `1.25` the stored target area is `0.375`, and at
time `1.5 = 1 + 2 * 0.25` it is 0. -/
theorem C18_area_halved_then_zero_witness :
    CellData.GetItem [("slope", 1), ("target area", .finite (3 / 8))] "target area"
        = .ok (.finite ((3 / 4 : ℚ) / 2))
      ∧ CellData.GetItem [("slope", 1), ("target area", .finite 0)] "target area"
        = .ok (.finite 0) :=
  ⟨(C18_area_halved_then_zero new 1.25 apoptoticCell
      { apoptoticCell with cellData := [("slope", 1), ("target area", .finite (3 / 8))] }
      (3 / 4) (1 / 4) rfl (by decide!) (by norm_num) (by decide!) (by norm_num)
      (by decide!) (by decide!) (by decide!) (by decide!)).1 (by decide!),
    (C18_area_halved_then_zero new 1.5 apoptoticCell
      { apoptoticCell with cellData := [("slope", 1), ("target area", .finite 0)] }
      (3 / 4) (1 / 4) rfl (by decide!) (by norm_num) (by decide!) (by norm_num)
      (by decide!) (by decide!) (by decide!) (by decide!)).2 (by decide!)⟩

/-- C26 fails on the code: `cellWithTinySlope` is healthy, has the finite positive G1
duration 2, the slope `2 ^ (-60)`, `G2 + M = 5 > 0`, `S + G2 + M = 10 ≥ 0.1 * 2` and the
age `12 = 2 + 5 + 4 + 1`, but the stored target area is 0, not 1: the target area at the
end of G1 is `2 ^ 58`, which absorbs the `1` it is subtracted from. -/
theorem C26_area_at_end_of_cycle_is_not_one :
    cellWithTinySlope.hasApoptoticCellProperty = false
      ∧ Double.lt 0 cellWithTinySlope.cellCycleModel.g1Duration = true
      ∧ Double.eq cellWithTinySlope.cellCycleModel.g1Duration DBL_MAX = false
      ∧ cellWithTinySlope.cellData.GetItem "slope" = .ok (.finite (1 / 2 ^ 60))
      ∧ Double.lt 0 (cellWithTinySlope.cellCycleModel.g2Duration
          + cellWithTinySlope.cellCycleModel.mDuration) = true
      ∧ Double.ge (cellWithTinySlope.cellCycleModel.sDuration
          + cellWithTinySlope.cellCycleModel.g2Duration
          + cellWithTinySlope.cellCycleModel.mDuration)
          (0.1 * cellWithTinySlope.cellCycleModel.g1Duration) = true
      ∧ cellWithTinySlope.age = cellWithTinySlope.cellCycleModel.g1Duration
          + cellWithTinySlope.cellCycleModel.sDuration
          + cellWithTinySlope.cellCycleModel.g2Duration
          + cellWithTinySlope.cellCycleModel.mDuration
      ∧ UpdateTargetAreaOfCell new 12 cellWithTinySlope
          = .ok { cellWithTinySlope with
                  cellData := [("slope", .finite (1 / 2 ^ 60)), ("target area", .finite 0)] }
      ∧ Double.eq (.finite 0) 1 = false := by
  decide!

/-- C26 as amended: at the end of the cell cycle the growth law returns exactly 1,
whatever the configured mature target area, where its arithmetic is exact.  For every
healthy cell that takes the G2 branch (its age is not below `1.1` times its G1 duration
and is above its G1 duration plus its S duration, as computed), if the elapsed fraction
`(age - g - s) / (g2 + m)` evaluates to 1 and, for the target area `p` at the end of
G1, `1 - p` is computed without rounding, then the update succeeds and the stored
target area is exactly 1. -/
theorem C26_area_at_end_of_cycle (self : TargetAreaNuclearMigrationGrowthModifier)
    (time : Double) (pCell : Cell) (k : Double) (p : ℚ)
    (hA : pCell.hasApoptoticCellProperty = false)
    (hS : pCell.cellData.GetItem "slope" = .ok k)
    (hnotG1 : Double.lt pCell.age (g1_duration pCell * 1.1) = false)
    (hG2 : Double.gt pCell.age (g1_duration pCell + pCell.cellCycleModel.sDuration) = true)
    (hratio : (pCell.age - g1_duration pCell - pCell.cellCycleModel.sDuration)
        / (pCell.cellCycleModel.g2Duration + pCell.cellCycleModel.mDuration) = .finite 1)
    (hp : (0.5 : Double) + pCell.cellCycleModel.g1Duration / (k * 8.0) = .finite p)
    (hsub : (1 : Double) - .finite p = .finite (1 - p)) :
    ∃ updated, UpdateTargetAreaOfCell self time pCell = .ok updated
      ∧ updated.cellData.GetItem "target area" = .ok (.finite 1) := by
  refine ⟨_, (updateTargetAreaOfCell_ok_rounded self time pCell _).2 ⟨k, hS, rfl⟩, ?_⟩
  rw [CellData.getItem_setItem_same_rounded]
  congr 1
  simp only [cell_target_area, hA, Bool.false_eq_true, if_false, hnotG1, hG2, if_true,
    hratio, hp, hsub]
  by_cases h1 : 1 - p = 0
  · have hz : Double.finite 1 * Double.finite (1 - p) = Double.finite 0 := by
      show Double.mul _ _ = _
      simp [Double.mul, Double.zero, Double.signBit, h1]
    have hp1 : p = 1 := by linarith
    rw [hz, Double.finite_add_finite, hp1]
    norm_num
    exact Double.ofRat_one
  · have hrep : Double.ofRat (1 - p) = .finite (1 - p) := by
      by_cases h0 : p = 0
      · rw [h0]
        norm_num
        exact Double.ofRat_one
      · rw [Double.one_lit, Double.finite_sub_finite _ _ h0] at hsub
        exact hsub
    rw [Double.finite_mul_finite _ _ (by norm_num) h1, one_mul, hrep,
      Double.finite_add_finite]
    have : p + (1 - p) = 1 := by ring
    rw [this]
    exact Double.ofRat_one

/-- The amended C26 at `cellAtEndOfCycle` (age 12 = 2 + 5 + 4 + 1, slope 1), for which the
target area at the end of G1 is `0.75`, with the mature target area `DBL_MAX`. -/
theorem C26_area_at_end_of_cycle_witness :
    ∃ updated,
      UpdateTargetAreaOfCell modifierWithLargestMatureArea 12 cellAtEndOfCycle = .ok updated
        ∧ updated.cellData.GetItem "target area" = .ok (.finite 1) :=
  C26_area_at_end_of_cycle modifierWithLargestMatureArea 12 cellAtEndOfCycle 1 (3 / 4) rfl
    (by decide!) (by decide!) (by decide!) (by decide!) (by decide!) (by decide!)

/-- C20 fails on the code: `cellInG2Phase` is healthy and not ready to divide, and its age
9 is at least its G1 duration 2 (it is in G2 phase, `9 > 2 + 5`); it is given the target
area `0.85`, on the line from `0.75` to 1 of the branch
`cell_age > g1_duration + s_duration`, not the mature cell target area `1.0`. -/
theorem C20_g2_phase_area_is_not_mature :
    cellInG2Phase.hasApoptoticCellProperty = false
      ∧ cellInG2Phase.readyToDivide = false
      ∧ Double.ge cellInG2Phase.age (g1_duration cellInG2Phase) = true
      ∧ UpdateTargetAreaOfCell new 9 cellInG2Phase
          = .ok { cellInG2Phase with
              cellData :=
                [("slope", 1),
                 ("target area", .finite (7656119366529843 / 9007199254740992))] }
      ∧ new.mMatureCellTargetArea = .finite 1
      ∧ Double.eq (.finite (7656119366529843 / 9007199254740992)) new.mMatureCellTargetArea
          = false := by
  decide!

end TargetAreaNuclearMigrationGrowthModifier

end Rounded

/-! ## The ODE system in binary64 arithmetic: theorems -/

namespace Rounded

namespace Alarcon2004OxygenBasedCellCycleOdeSystem

/-- C5 fails on the code: at the state `(1.04, 0, 0, 0, 1, 0)` of a normal cell the divisor
`J3 + 1 - x` is zero, and what is written to `rDY[0]` is the negative infinity, not a
number. -/
theorem C5_writes_infinity :
    (new 1 false).mJ3 + 1 - 1.04 = .finite 0
      ∧ EvaluateYDerivatives (new 1 false) 0 [1.04, 0, 0, 0, 1, 0] [0, 0, 0, 0, 0, 0]
        = .ok [.negInf, .finite (5404319552844595 / 2251799813685248), .finite 6, .finite 0,
            .finite (-3039929748475085 / 562949953421312), .finite 0]
      ∧ ∀ q : ℚ, Double.negInf ≠ Double.finite q := by
  refine ⟨by decide!, by decide!, fun q h => Double.noConfusion h⟩

/-- C5 as amended: for every state `(x, y, z, m, u, P)` and every time,
`EvaluateYDerivatives` of a freshly constructed system writes the Alarcon (2004)
right-hand side rescaled from minutes to hours, evaluated in binary64 arithmetic in the
order of the source, with `a1 = 0.05`, `c1 = 0.1` and the mass term in the p27 equation
for a normal cell, and `a1 = 0.04`, `c1 = 0.007` and no mass term for a labelled cell.
(Where a divisor is zero, what is written is an infinity or not-a-number.) -/
theorem C5_evaluateYDerivatives_rhs
    (oxygenConcentration time x y z m u P d0 d1 d2 d3 d4 d5 : Double) :
    EvaluateYDerivatives (new oxygenConcentration false) time [x, y, z, m, u, P]
        [d0, d1, d2, d3, d4, d5]
      = .ok [60.0 * ((1 + 10.0 * u) * (1 - x) / (0.04 + 1 - x) - 5.5 * m * x * y / (0.04 + x)),
              60.0 * (0.04 - (0.05 + 1.0 * x + 0.25 * z) * y),
              60.0 * (0.1 * (1 - m / 10.0) - 0.01 * P * z / (0.01 + P)),
              60.0 * (0.01 * m * (1 - m / 10.0)),
              60.0 * (0.01 - (0.1 + 0.01 * y) * u),
              0.0]
    ∧ EvaluateYDerivatives (new oxygenConcentration true) time [x, y, z, m, u, P]
        [d0, d1, d2, d3, d4, d5]
      = .ok [60.0 * ((1 + 10.0 * u) * (1 - x) / (0.04 + 1 - x) - 5.5 * m * x * y / (0.04 + x)),
              60.0 * (0.04 - (0.04 + 1.0 * x + 0.25 * z) * y),
              60.0 * (0.007 - 0.01 * P * z / (0.01 + P)),
              60.0 * (0.01 * m * (1 - m / 10.0)),
              60.0 * (0.01 - (0.1 + 0.01 * y) * u),
              0.0] := by
  constructor <;> rfl

end Alarcon2004OxygenBasedCellCycleOdeSystem

end Rounded

namespace Double

/-- A value at or above zero and not above one is a zero or a finite number in `[0, 1]`. -/
theorem unit_interval_cases (x : Double) (h0 : le 0 x = true) (h1 : le x 1 = true) :
    x = negZero ∨ ∃ q : ℚ, x = finite q ∧ 0 ≤ q ∧ q ≤ 1 := by
  rw [zero_lit] at h0
  rw [one_lit] at h1
  cases x with
  | nan => simp [le, lt, eq] at h0
  | posInf => simp [le, lt, eq] at h1
  | negInf => simp [le, lt, eq] at h0
  | negZero => exact Or.inl rfl
  | finite q =>
      refine Or.inr ⟨q, rfl, ?_, ?_⟩
      · simp [le, lt, eq] at h0
        rcases h0 with h | h
        · exact h.le
        · exact h.le
      · simp [le, lt, eq] at h1
        rcases h1 with h | h
        · exact h.le
        · exact h.le

/-- A value at or above zero is a zero, a finite number not below zero, or the positive
infinity. -/
theorem nonneg_cases (x : Double) (h0 : le 0 x = true) :
    x = negZero ∨ x = posInf ∨ ∃ q : ℚ, x = finite q ∧ 0 ≤ q := by
  rw [zero_lit] at h0
  cases x with
  | nan => simp [le, lt, eq] at h0
  | posInf => exact Or.inr (Or.inl rfl)
  | negInf => simp [le, lt, eq] at h0
  | negZero => exact Or.inl rfl
  | finite q =>
      refine Or.inr (Or.inr ⟨q, rfl, ?_⟩)
      simp [le, lt, eq] at h0
      rcases h0 with h | h
      · exact h.le
      · exact h.le

/-- What is at least a positive number is above zero. -/
theorem pos_of_le (lo : ℚ) (y : Double) (hlo : 0 < lo) (h : le (finite lo) y = true) :
    lt 0 y = true := by
  rw [zero_lit]
  cases y with
  | nan => simp [le, lt, eq] at h
  | posInf => simp [lt]
  | negInf => simp [le, lt, eq] at h
  | negZero =>
      simp [le, lt, eq] at h
      rcases h with h | h <;> linarith
  | finite value =>
      simp [le, lt, eq] at h ⊢
      rcases h with h | h <;> linarith

/-- The rounding of a rational number that is at least `1 / 128` is above zero. -/
theorem ofRat_pos (r : ℚ) (h : 1 / 128 ≤ r) : lt 0 (ofRat r) = true := by
  have h1 : ofRat (1 / 128) = finite (1 / 128) := by decide!
  have h2 := ofRat_mono (1 / 128) r h
  rw [h1] at h2
  exact pos_of_le (1 / 128) _ (by norm_num) h2

/-- A value above zero is not a zero. -/
theorem isZero_of_pos (y : Double) (h : lt 0 y = true) : isZero y = false := by
  rw [zero_lit] at h
  cases y with
  | finite value =>
      simp [lt, isZero] at h ⊢
      exact ne_of_gt h
  | _ => simp [lt, isZero] at h ⊢

end Double

namespace Rounded

namespace Alarcon2004OxygenBasedCellCycleOdeSystem

/-- On `0 ≤ x ≤ 1` the divisor `J3 + 1 - x` is above zero. -/
theorem divisor_J3_pos (x : Double) (h0 : Double.le 0 x = true) (h1 : Double.le x 1 = true) :
    Double.lt 0 ((0.04 : Double) + 1 - x) = true := by
  have ha : (0.04 : Double) + 1 = .finite (1170935903116329 / 1125899906842624) := by decide!
  rw [ha]
  rcases Double.unit_interval_cases x h0 h1 with rfl | ⟨q, rfl, hq0, hq1⟩
  · exact Double.ofRat_pos _ (by norm_num)
  · by_cases hq : q = 0
    · subst hq
      exact Double.ofRat_pos _ (by norm_num)
    · rw [Double.finite_sub_finite _ _ hq]
      exact Double.ofRat_pos _ (by linarith)

/-- On `0 ≤ x` the divisor `J4 + x` is above zero. -/
theorem divisor_J4_pos (x : Double) (h0 : Double.le 0 x = true) :
    Double.lt 0 ((0.04 : Double) + x) = true := by
  have ha : (0.04 : Double) = .finite (5764607523034235 / 144115188075855872) := by decide!
  rw [ha]
  rcases Double.nonneg_cases x h0 with rfl | rfl | ⟨q, rfl, hq0⟩
  · exact Double.ofRat_pos _ (by norm_num)
  · decide
  · rw [Double.finite_add_finite]
    exact Double.ofRat_pos _ (by linarith)

/-- On an oxygen concentration `≥ 0` the divisor `B + oxygen` is above zero. -/
theorem divisor_B_pos (P : Double) (h0 : Double.le 0 P = true) :
    Double.lt 0 ((0.01 : Double) + P) = true := by
  have ha : (0.01 : Double) = .finite (5764607523034235 / 576460752303423488) := by decide!
  rw [ha]
  rcases Double.nonneg_cases P h0 with rfl | rfl | ⟨q, rfl, hq0⟩
  · exact Double.ofRat_pos _ (by norm_num)
  · decide
  · rw [Double.finite_add_finite]
    exact Double.ofRat_pos _ (by linarith)

/-- A checked division by what is not a zero is the division itself. -/
theorem divideChecked_ok (a b : Double) (h : Double.isZero b = false) :
    divideChecked a b = .ok (a / b) := by
  unfold divideChecked
  rw [h]
  rfl

/-- With divisors that are not zero the checked run of `EvaluateYDerivatives` is the
run of the method itself. -/
theorem checked_eq_unchecked (self : Alarcon2004OxygenBasedCellCycleOdeSystem)
    (time x y z m u P d0 d1 d2 d3 d4 d5 : Double)
    (z3 : Double.isZero (self.mJ3 + 1 - x) = false)
    (z4 : Double.isZero (self.mJ4 + x) = false)
    (zB : Double.isZero (self.mB + P) = false)
    (zM : Double.isZero self.mMstar = false) :
    EvaluateYDerivativesChecked self time [x, y, z, m, u, P] [d0, d1, d2, d3, d4, d5]
      = EvaluateYDerivatives self time [x, y, z, m, u, P] [d0, d1, d2, d3, d4, d5] := by
  cases self with
  | mk ma1 ma2 ma3 ma4 mb3 mb4 mc1 mc2 md1 md2 mJ3 mJ4 mEta mMstar mB mxT myT mO labelled =>
      have q1 := divideChecked_ok ((1 + mb3 * u) * (1 - x)) (mJ3 + 1 - x) z3
      have q2 := divideChecked_ok (mb4 * m * x * y) (mJ4 + x) z4
      have q3 := divideChecked_ok (mc2 * P * z) (mB + P) zB
      have q4 := divideChecked_ok m mMstar zM
      cases labelled
      · show (do
          let a ← divideChecked ((1 + mb3 * u) * (1 - x)) (mJ3 + 1 - x)
          let b ← divideChecked (mb4 * m * x * y) (mJ4 + x)
          let c ← divideChecked m mMstar
          let d ← divideChecked (mc2 * P * z) (mB + P)
          let e ← divideChecked m mMstar
          (pure [60.0 * (a - b),
            60.0 * (ma4 - (ma1 + ma2 * x + ma3 * z) * y),
            60.0 * (mc1 * (1 - c) - d),
            60.0 * (mEta * m * (1 - e)),
            60.0 * (md1 - (md2 + md1 * y) * u),
            0.0] : Except Fault (List Double))) = _
        rw [q1, q2, q3, q4]
        rfl
      · show (do
          let a ← divideChecked ((1 + mb3 * u) * (1 - x)) (mJ3 + 1 - x)
          let b ← divideChecked (mb4 * m * x * y) (mJ4 + x)
          let d ← divideChecked (mc2 * P * z) (mB + P)
          let e ← divideChecked m mMstar
          (pure [60.0 * (a - b),
            60.0 * (ma4 - (ma1 + ma2 * x + ma3 * z) * y),
            60.0 * (mc1 - d),
            60.0 * (mEta * m * (1 - e)),
            60.0 * (md1 - (md2 + md1 * y) * u),
            0.0] : Except Fault (List Double))) = _
        rw [q1, q2, q3, q4]
        rfl

/-- C25: `EvaluateYDerivatives` never divides by zero on the biologically admissible
region: for a constructed system of either cell type and every 6-component state with
`0 ≤ x ≤ 1` and oxygen concentration `≥ 0`, the divisors `J3 + 1 - x`, `J4 + x` and
`B + oxygen` (with `J3 = J4 = 0.04` and `B = 0.01`) are strictly positive; the method,
run with every divisor checked, meets no zero divisor (the remaining divisor is the
constant `Mstar = 10`) and no access out of bounds on vectors of length 6, and returns
the same vector of length 6 as without the checks. -/
theorem C25_no_division_by_zero (oxygenConcentration : Double) (isLabelled : Bool)
    (time x y z m u P d0 d1 d2 d3 d4 d5 : Double)
    (hx0 : Double.le 0 x = true) (hx1 : Double.le x 1 = true) (hP : Double.le 0 P = true) :
    (new oxygenConcentration isLabelled).mJ3 = 0.04
      ∧ (new oxygenConcentration isLabelled).mJ4 = 0.04
      ∧ (new oxygenConcentration isLabelled).mB = 0.01
      ∧ Double.lt 0 ((new oxygenConcentration isLabelled).mJ3 + 1 - x) = true
      ∧ Double.lt 0 ((new oxygenConcentration isLabelled).mJ4 + x) = true
      ∧ Double.lt 0 ((new oxygenConcentration isLabelled).mB + P) = true
      ∧ ∃ rDY, EvaluateYDerivativesChecked (new oxygenConcentration isLabelled) time
            [x, y, z, m, u, P] [d0, d1, d2, d3, d4, d5] = .ok rDY
          ∧ EvaluateYDerivatives (new oxygenConcentration isLabelled) time
            [x, y, z, m, u, P] [d0, d1, d2, d3, d4, d5] = .ok rDY
          ∧ rDY.length = 6 := by
  have h3 : (new oxygenConcentration isLabelled).mJ3 = 0.04 := by cases isLabelled <;> rfl
  have h4 : (new oxygenConcentration isLabelled).mJ4 = 0.04 := by cases isLabelled <;> rfl
  have hB : (new oxygenConcentration isLabelled).mB = 0.01 := by cases isLabelled <;> rfl
  have hM : (new oxygenConcentration isLabelled).mMstar = 10.0 := by cases isLabelled <;> rfl
  have p3 : Double.lt 0 ((new oxygenConcentration isLabelled).mJ3 + 1 - x) = true := by
    rw [h3]
    exact divisor_J3_pos x hx0 hx1
  have p4 : Double.lt 0 ((new oxygenConcentration isLabelled).mJ4 + x) = true := by
    rw [h4]
    exact divisor_J4_pos x hx0
  have pB : Double.lt 0 ((new oxygenConcentration isLabelled).mB + P) = true := by
    rw [hB]
    exact divisor_B_pos P hP
  have zM : Double.isZero (new oxygenConcentration isLabelled).mMstar = false := by
    rw [hM]
    decide!
  have hrun := checked_eq_unchecked (new oxygenConcentration isLabelled) time x y z m u P
    d0 d1 d2 d3 d4 d5 (Double.isZero_of_pos _ p3) (Double.isZero_of_pos _ p4)
    (Double.isZero_of_pos _ pB) zM
  refine ⟨h3, h4, hB, p3, p4, pB, ?_⟩
  rw [hrun]
  cases isLabelled
  · exact ⟨[60.0 * ((1 + 10.0 * u) * (1 - x) / (0.04 + 1 - x) - 5.5 * m * x * y / (0.04 + x)),
      60.0 * (0.04 - (0.05 + 1.0 * x + 0.25 * z) * y),
      60.0 * (0.1 * (1 - m / 10.0) - 0.01 * P * z / (0.01 + P)),
      60.0 * (0.01 * m * (1 - m / 10.0)),
      60.0 * (0.01 - (0.1 + 0.01 * y) * u),
      0.0], rfl, rfl, rfl⟩
  · exact ⟨[60.0 * ((1 + 10.0 * u) * (1 - x) / (0.04 + 1 - x) - 5.5 * m * x * y / (0.04 + x)),
      60.0 * (0.04 - (0.04 + 1.0 * x + 0.25 * z) * y),
      60.0 * (0.007 - 0.01 * P * z / (0.01 + P)),
      60.0 * (0.01 * m * (1 - m / 10.0)),
      60.0 * (0.01 - (0.1 + 0.01 * y) * u),
      0.0], rfl, rfl, rfl⟩

/-- C25 at the default initial state of a normal cell with oxygen concentration 1. -/
theorem C25_no_division_by_zero_witness :
    Double.le 0 0.9 = true ∧ Double.le 0.9 1 = true ∧ Double.le 0 1 = true
      ∧ Double.lt 0 ((new 1 false).mJ3 + 1 - 0.9) = true
      ∧ Double.lt 0 ((new 1 false).mJ4 + 0.9) = true
      ∧ Double.lt 0 ((new 1 false).mB + 1) = true
      ∧ ∃ rDY, EvaluateYDerivativesChecked (new 1 false) 0 [0.9, 0.01, 0, 5, 1, 1]
            [0, 0, 0, 0, 0, 0] = .ok rDY
          ∧ EvaluateYDerivatives (new 1 false) 0 [0.9, 0.01, 0, 5, 1, 1]
            [0, 0, 0, 0, 0, 0] = .ok rDY
          ∧ rDY.length = 6 :=
  have h := C25_no_division_by_zero 1 false 0 0.9 0.01 0 5 1 1 0 0 0 0 0 0
    (by decide!) (by decide!) (by decide!)
  ⟨by decide!, by decide!, by decide!, h.2.2.2.1, h.2.2.2.2.1, h.2.2.2.2.2.1,
    h.2.2.2.2.2.2⟩

end Alarcon2004OxygenBasedCellCycleOdeSystem

end Rounded

end Chaste
